import Mathlib

/-!
The yb build driver: a shallow embedding of `cmd/yb/build.go`,
`containers.go` and `buildpacks/*.go`.

The development embeds the build command of `cmd/yb/build.go`
(`buildCmd.run`, `doTargetList`, `doTarget`) and its trace sink
(`traceSink.ExportSpan`, `traceSink.dump`, `traceSink.dumpLocked`), the
container functions of `containers.go` (`FindContainer`, `PullImage`,
`NewContainer`, `ServiceContext.StandUp`) and the `Install` methods and
install directories of the Node, Java, R, Anaconda and Python buildpacks.

Go statements with an external effect become entries of an event list, in
program order.  Functions of other packages (`newBiome`, `build.Setup`,
`build.Execute`, `newDockerNetwork`, `Manifest.BuildOrder`, ...) are fields of
a `World`: each returns the Go pair `(value, err)` with `err = none` for `nil`.
The per-target operations additionally see the events emitted so far, so that
their outcome may depend on everything that happened before the call.
-/

namespace Yb

/-! ## Errors -/

/-- A Go `error` value: either created from a message, or made by
`fmt.Errorf` with a `%w` verb, in which case it remembers the wrapped cause. -/
inductive GoError where
  | new (msg : String)
  | wrap (msg : String) (cause : GoError)
deriving DecidableEq, Repr

namespace GoError

/-- The text of `err.Error()`. -/
def Error : GoError → String
  | .new msg => msg
  | .wrap msg _ => msg

/-- The result of `errors.Unwrap(err)`. -/
def Unwrap : GoError → Option GoError
  | .new _ => none
  | .wrap _ cause => some cause

/-- The chain relation behind `errors.Is`: `Wraps e c` holds when `c` is `e`
or is reached from `e` by repeated `Unwrap`. -/
def Wraps : GoError → GoError → Prop
  | .new msg, c => c = .new msg
  | .wrap msg cause, c => c = .wrap msg cause ∨ Wraps cause c

end GoError

/-- The value of `fmt.Errorf("target %s: %w", name, err)`. -/
def errorfTarget (name : String) (err : GoError) : GoError :=
  .wrap ("target " ++ name ++ ": " ++ err.Error) err

/-- The value of `fmt.Errorf("parse --exec-prefix: %w", err)`. -/
def errorfExecPrefix (err : GoError) : GoError :=
  .wrap ("parse --exec-prefix: " ++ err.Error) err

/-- The value of `strings.Join(elems, sep)`. -/
def stringsJoin (elems : List String) (sep : String) : String :=
  match elems with
  | [] => ""
  | [a] => a
  | a :: rest => a ++ sep ++ stringsJoin rest sep

/-- The value of `fmt.Errorf("%w\nValid build targets: %s", err, strings.Join(list, ", "))`. -/
def errorfBuildOrder (err : GoError) (valid : List String) : GoError :=
  .wrap (err.Error ++ "\nValid build targets: " ++ stringsJoin valid ", ") err

/-! ## Data of the build command -/

/-- The fields of `yb.BuildTarget` the driver reads. -/
structure BuildTarget where
  Name : String
deriving DecidableEq, Repr

/-- The fields of `yb.Package` the driver reads. -/
structure Package where
  Name : String
  Path : String
deriving DecidableEq, Repr

/-- The receiver of `run`: the three command-line flags. -/
structure buildCmd where
  execPrefix : String
  noContainer : Bool
  dependenciesOnly : Bool
deriving DecidableEq, Repr

/-- The struct `doOptions`.  `dockerClient` records whether the pointer is
non-nil; the `dataDirs` pointer is only passed along and is left out. -/
structure doOptions where
  dockerClient : Bool
  dockerNetworkID : String
  execPrefix : List String
  setupOnly : Bool
deriving DecidableEq, Repr

/-- The two closable biomes of one `doTarget` call: `bio`, acquired by
`newBiome`, and `execBiome`, returned by `build.Setup`. -/
inductive BiomeHandle where
  | bio
  | execBiome
deriving DecidableEq, Repr

/-- Externally visible steps of the build command, in program order. -/
inductive Event where
  /-- Call `startSection(name)` -/
  | startSection (name : String)
  /-- Call `subSection(name)` -/
  | subSection (name : String)
  /-- Call `ybtrace.Start(ctx, "Build", trace.WithNewRoot())` -/
  | spanStart
  /-- Call `span.SetStatus(codes.Unknown, msg)` -/
  | spanSetStatus (msg : String)
  /-- Call `span.End()` -/
  | spanEnd
  /-- Call `Manifest.BuildOrder(name)` -/
  | buildOrder (name : String)
  /-- Call `newDockerNetwork(ctx, client)` -/
  | newDockerNetwork
  /-- Call of the `cleanup` function returned with network `id` -/
  | networkCleanup (id : String)
  /-- Call `newBiome(ctx, client, dataDirs, pkgPath, target)` -/
  | newBiome (pkgPath : String) (target : String)
  /-- Call `targetToPhaseDeps(target)` -/
  | targetToPhaseDeps (target : String)
  /-- Call `build.Setup(ctx, sys, phaseDeps)` with `sys.DockerNetworkID = networkID` -/
  | setup (target : String) (networkID : String)
  /-- Call `build.Execute(ctx, sys, targetToPhase(target))` with
  `sys.DockerNetworkID = networkID` and `sys.Biome` wrapped with `PrependArgv = prependArgv` -/
  | execute (target : String) (networkID : String) (prependArgv : List String)
  /-- Call `Close()` on one of the two biomes of the call for `target` -/
  | close (target : String) (h : BiomeHandle)
deriving DecidableEq, Repr

/-- Everything the build command calls outside `build.go`.  Each field gives
the Go result of the call; an error component `none` is `nil`. -/
structure World where
  /-- Call `sdktrace.NewProvider(...)`: its error -/
  NewProvider : Option GoError
  /-- Call `ybdata.DirsFromEnv()`: its error -/
  DirsFromEnv : Option GoError
  /-- Call `shlex.Split(s)` -/
  shlexSplit : String → List String × Option GoError
  /-- Call `connectDockerClient(useDocker)`: whether the client is non-nil, and the error -/
  connectDockerClient : Bool → Bool × Option GoError
  /-- Call `plumbing.InsideTheMatrix()` -/
  InsideTheMatrix : Bool
  /-- Call `GetTargetPackage()` -/
  GetTargetPackage : Package × Option GoError
  /-- Call `pkg.Manifest.BuildOrder(name)` -/
  BuildOrder : Package → String → List BuildTarget × Option GoError
  /-- Call `pkg.Manifest.BuildTargetList()` -/
  BuildTargetList : Package → List String
  /-- Call `newDockerNetwork(ctx, client)`: the network id and the error -/
  newDockerNetwork : List Event → String × Option GoError
  /-- Call `newBiome(ctx, client, dataDirs, pkgPath, target)`: its error -/
  newBiome : List Event → Bool → String → String → Option GoError
  /-- Call `targetToPhaseDeps(target)`: its error -/
  targetToPhaseDeps : BuildTarget → Option GoError
  /-- Call `build.Setup(ctx, sys, phaseDeps)`: its error -/
  Setup : List Event → BuildTarget → String → Option GoError
  /-- Call `build.Execute(ctx, sys, phase)`: its error -/
  Execute : List Event → BuildTarget → String → List String → Option GoError

/-- What a call leaves behind: the events it emitted and its `error` result. -/
structure Outcome where
  events : List Event
  err : Option GoError
deriving DecidableEq, Repr

/-! ## `doTarget`, `doTargetList`, `run` -/

/-- The function `doTarget`.  `hist` holds the events emitted before the call.
The two deferred closures run when the function returns, last registered
first: `execBiome.Close()` (registered only after `build.Setup` succeeded),
then `bio.Close()`. -/
def doTarget (w : World) (pkg : Package) (target : BuildTarget) (opts : doOptions)
    (hist : List Event) : Outcome :=
  let e1 := [Event.newBiome pkg.Path target.Name]
  match w.newBiome hist opts.dockerClient pkg.Path target.Name with
  | some err => ⟨e1, some (errorfTarget target.Name err)⟩
  | none =>
    let closeBio := [Event.close target.Name .bio]
    let e2 := e1 ++ [Event.targetToPhaseDeps target.Name]
    match w.targetToPhaseDeps target with
    | some err => ⟨e2 ++ closeBio, some err⟩
    | none =>
      let e3 := e2 ++ [Event.setup target.Name opts.dockerNetworkID]
      match w.Setup (hist ++ e2) target opts.dockerNetworkID with
      | some err => ⟨e3 ++ closeBio, some err⟩
      | none =>
        let closeExec := [Event.close target.Name .execBiome]
        if opts.setupOnly then
          ⟨e3 ++ closeExec ++ closeBio, none⟩
        else
          let e3s := e3 ++ [Event.subSection ("Build target: " ++ target.Name)]
          let e4 := e3s ++ [Event.execute target.Name opts.dockerNetworkID opts.execPrefix]
          match w.Execute (hist ++ e3s) target opts.dockerNetworkID opts.execPrefix with
          | some err => ⟨e4 ++ closeExec ++ closeBio, some err⟩
          | none => ⟨e4 ++ closeExec ++ closeBio, none⟩

/-- The loop `for _, target := range targets` of `doTargetList`: the first
error returned by `doTarget` is returned at once. -/
def doTargetLoop (w : World) (pkg : Package) (opts : doOptions) :
    List BuildTarget → List Event → Outcome
  | [], _ => ⟨[], none⟩
  | target :: rest, hist =>
    let r := doTarget w pkg target opts hist
    match r.err with
    | some err => ⟨r.events, some err⟩
    | none =>
      let r2 := doTargetLoop w pkg opts rest (hist ++ r.events)
      ⟨r.events ++ r2.events, r2.err⟩

/-- The function `doTargetList`.  The deferred `cleanup()` runs after the
loop, whichever way the loop ended. -/
def doTargetList (w : World) (pkg : Package) (targets : List BuildTarget)
    (opts : doOptions) (hist : List Event) : Outcome :=
  if targets.length = 0 then
    ⟨[], none⟩
  else if opts.dockerClient ∧ opts.dockerNetworkID = "" then
    let e1 := [Event.newDockerNetwork]
    match w.newDockerNetwork hist with
    | (_, some err) => ⟨e1, some err⟩
    | (id, none) =>
      let opts2 := { opts with dockerNetworkID := id }
      let r := doTargetLoop w pkg opts2 targets (hist ++ e1)
      ⟨e1 ++ r.events ++ [Event.networkCleanup id], r.err⟩
  else
    doTargetLoop w pkg opts targets hist

/-- The method `buildCmd.run`.  The Go variable `err` is assigned by every
`x, err := ...` statement of the function; the value it holds after the
`BuildOrder` statement is the one the final `return err` reads. -/
def run (w : World) (b : buildCmd) (buildTargetName : String) : Outcome :=
  match w.NewProvider with
  | some err => ⟨[], some err⟩
  | none =>
  match w.DirsFromEnv with
  | some err => ⟨[], some err⟩
  | none =>
  match w.shlexSplit b.execPrefix with
  | (_, some err) => ⟨[], some (errorfExecPrefix err)⟩
  | (execPrefix, none) =>
  match w.connectDockerClient (!b.noContainer) with
  | (_, some err) => ⟨[], some err⟩
  | (dockerClient, none) =>
  -- `defer span.End()` is registered here: every later return emits `spanEnd`
  let e1 := [Event.spanStart,
    Event.startSection (if w.InsideTheMatrix then "BUILD CONTAINER" else "BUILD HOST"),
    Event.startSection "BUILD PACKAGE SETUP"]
  match w.GetTargetPackage with
  | (_, some err) => ⟨e1 ++ [Event.spanEnd], some err⟩
  | (targetPackage, none) =>
  let e2 := e1 ++ [Event.buildOrder buildTargetName]
  let (buildTargets, err) := w.BuildOrder targetPackage buildTargetName
  match err with
  | some err =>
    ⟨e2 ++ [Event.spanEnd], some (errorfBuildOrder err (w.BuildTargetList targetPackage))⟩
  | none =>
  let e3 := e2 ++ [Event.startSection "BUILD"]
  let build := doTargetList w targetPackage buildTargets
    { dockerClient := dockerClient, dockerNetworkID := "",
      execPrefix := execPrefix, setupOnly := b.dependenciesOnly } e3
  let buildError := build.err
  let e4 := e3 ++ build.events ++
    (match buildError with
     | some be => [Event.spanSetStatus be.Error]
     | none => []) ++ [Event.spanEnd]
  if buildError ≠ none then
    ⟨e4 ++ [Event.subSection "BUILD FAILED", Event.spanEnd], err⟩
  else
    ⟨e4 ++ [Event.subSection "BUILD SUCCEEDED", Event.spanEnd], none⟩

/-! ## The trace sink -/

/-- A `trace.SpanID`: its eight bytes read as one number. -/
structure SpanID where
  val : Nat
deriving DecidableEq, Repr

/-- The method `SpanID.IsValid`: the id is not the all-zero id. -/
def SpanID.IsValid (id : SpanID) : Bool := id.val != 0

/-- The fields of `exporttrace.SpanData` the sink reads.  Times are instants
on some clock; how they print is left to a `Formatter`. -/
structure SpanData where
  SpanID : Yb.SpanID
  ParentSpanID : Yb.SpanID
  Name : String
  StartTime : Int
  EndTime : Int
deriving DecidableEq, Repr

/-- The two renderings the Go standard library provides to `dumpLocked`. -/
structure Formatter where
  /-- Text of `t.Format(TIME_FORMAT)` -/
  Format : Int → String
  /-- Text that the verb `%.3f` gives for `endTime.Sub(startTime).Seconds()` -/
  Seconds : Int → Int → String

/-- The struct `traceSink` (without its mutex).  A Go map read at a key that
is absent yields the empty slice, so `children` is a total function. -/
structure traceSink where
  rootSpans : List SpanData
  children : SpanID → List SpanData

/-- The zero value of `traceSink`: an empty sink. -/
def traceSink.empty : traceSink := ⟨[], fun _ => []⟩

/-- The method `traceSink.ExportSpan`. -/
def traceSink.ExportSpan (sink : traceSink) (span : SpanData) : traceSink :=
  if !span.ParentSpanID.IsValid then
    { sink with rootSpans := sink.rootSpans ++ [span] }
  else
    { sink with children := fun id =>
        if id = span.ParentSpanID then sink.children span.ParentSpanID ++ [span]
        else sink.children id }

/-- A sequence of `ExportSpan` calls, first span first. -/
def traceSink.exportAll (sink : traceSink) (spans : List SpanData) : traceSink :=
  spans.foldl traceSink.ExportSpan sink

def traceDumpStartWidth : Nat := 14
def traceDumpEndWidth : Nat := 14
def traceDumpElapsedWidth : Nat := 14

/-- The string written by `writeSpaces(sb, n)`. -/
def writeSpaces (n : Nat) : String := String.mk (List.replicate n ' ')

/-- The value of `strings.Repeat(s, count)`. -/
def stringsRepeat (s : String) : Nat → String
  | 0 => ""
  | n + 1 => s ++ stringsRepeat s n

/-- The verb `%-*s`: `s` padded with spaces on the right up to `width`. -/
def padRight (width : Nat) (s : String) : String := s ++ writeSpaces (width - s.length)

/-- The verb `%*.3f` once the digits are known: padded on the left up to `width`. -/
def padLeft (width : Nat) (s : String) : String := writeSpaces (width - s.length) ++ s

/-- The constant `indent` of `dumpLocked`. -/
def indent : String := "  "

/-- The header line `dump` writes first. -/
def dumpHeader : String :=
  padRight traceDumpStartWidth "Start" ++ " " ++ padRight traceDumpEndWidth "End" ++ " " ++
    padRight traceDumpElapsedWidth "Elapsed" ++ "\n"

/-- The line `dumpLocked` writes for one span at nesting depth `depth`. -/
def spanRow (f : Formatter) (span : SpanData) (depth : Nat) : String :=
  padRight traceDumpStartWidth (f.Format span.StartTime) ++ " " ++
    padRight traceDumpEndWidth (f.Format span.EndTime) ++ " " ++
    padLeft (traceDumpElapsedWidth - 1) (f.Seconds span.StartTime span.EndTime) ++ "s " ++
    (stringsRepeat indent depth ++ span.Name) ++ "\n"

/-- The line `dumpLocked` writes in place of the spans below depth 2. -/
def elidedRow (depth : Nat) : String :=
  writeSpaces (traceDumpStartWidth + traceDumpEndWidth + traceDumpElapsedWidth + 3) ++
    stringsRepeat indent depth ++ "...\n"

/-- The variable `list` of `dumpLocked`: the root spans, or the recorded
children of `parent` when `parent` is a valid id. -/
def traceSink.list (sink : traceSink) (parent : SpanID) : List SpanData :=
  if parent.IsValid then sink.children parent else sink.rootSpans

/-- The method `traceSink.dumpLocked`; the value is the text it appends to
the string builder. -/
def traceSink.dumpLocked (f : Formatter) (sink : traceSink) (parent : SpanID) (depth : Nat) :
    String :=
  if _h : depth ≥ 3 then
    if (sink.list parent).length > 0 then elidedRow depth else ""
  else
    (sink.list parent).foldl
      (fun sb span => sb ++ spanRow f span depth ++ dumpLocked f sink span.SpanID (depth + 1)) ""
termination_by 3 - depth
decreasing_by omega

/-- The method `traceSink.dump`. -/
def traceSink.dump (f : Formatter) (sink : traceSink) : String :=
  dumpHeader ++ sink.dumpLocked f ⟨0⟩ 0

/-! ## Observations on event lists -/

/-- Whether the event is a call of `build.Execute`. -/
def Event.isExecute : Event → Bool
  | .execute _ _ _ => true
  | _ => false

/-- Whether the event is a call of `build.Setup`. -/
def Event.isSetup : Event → Bool
  | .setup _ _ => true
  | _ => false

/-- Whether the event is a `Close()` of the given biome of some target. -/
def Event.isClose (h : BiomeHandle) : Event → Bool
  | .close _ h2 => decide (h2 = h)
  | _ => false

/-- Whether the event is a call of `newDockerNetwork`. -/
def Event.isNewDockerNetwork : Event → Bool
  | .newDockerNetwork => true
  | _ => false

/-- Whether the event is a call of a network `cleanup` function. -/
def Event.isNetworkCleanup : Event → Bool
  | .networkCleanup _ => true
  | _ => false

/-- The network id a `build.Setup` or `build.Execute` call was given. -/
def Event.networkID? : Event → Option String
  | .setup _ id => some id
  | .execute _ id _ => some id
  | _ => none

/-- The targets for which `doTarget` was entered, in order: `newBiome` is the
first statement of `doTarget`. -/
def startedTargets (evs : List Event) : List String :=
  evs.filterMap fun e =>
    match e with
    | .newBiome _ target => some target
    | _ => none

/-- The options the loop of `doTargetList` passes to `doTarget`. -/
def loopOptions (w : World) (opts : doOptions) (hist : List Event) : doOptions :=
  if opts.dockerClient ∧ opts.dockerNetworkID = "" then
    { opts with dockerNetworkID := (w.newDockerNetwork hist).1 }
  else opts

/-- The events emitted when the loop of `doTargetList` starts. -/
def loopHistory (opts : doOptions) (hist : List Event) : List Event :=
  if opts.dockerClient ∧ opts.dockerNetworkID = "" then hist ++ [Event.newDockerNetwork]
  else hist

/-- The events emitted once `doTarget` has run for each target of `done`, one
after the other, starting from `hist`. -/
def historyAfter (w : World) (pkg : Package) (opts : doOptions) (done : List BuildTarget)
    (hist : List Event) : List Event :=
  done.foldl (fun h target => h ++ (doTarget w pkg target opts h).events) hist

/-- Every target of `targets` returns `nil` from `doTarget` when its turn
comes, that is, after `doTarget` has run for the targets before it. -/
def allSucceed (w : World) (pkg : Package) (opts : doOptions) (targets : List BuildTarget)
    (hist : List Event) : Prop :=
  ∀ a x b, targets = a ++ x :: b →
    (doTarget w pkg x opts (historyAfter w pkg opts a hist)).err = none

/-- No shared network has to be created, or its creation succeeds. -/
def networkReady (w : World) (opts : doOptions) (hist : List Event) : Prop :=
  ¬ (opts.dockerClient ∧ opts.dockerNetworkID = "") ∨ (w.newDockerNetwork hist).2 = none

/-- The steps of `run` before `Manifest.BuildOrder` all return a nil error. -/
def reachesBuildOrder (w : World) (b : buildCmd) : Prop :=
  w.NewProvider = none ∧ w.DirsFromEnv = none ∧ (w.shlexSplit b.execPrefix).2 = none ∧
    (w.connectDockerClient (!b.noContainer)).2 = none ∧ w.GetTargetPackage.2 = none

/-- In `doTarget`, the calls `newBiome`, `targetToPhaseDeps` and `build.Setup`
all return a nil error. -/
def setupSucceeds (w : World) (pkg : Package) (target : BuildTarget) (opts : doOptions)
    (hist : List Event) : Prop :=
  w.newBiome hist opts.dockerClient pkg.Path target.Name = none ∧
    w.targetToPhaseDeps target = none ∧
    w.Setup (hist ++ [Event.newBiome pkg.Path target.Name, Event.targetToPhaseDeps target.Name])
      target opts.dockerNetworkID = none

/-! ## Sample inputs -/

/-- A world without failures: a package with targets `A`, `B`, `C` that
depend on each other in this order. -/
def sampleWorld : World where
  NewProvider := none
  DirsFromEnv := none
  shlexSplit := fun _ => ([], none)
  connectDockerClient := fun useDocker => (useDocker, none)
  InsideTheMatrix := false
  GetTargetPackage := (⟨"pkg", "/src/pkg"⟩, none)
  BuildOrder := fun _ name =>
    if name = "C" then ([⟨"A"⟩, ⟨"B"⟩, ⟨"C"⟩], none)
    else ([], some (.new ("unknown target " ++ name)))
  BuildTargetList := fun _ => ["A", "B", "C"]
  newDockerNetwork := fun _ => ("net-1", none)
  newBiome := fun _ _ _ _ => none
  targetToPhaseDeps := fun _ => none
  Setup := fun _ _ _ => none
  Execute := fun _ _ _ _ => none

/-- The sample world, with the build command of target `B` exiting non-zero. -/
def failingWorld : World :=
  { sampleWorld with
    Execute := fun _ target _ _ =>
      if target.Name = "B" then some (.new "exit status 1") else none }

/-- The sample world, with `build.Setup` failing for every target. -/
def setupFailingWorld : World :=
  { sampleWorld with Setup := fun _ _ _ => some (.new "install failed") }

/-- The sample world, with a Docker daemon that refuses to create a network. -/
def noNetworkWorld : World :=
  { sampleWorld with newDockerNetwork := fun _ => ("", some (.new "create network: denied")) }

def samplePackage : Package := ⟨"pkg", "/src/pkg"⟩

def sampleTargets : List BuildTarget := [⟨"A"⟩, ⟨"B"⟩, ⟨"C"⟩]

/-- Options of a host build (`--no-container`). -/
def hostOptions : doOptions :=
  { dockerClient := false, dockerNetworkID := "", execPrefix := [], setupOnly := false }

/-- Options of a container build before the shared network exists. -/
def dockerOptions : doOptions :=
  { dockerClient := true, dockerNetworkID := "", execPrefix := [], setupOnly := false }

/-- Options of a host build with `--deps-only`. -/
def depsOnlyOptions : doOptions :=
  { dockerClient := false, dockerNetworkID := "", execPrefix := [], setupOnly := true }

/-- The flags of `yb build --no-container`. -/
def hostBuild : buildCmd :=
  { execPrefix := "", noContainer := true, dependenciesOnly := false }

/-! ## The lines of a trace dump -/

/-- One line of the body of a dump: the row of a span at some nesting depth,
or the line that stands for the spans left out below depth 2. -/
inductive Line where
  | span (depth : Nat) (span : SpanData)
  | elided (depth : Nat)
deriving DecidableEq, Repr

/-- The text of a line. -/
def Line.render (f : Formatter) : Line → String
  | .span depth s => spanRow f s depth
  | .elided depth => elidedRow depth

/-- The span of a row at nesting depth `depth`. -/
def Line.spanAt (depth : Nat) : Line → Option SpanData
  | .span d s => if d = depth then some s else none
  | .elided _ => none

/-- The strings of a list written one after the other. -/
def concatStrings : List String → String
  | [] => ""
  | s :: rest => s ++ concatStrings rest

/-- The text of a list of lines. -/
def renderLines (f : Formatter) (lines : List Line) : String :=
  concatStrings (lines.map (Line.render f))

/-- The lines `dumpLocked` writes for `parent` at `depth` when `levels` more
levels of rows may be written below. -/
def traceSink.linesFrom (sink : traceSink) : Nat → SpanID → Nat → List Line
  | 0, parent, depth => if (sink.list parent).length > 0 then [Line.elided depth] else []
  | levels + 1, parent, depth =>
    (sink.list parent).flatMap fun s =>
      Line.span depth s :: linesFrom sink levels s.SpanID (depth + 1)

/-- The lines `dumpLocked` writes for `parent` at `depth`. -/
def traceSink.dumpLines (sink : traceSink) (parent : SpanID) (depth : Nat) : List Line :=
  sink.linesFrom (3 - depth) parent depth

/-- The spans of `spans` whose parent id is `id`, in the order of `spans`. -/
def childrenOf (spans : List SpanData) (id : SpanID) : List SpanData :=
  spans.filter fun s => decide (s.ParentSpanID = id)

/-- The spans of `spans` without a valid parent id, in the order of `spans`. -/
def rootsOf (spans : List SpanData) : List SpanData :=
  spans.filter fun s => !s.ParentSpanID.IsValid

/-- Three spans forming a chain `root -> child -> grand`, with valid and
pairwise distinct span ids and no valid parent for `root`. -/
def IsChain (root child grand : SpanData) : Prop :=
  root.ParentSpanID.IsValid = false ∧ root.SpanID.IsValid = true ∧
    child.SpanID.IsValid = true ∧ grand.SpanID.IsValid = true ∧
    child.ParentSpanID = root.SpanID ∧ grand.ParentSpanID = child.SpanID ∧
    root.SpanID ≠ child.SpanID ∧ root.SpanID ≠ grand.SpanID ∧ child.SpanID ≠ grand.SpanID

/-- A formatter with fixed texts. -/
def sampleFormatter : Formatter := ⟨fun _ => "12:00:00 UTC", fun _ _ => "1.000"⟩

def sampleRoot : SpanData := ⟨⟨1⟩, ⟨0⟩, "Build", 0, 10⟩

def sampleChild : SpanData := ⟨⟨2⟩, ⟨1⟩, "target A", 1, 9⟩

def sampleGrand : SpanData := ⟨⟨3⟩, ⟨2⟩, "setup", 2, 5⟩

def sampleGreatGrand : SpanData := ⟨⟨4⟩, ⟨3⟩, "install", 3, 4⟩

/-! ## A bound on the nested calls of `dumpLocked` -/

/-- The method `traceSink.dumpLocked` run with at most `fuel` nested calls:
`none` when a call would have to be made with no fuel left. -/
def traceSink.dumpLockedFuel (f : Formatter) (sink : traceSink) :
    Nat → SpanID → Nat → Option String
  | 0, _, _ => none
  | fuel + 1, parent, depth =>
    if depth ≥ 3 then
      some (if (sink.list parent).length > 0 then elidedRow depth else "")
    else
      (sink.list parent).foldl
        (fun acc span =>
          match acc with
          | none => none
          | some sb =>
            match dumpLockedFuel f sink fuel span.SpanID (depth + 1) with
            | none => none
            | some text => some (sb ++ spanRow f span depth ++ text))
        (some "")

/-- The nesting depth written on a line. -/
def Line.depth : Line → Nat
  | .span depth _ => depth
  | .elided depth => depth

/-- A root span and a span that names itself as parent, both with id 1. -/
def selfParentSpans : List SpanData :=
  [⟨⟨1⟩, ⟨0⟩, "Build", 0, 10⟩, ⟨⟨1⟩, ⟨1⟩, "loop", 1, 2⟩]

/-- A root span with id 2 and two spans that name each other as parent. -/
def mutualParentSpans : List SpanData :=
  [⟨⟨2⟩, ⟨0⟩, "Build", 0, 10⟩, ⟨⟨2⟩, ⟨3⟩, "ping", 1, 2⟩, ⟨⟨3⟩, ⟨2⟩, "pong", 3, 4⟩]

/-! ## Strings and paths of the Go standard library -/

/-- The pieces of a character list between the occurrences of `sep`. -/
def splitChars (sep : Char) : List Char → List (List Char)
  | [] => [[]]
  | c :: cs =>
    if c = sep then [] :: splitChars sep cs
    else
      match splitChars sep cs with
      | [] => [[c]]
      | first :: rest => (c :: first) :: rest

/-- The value of `strings.Split(s, sep)` for a separator of one character. -/
def stringsSplit (s : String) (sep : Char) : List String :=
  (splitChars sep s.data).map String.mk

/-- One step of `filepath.Clean` on a Unix path: `stack` holds the elements
kept so far, the last one first; empty and `.` elements are dropped, a `..`
element removes the element before it when there is one to remove. -/
def cleanStep (rooted : Bool) (stack : List String) (elem : String) : List String :=
  if elem = "" ∨ elem = "." then stack
  else if elem = ".." then
    match stack with
    | [] => if rooted then [] else [".."]
    | top :: rest => if top = ".." then ".." :: stack else rest
  else elem :: stack

/-- The value of `filepath.Clean(path)` on Unix. -/
def filepathClean (path : String) : String :=
  if path = "" then "."
  else
    let rooted : Bool :=
      match path.data with
      | '/' :: _ => true
      | _ => false
    let kept := ((stringsSplit path '/').foldl (cleanStep rooted) []).reverse
    if rooted then "/" ++ stringsJoin kept "/"
    else if kept = [] then "." else stringsJoin kept "/"

/-- The value of `filepath.Join(elem...)` on Unix: leading empty elements are
ignored, the rest is joined with `/` and cleaned. -/
def filepathJoin (elem : List String) : String :=
  match elem.dropWhile (fun e => decide (e = "")) with
  | [] => ""
  | rest => filepathClean (stringsJoin rest "/")

/-- The absolute path with the given elements. -/
def absPath (elems : List String) : String := "/" ++ stringsJoin elems "/"

/-- A path element that `filepath.Clean` keeps as it is: not empty, not `.`
or `..`, and without a `/`. -/
def IsPathElem (s : String) : Prop :=
  s ≠ "" ∧ s ≠ "." ∧ s ≠ ".." ∧ '/' ∉ s.data

instance (s : String) : Decidable (IsPathElem s) := by
  unfold IsPathElem
  infer_instance

/-! ## Containers (`containers.go`) -/

/-- The fields of `ContainerDefinition` that `containers.go` reads. -/
structure ContainerDefinition where
  Image : String
  Mounts : List String
  Ports : List String
  Environment : List String
deriving DecidableEq, Repr

/-- A `Workspace` value; its methods are fields of `DockerWorld`. -/
structure Workspace where
  Path : String
deriving DecidableEq, Repr

/-- The struct `BuildContainerOpts`. -/
structure BuildContainerOpts where
  ContainerOpts : ContainerDefinition
  PackageName : String
  Workspace : Workspace
deriving DecidableEq, Repr

/-- The struct `BuildContainer`. -/
structure BuildContainer where
  Id : String
  Name : String
  Options : BuildContainerOpts
deriving DecidableEq, Repr

/-- The zero value `BuildContainer{}`. -/
def BuildContainer.zero : BuildContainer := ⟨"", "", ⟨⟨"", [], [], []⟩, "", ⟨""⟩⟩⟩

/-- The struct `ServiceContext` (without its Docker client).  `Containers`
lists the values of the Go map in the order in which `range` visits them. -/
structure ServiceContext where
  Id : String
  Containers : List ContainerDefinition
  PackageName : String
  NetworkId : String
  Workspace : Workspace
deriving DecidableEq, Repr

/-- The fields of `docker.Container` of interest. -/
structure Container where
  ID : String
deriving DecidableEq, Repr

/-- The struct `docker.HostMount`. -/
structure HostMount where
  Source : String
  Target : String
  Type_ : String
deriving DecidableEq, Repr

/-- The argument of `client.CreateContainer`: the name, the fields set in
`docker.Config` and the mounts of `docker.HostConfig`. -/
structure CreateContainerOptions where
  Name : String
  AttachStdout : Bool
  AttachStdin : Bool
  Image : String
  Cmd : List String
  PortSpecs : List String
  Mounts : List HostMount
deriving DecidableEq, Repr

/-- Calls made by `containers.go` to the Docker client and the file system. -/
inductive DockerEvent where
  /-- Call `client.ListContainers` with a `name` filter -/
  | listContainers (name : String) (all : Bool)
  /-- Call `client.InspectContainer(id)` -/
  | inspectContainer (id : String)
  /-- Call `client.ListImages` with a `label` filter -/
  | listImages (label : String)
  /-- Call `client.PullImage` -/
  | pullImage (repository : String) (tag : String)
  /-- Call `MkdirAsNeeded(path)` -/
  | mkdirAsNeeded (path : String)
  /-- Call `client.CreateContainer(opts)` -/
  | createContainer (opts : CreateContainerOptions)
deriving DecidableEq, Repr

/-- What `containers.go` calls outside itself.  Every call sees the events
emitted before it. -/
structure DockerWorld where
  /-- Call `client.ListContainers`: the ids of the containers listed, and the error -/
  ListContainers : List DockerEvent → String → List String × Option GoError
  /-- Call `client.InspectContainer(id)` -/
  InspectContainer : List DockerEvent → String → Container × Option GoError
  /-- Call `client.ListImages`: the number of images listed, and the error -/
  ListImages : List DockerEvent → String → Nat × Option GoError
  /-- Call `client.PullImage(repository, tag)`: its error -/
  PullImage : List DockerEvent → String → String → Option GoError
  /-- Call `client.CreateContainer(opts)`: the id of the container, and the error -/
  CreateContainer : List DockerEvent → CreateContainerOptions → String × Option GoError
  /-- Call `LoadWorkspace()` -/
  LoadWorkspace : Workspace
  /-- Call `workspace.BuildRoot()` -/
  BuildRoot : Workspace → String
  /-- Call `workspace.PackagePath(name)` -/
  PackagePath : Workspace → String → String

/-- What a call leaves behind: the events it emitted, and its result, or
`none` when it stopped in an index-out-of-range panic. -/
structure Run (α : Type) where
  events : List DockerEvent
  value : Option α
deriving DecidableEq, Repr

/-- The function `FindContainer`. -/
def FindContainer (w : DockerWorld) (opts : BuildContainerOpts) (hist : List DockerEvent) :
    Run (Option Container) :=
  let cd := opts.ContainerOpts
  let s := stringsSplit cd.Image ':'
  match s[0]? with
  | none => ⟨[], none⟩
  | some imageName =>
    let containerName := opts.PackageName ++ "-" ++ imageName
    let e1 := [DockerEvent.listContainers containerName true]
    let (result, err) := w.ListContainers hist containerName
    if err = none ∧ result.length > 0 then
      match result[0]? with
      | none => ⟨e1, none⟩
      | some cID =>
        let e2 := e1 ++ [DockerEvent.inspectContainer cID]
        match w.InspectContainer (hist ++ e1) cID with
        | (_, some _) => ⟨e2, some none⟩
        | (container, none) => ⟨e2, some (some container)⟩
    else ⟨e1, some none⟩

/-- The function `PullImage`. -/
def PullImage (w : DockerWorld) (imageLabel : String) (hist : List DockerEvent) :
    Run (Option GoError) :=
  let parts := stringsSplit imageLabel ':'
  match parts[0]? with
  | none => ⟨[], none⟩
  | some imageName =>
    let tag : Option String := if parts.length = 2 then parts[1]? else some "latest"
    match tag with
    | none => ⟨[], none⟩
    | some imageTag =>
      let e1 := [DockerEvent.listImages imageLabel]
      match w.ListImages hist imageLabel with
      | (_, some err) => ⟨e1, some (some err)⟩
      | (imgs, none) =>
        if imgs = 0 then
          let e2 := e1 ++ [DockerEvent.pullImage imageName imageTag]
          match w.PullImage (hist ++ e1) imageName imageTag with
          | some err => ⟨e2, some (some err)⟩
          | none => ⟨e2, some none⟩
        else ⟨e1, some none⟩

/-- The loop over `containerDef.Mounts` in `NewContainer`: the mounts
collected, in the order of the mount specs. -/
def mountLoop (pkgWorkdir : String) : List String → Run (List HostMount)
  | [] => ⟨[], some []⟩
  | mountSpec :: rest =>
    let s := stringsSplit mountSpec ':'
    match s[0]? with
    | none => ⟨[], none⟩
    | some s0 =>
      let src := filepathJoin [pkgWorkdir, s0]
      let e1 := [DockerEvent.mkdirAsNeeded src]
      match s[1]? with
      | none => ⟨e1, none⟩
      | some dst =>
        let r := mountLoop pkgWorkdir rest
        ⟨e1 ++ r.events, r.value.map fun mounts => HostMount.mk src dst "bind" :: mounts⟩

/-- The function `NewContainer`.  The value returned by `PullImage` is not
assigned to anything. -/
def NewContainer (w : DockerWorld) (opts : BuildContainerOpts) (hist : List DockerEvent) :
    Run (BuildContainer × Option GoError) :=
  let containerDef := opts.ContainerOpts
  let s := stringsSplit containerDef.Image ':'
  match s[0]? with
  | none => ⟨[], none⟩
  | some imageName =>
    let containerName := opts.PackageName ++ "-" ++ imageName
    let pull := PullImage w containerDef.Image hist
    match pull.value with
    | none => ⟨pull.events, none⟩
    | some _ =>
      let buildRoot := w.BuildRoot opts.Workspace
      let pkgWorkdir := filepathJoin [buildRoot, opts.PackageName]
      let loop := mountLoop pkgWorkdir containerDef.Mounts
      match loop.value with
      | none => ⟨pull.events ++ loop.events, none⟩
      | some mounts0 =>
        let mounts := mounts0 ++
          [HostMount.mk (w.PackagePath opts.Workspace opts.PackageName) "/build" "bind"]
        let ports := containerDef.Ports
        let cmdParts := stringsSplit "tail -f /dev/null" ' '
        let createOpts : CreateContainerOptions :=
          { Name := containerName, AttachStdout := true, AttachStdin := true,
            Image := containerDef.Image, Cmd := cmdParts, PortSpecs := ports,
            Mounts := mounts }
        let e3 := pull.events ++ loop.events ++ [DockerEvent.createContainer createOpts]
        match w.CreateContainer (hist ++ pull.events ++ loop.events) createOpts with
        | (_, some err) => ⟨e3, some (BuildContainer.zero, some err)⟩
        | (cID, none) => ⟨e3, some (⟨cID, containerName, opts⟩, none)⟩

/-- The method `ServiceContext.FindContainer`. -/
def ServiceContext.FindContainer (w : DockerWorld) (sc : ServiceContext)
    (cd : ContainerDefinition) (hist : List DockerEvent) : Run (Option Container) :=
  Yb.FindContainer w (BuildContainerOpts.mk cd sc.PackageName sc.Workspace) hist

/-- The method `ServiceContext.NewContainer`. -/
def ServiceContext.NewContainer (w : DockerWorld) (sc : ServiceContext)
    (c : ContainerDefinition) (hist : List DockerEvent) :
    Run (BuildContainer × Option GoError) :=
  Yb.NewContainer w (BuildContainerOpts.mk c sc.PackageName sc.Workspace) hist

/-- The loop over `sc.Containers` in `StandUp`. -/
def standUpLoop (w : DockerWorld) (sc : ServiceContext) :
    List ContainerDefinition → List DockerEvent → Run (Option GoError)
  | [], _ => ⟨[], some none⟩
  | c :: rest, hist =>
    let found := sc.FindContainer w c hist
    match found.value with
    | none => ⟨found.events, none⟩
    | some (some _) =>
      let r := standUpLoop w sc rest (hist ++ found.events)
      ⟨found.events ++ r.events, r.value⟩
    | some none =>
      let created := sc.NewContainer w c (hist ++ found.events)
      match created.value with
      | none => ⟨found.events ++ created.events, none⟩
      | some (_, some err) => ⟨found.events ++ created.events, some (some err)⟩
      | some (_, none) =>
        let r := standUpLoop w sc rest (hist ++ found.events ++ created.events)
        ⟨found.events ++ created.events ++ r.events, r.value⟩

/-- The method `ServiceContext.StandUp`. -/
def StandUp (w : DockerWorld) (sc : ServiceContext) (hist : List DockerEvent) :
    Run (Option GoError) :=
  let workspace := w.LoadWorkspace
  let buildRoot := w.BuildRoot workspace
  let pkgWorkdir := filepathJoin [buildRoot, sc.PackageName]
  let logDir := filepathJoin [pkgWorkdir, "logs"]
  let e1 := [DockerEvent.mkdirAsNeeded pkgWorkdir, DockerEvent.mkdirAsNeeded logDir]
  let r := standUpLoop w sc sc.Containers (hist ++ e1)
  ⟨e1 ++ r.events, r.value⟩

/-- The events of one round of the loop of `StandUp`, for the definition `c`:
those of `FindContainer`, followed by those of `NewContainer` when
`FindContainer` returned no container. -/
def standUpRound (w : DockerWorld) (sc : ServiceContext) (c : ContainerDefinition)
    (hist : List DockerEvent) : List DockerEvent :=
  match (sc.FindContainer w c hist).value with
  | some none =>
    (sc.FindContainer w c hist).events ++
      (sc.NewContainer w c (hist ++ (sc.FindContainer w c hist).events)).events
  | _ => (sc.FindContainer w c hist).events

/-- The round of `c` lets the loop go on: the container is found, or it is
not found and `NewContainer` returns a nil error. -/
def roundPasses (w : DockerWorld) (sc : ServiceContext) (c : ContainerDefinition)
    (hist : List DockerEvent) : Prop :=
  (∃ ctr, (sc.FindContainer w c hist).value = some (some ctr)) ∨
  ((sc.FindContainer w c hist).value = some none ∧
    ∃ bc, (sc.NewContainer w c (hist ++ (sc.FindContainer w c hist).events)).value =
      some (bc, none))

/-- The events emitted once the rounds of the definitions of `done` have
run, one after the other, starting from `hist`. -/
def standUpHistory (w : DockerWorld) (sc : ServiceContext) (done : List ContainerDefinition)
    (hist : List DockerEvent) : List DockerEvent :=
  done.foldl (fun h c => h ++ standUpRound w sc c h) hist

/-- Every definition of `defs` passes its round when its turn comes. -/
def allRoundsPass (w : DockerWorld) (sc : ServiceContext) (defs : List ContainerDefinition)
    (hist : List DockerEvent) : Prop :=
  ∀ a x b, defs = a ++ x :: b → roundPasses w sc x (standUpHistory w sc a hist)

/-- The events emitted when the loop of `StandUp` starts. -/
def standUpStart (w : DockerWorld) (sc : ServiceContext) (hist : List DockerEvent) :
    List DockerEvent :=
  hist ++ [DockerEvent.mkdirAsNeeded (filepathJoin [w.BuildRoot w.LoadWorkspace, sc.PackageName]),
    DockerEvent.mkdirAsNeeded
      (filepathJoin [filepathJoin [w.BuildRoot w.LoadWorkspace, sc.PackageName], "logs"])]

/-- Follows the spec's words: the container name is the package name, a
dash, and the image reference up to its first `:`. -/
def specContainerName (packageName image : String) : String :=
  packageName ++ "-" ++ String.mk (image.data.takeWhile fun c => c != ':')

/-- Whether the event is a `client.CreateContainer` call. -/
def DockerEvent.isCreateContainer : DockerEvent → Bool
  | .createContainer _ => true
  | _ => false

/-- Whether the event is a `client.ListImages` call, the first call
`NewContainer` makes (through `PullImage`). -/
def DockerEvent.isListImages : DockerEvent → Bool
  | .listImages _ => true
  | _ => false

/-- A Docker daemon without containers or images where every call succeeds. -/
def sampleDocker : DockerWorld where
  ListContainers := fun _ _ => ([], none)
  InspectContainer := fun _ id => (⟨id⟩, none)
  ListImages := fun _ _ => (0, none)
  PullImage := fun _ _ _ => none
  CreateContainer := fun _ opts => ("id-" ++ opts.Name, none)
  LoadWorkspace := ⟨"/ws"⟩
  BuildRoot := fun ws => ws.Path ++ "/build"
  PackagePath := fun ws name => ws.Path ++ "/" ++ name

/-- The sample daemon, unable to list images. -/
def pullFailingDocker : DockerWorld :=
  { sampleDocker with ListImages := fun _ _ => (0, some (.new "cannot list images")) }

/-- The sample daemon, unable to create containers. -/
def createFailingDocker : DockerWorld :=
  { sampleDocker with CreateContainer := fun _ _ => ("", some (.new "cannot create")) }

/-- The sample daemon, in which every container looked for exists. -/
def existingDocker : DockerWorld :=
  { sampleDocker with ListContainers := fun _ name => (["id-" ++ name], none) }

def redisDef : ContainerDefinition := ⟨"redis:5", ["data:/data"], ["6379"], []⟩

def postgresDef : ContainerDefinition := ⟨"postgres", [], ["5432"], ["POSTGRES_DB=app"]⟩

def redisOpts : BuildContainerOpts := ⟨redisDef, "app", ⟨"/ws"⟩⟩

def sampleContext : ServiceContext := ⟨"ctx", [redisDef, postgresDef], "app", "", ⟨"/ws"⟩⟩

/-! ## Buildpacks (`buildpacks/*.go`) -/

/-- The fields of `BuildToolSpec`. -/
structure BuildToolSpec where
  Tool : String
  Version : String
  SharedCacheDir : String
  PackageCacheDir : String
  PackageDir : String
deriving DecidableEq, Repr

/-- Calls made by the `Install` methods outside the buildpacks. -/
inductive ToolEvent where
  /-- Call `os.Stat(path)` -/
  | stat (path : String)
  /-- Call `MkdirAsNeeded(path)` -/
  | mkdirAsNeeded (path : String)
  /-- Call `DirectoryExists(path)` -/
  | directoryExists (path : String)
  /-- Call `DownloadFileWithCache(url)` -/
  | download (url : String)
  /-- Call `archiver.Unarchive(file, dest)` -/
  | unarchive (file : String) (dest : String)
  /-- Call `ExecToStdout(cmd, dir)` -/
  | exec (cmd : String) (dir : String)
deriving DecidableEq, Repr

/-- What the buildpacks call outside themselves.  The calls that read or
change the machine see the events emitted before them. -/
structure ToolWorld where
  /-- Call `OS()` -/
  OS : String
  /-- Call `Arch()` -/
  Arch : String
  /-- Call `os.Stat(path)`: whether the error is nil, that is, the path exists -/
  Stat : List ToolEvent → String → Bool
  /-- Call `DirectoryExists(path)` -/
  DirectoryExists : List ToolEvent → String → Bool
  /-- Call `DownloadFileWithCache(url)`: the local file, and the error -/
  DownloadFileWithCache : List ToolEvent → String → String × Option GoError
  /-- Call `archiver.Unarchive(file, dest)`: its error -/
  Unarchive : List ToolEvent → String → String → Option GoError
  /-- Call `TemplateToString(template, data)`, `data` given as named fields -/
  TemplateToString : String → List (String × String) → String × Option GoError

/-- What a call of `Install` leaves behind. -/
structure ToolOutcome where
  events : List ToolEvent
  err : Option GoError
deriving DecidableEq, Repr

/-- Whether the event is a download, an unpacking or a command execution. -/
def ToolEvent.isInstallStep : ToolEvent → Bool
  | .download _ => true
  | .unarchive _ _ => true
  | .exec _ _ => true
  | _ => false

/-- Whether the event is a call of `archiver.Unarchive`. -/
def ToolEvent.isUnarchive : ToolEvent → Bool
  | .unarchive _ _ => true
  | _ => false

/-- Whether the event is a call of `DownloadFileWithCache`. -/
def ToolEvent.isDownload : ToolEvent → Bool
  | .download _ => true
  | _ => false

/-! ### Node (`nodejs.go`) -/

def NODE_DIST_MIRROR : String := "https://nodejs.org/dist"

structure NodeBuildTool where
  version : String
  spec : BuildToolSpec
deriving DecidableEq, Repr

def NewNodeBuildTool (toolSpec : BuildToolSpec) : NodeBuildTool :=
  { version := toolSpec.Version, spec := toolSpec }

def NodeBuildTool.Version (bt : NodeBuildTool) : String := bt.version

def NodeBuildTool.PackageString (w : ToolWorld) (bt : NodeBuildTool) : String :=
  let version := bt.Version
  let arch := if w.Arch = "amd64" then "x64" else w.Arch
  let osName := w.OS
  "node-v" ++ version ++ "-" ++ osName ++ "-" ++ arch

def NodeBuildTool.InstallDir (bt : NodeBuildTool) : String :=
  filepathJoin [bt.spec.SharedCacheDir, "nodejs"]

def NodeBuildTool.NodeDir (w : ToolWorld) (bt : NodeBuildTool) : String :=
  filepathJoin [bt.InstallDir, bt.PackageString w]

def NodeBuildTool.Install (w : ToolWorld) (bt : NodeBuildTool) (hist : List ToolEvent) :
    ToolOutcome :=
  let nodeDir := bt.NodeDir w
  let installDir := bt.InstallDir
  let nodePkgString := bt.PackageString w
  let e1 := [ToolEvent.stat nodeDir]
  if w.Stat hist nodeDir then ⟨e1, none⟩
  else
    let archiveFile := nodePkgString ++ ".tar.gz"
    let downloadUrl := NODE_DIST_MIRROR ++ "/v" ++ bt.Version ++ "/" ++ archiveFile
    let e2 := e1 ++ [ToolEvent.download downloadUrl]
    match w.DownloadFileWithCache (hist ++ e1) downloadUrl with
    | (_, some err) => ⟨e2, some err⟩
    | (localFile, none) =>
      let e3 := e2 ++ [ToolEvent.unarchive localFile installDir]
      match w.Unarchive (hist ++ e2) localFile installDir with
      | some err => ⟨e3, some err⟩
      | none => ⟨e3, none⟩

/-! ### Java (`openjdk.go`) -/

def OPENJDK_DIST_MIRROR : String :=
  "https://github.com/AdoptOpenJDK/openjdk\x7b\x7b.MajorVersion\x7d\x7d-binaries/releases/download/jdk\x7b\x7b.MajorVersion\x7d\x7du\x7b\x7b.MinorVersion\x7d\x7d-b\x7b\x7b.PatchVersion\x7d\x7d/OpenJDK\x7b\x7b.MajorVersion\x7d\x7dU-jdk_\x7b\x7b.Arch\x7d\x7d_\x7b\x7b.OS\x7d\x7d_hotspot_\x7b\x7b.MajorVersion\x7d\x7du\x7b\x7b.MinorVersion\x7d\x7db\x7b\x7b.PatchVersion\x7d\x7d.\x7b\x7b.Extension\x7d\x7d"

structure JavaBuildTool where
  version : String
  spec : BuildToolSpec
deriving DecidableEq, Repr

def NewJavaBuildTool (toolSpec : BuildToolSpec) : JavaBuildTool :=
  { version := toolSpec.Version, spec := toolSpec }

def JavaBuildTool.Version (bt : JavaBuildTool) : String := bt.version

/-- The method `MajorVersion`: `none` stands for an index-out-of-range panic. -/
def JavaBuildTool.MajorVersion (bt : JavaBuildTool) : Option String :=
  (stringsSplit bt.version '.')[0]?

/-- The method `MinorVersion`: `none` stands for an index-out-of-range panic. -/
def JavaBuildTool.MinorVersion (bt : JavaBuildTool) : Option String :=
  (stringsSplit bt.version '.')[1]?

/-- The method `PatchVersion`: `none` stands for an index-out-of-range panic. -/
def JavaBuildTool.PatchVersion (bt : JavaBuildTool) : Option String :=
  (stringsSplit bt.version '.')[2]?

def JavaBuildTool.InstallDir (bt : JavaBuildTool) : String :=
  filepathJoin [bt.spec.SharedCacheDir, "java"]

/-- The method `JavaDir`: `none` when one of the version methods panics. -/
def JavaBuildTool.JavaDir (w : ToolWorld) (bt : JavaBuildTool) : Option String :=
  match bt.MajorVersion, bt.MinorVersion, bt.PatchVersion with
  | some major, some minor, some patch =>
    let basePath := filepathJoin [bt.InstallDir, "jdk" ++ major ++ "u" ++ minor ++ "-b" ++ patch]
    if w.OS = "darwin" then some (filepathJoin [basePath, "Contents", "Home"])
    else some basePath
  | _, _, _ => none

/-- The method `DownloadUrl`: `none` when one of the version methods panics. -/
def JavaBuildTool.DownloadUrl (w : ToolWorld) (bt : JavaBuildTool) : Option String :=
  let arch := "x64"
  let operatingSystem := if w.OS = "darwin" then "mac" else w.OS
  let extension := if operatingSystem = "windows" then "zip" else "tar.gz"
  match bt.MajorVersion, bt.MinorVersion, bt.PatchVersion with
  | some major, some minor, some patch =>
    some (w.TemplateToString OPENJDK_DIST_MIRROR
      [("OS", operatingSystem), ("Arch", arch), ("MajorVersion", major),
        ("MinorVersion", minor), ("PatchVersion", patch), ("Extension", extension)]).1
  | _, _, _ => none

/-- The method `Install`: `none` when it panics, which it can only do in
`JavaDir`, before any other call. -/
def JavaBuildTool.Install (w : ToolWorld) (bt : JavaBuildTool) (hist : List ToolEvent) :
    Option ToolOutcome :=
  let javaInstallDir := bt.InstallDir
  match bt.JavaDir w with
  | none => none
  | some javaPath =>
    let e1 := [ToolEvent.mkdirAsNeeded javaInstallDir, ToolEvent.stat javaPath]
    if w.Stat (hist ++ [ToolEvent.mkdirAsNeeded javaInstallDir]) javaPath then some ⟨e1, none⟩
    else
      match bt.DownloadUrl w with
      | none => none
      | some downloadUrl =>
        let e2 := e1 ++ [ToolEvent.download downloadUrl]
        match w.DownloadFileWithCache (hist ++ e1) downloadUrl with
        | (_, some err) => some ⟨e2, some err⟩
        | (localFile, none) =>
          let e3 := e2 ++ [ToolEvent.unarchive localFile javaInstallDir]
          match w.Unarchive (hist ++ e2) localFile javaInstallDir with
          | some err => some ⟨e3, some err⟩
          | none => some ⟨e3, none⟩

/-! ### R (`build_r.go`) -/

def RLANG_DIST_MIRROR : String := "https://cloud.r-project.org/src/base"

structure RLangBuildTool where
  version : String
  spec : BuildToolSpec
deriving DecidableEq, Repr

def NewRLangBuildTool (toolSpec : BuildToolSpec) : RLangBuildTool :=
  { version := toolSpec.Version, spec := toolSpec }

def RLangBuildTool.Version (bt : RLangBuildTool) : String := bt.version

def RLangBuildTool.ArchiveFile (bt : RLangBuildTool) : String :=
  "R-" ++ bt.Version ++ ".tar.gz"

/-- The method `MajorVersion`: `none` stands for an index-out-of-range panic. -/
def RLangBuildTool.MajorVersion (bt : RLangBuildTool) : Option String :=
  (stringsSplit bt.version '.')[0]?

/-- The method `DownloadUrl`: `none` when `MajorVersion` panics. -/
def RLangBuildTool.DownloadUrl (bt : RLangBuildTool) : Option String :=
  match bt.MajorVersion with
  | some major => some (RLANG_DIST_MIRROR ++ "/R-" ++ major ++ "/" ++ bt.ArchiveFile)
  | none => none

def RLangBuildTool.InstallDir (bt : RLangBuildTool) : String :=
  filepathJoin [bt.spec.SharedCacheDir, "R"]

def RLangBuildTool.RLangDir (bt : RLangBuildTool) : String :=
  filepathJoin [bt.InstallDir, "R-" ++ bt.Version]

/-- The method `Install`: `none` when it panics.  The results of the three
`ExecToStdout` calls are not looked at. -/
def RLangBuildTool.Install (w : ToolWorld) (bt : RLangBuildTool) (hist : List ToolEvent) :
    Option ToolOutcome :=
  let installDir := bt.InstallDir
  let rlangDir := bt.RLangDir
  let e1 := [ToolEvent.stat rlangDir]
  if w.Stat hist rlangDir then some ⟨e1, none⟩
  else
    match bt.DownloadUrl with
    | none => none
    | some downloadUrl =>
      let e2 := e1 ++ [ToolEvent.download downloadUrl]
      match w.DownloadFileWithCache (hist ++ e1) downloadUrl with
      | (_, some err) => some ⟨e2, some err⟩
      | (localFile, none) =>
        let tmpDir := filepathJoin [installDir, "src"]
        let srcDir := filepathJoin [tmpDir, "R-" ++ bt.Version]
        let e3 := e2 ++ [ToolEvent.directoryExists srcDir]
        let build := [ToolEvent.mkdirAsNeeded rlangDir,
          ToolEvent.exec ("./configure --with-x=no --prefix=" ++ rlangDir) srcDir,
          ToolEvent.exec "make" srcDir, ToolEvent.exec "make install" srcDir]
        if !w.DirectoryExists (hist ++ e2) srcDir then
          let e4 := e3 ++ [ToolEvent.unarchive localFile tmpDir]
          match w.Unarchive (hist ++ e3) localFile tmpDir with
          | some err => some ⟨e4, some err⟩
          | none => some ⟨e4 ++ build, none⟩
        else some ⟨e3 ++ build, none⟩

/-! ### Anaconda (`anaconda.go`) and Python (`python.go`) -/

def ANACONDA_DIST_MIRROR : String :=
  "https://repo.continuum.io/miniconda/Miniconda\x7b\x7b.PyNum\x7d\x7d-\x7b\x7b.Version\x7d\x7d-\x7b\x7b.OS\x7d\x7d-\x7b\x7b.Arch\x7d\x7d.\x7b\x7b.Extension\x7d\x7d"

structure AnacondaBuildTool where
  version : String
  spec : BuildToolSpec
  pyCompatibleNum : Nat
deriving DecidableEq, Repr

def NewAnaconda2BuildTool (toolSpec : BuildToolSpec) : AnacondaBuildTool :=
  { version := toolSpec.Version, spec := toolSpec, pyCompatibleNum := 2 }

def NewAnaconda3BuildTool (toolSpec : BuildToolSpec) : AnacondaBuildTool :=
  { version := toolSpec.Version, spec := toolSpec, pyCompatibleNum := 3 }

def AnacondaBuildTool.Version (bt : AnacondaBuildTool) : String := bt.version

def AnacondaBuildTool.InstallDir (bt : AnacondaBuildTool) : String :=
  filepathJoin [bt.spec.PackageCacheDir, "miniconda", "miniconda-" ++ bt.Version]

def AnacondaBuildTool.DownloadUrl (w : ToolWorld) (bt : AnacondaBuildTool) : String :=
  let version := if bt.Version = "" then "latest" else bt.Version
  let arch := if w.Arch = "amd64" then "x86_64" else w.Arch
  let opsys1 := if w.OS = "darwin" then "MacOSX" else w.OS
  let opsys2 := if opsys1 = "linux" then "Linux" else opsys1
  let opsys := if opsys2 = "windows" then "Windows" else opsys2
  let extension := if opsys2 = "windows" then "exe" else "sh"
  (w.TemplateToString ANACONDA_DIST_MIRROR
    [("PyNum", toString bt.pyCompatibleNum), ("OS", opsys), ("Arch", arch),
      ("Version", version), ("Extension", extension)]).1

/-- The method `Install`.  The results of the two `ExecToStdout` calls are
not looked at. -/
def AnacondaBuildTool.Install (w : ToolWorld) (bt : AnacondaBuildTool)
    (hist : List ToolEvent) : ToolOutcome :=
  let anacondaDir := bt.InstallDir
  let setupDir := bt.spec.PackageDir
  let e1 := [ToolEvent.stat anacondaDir]
  if w.Stat hist anacondaDir then ⟨e1, none⟩
  else
    let downloadUrl := bt.DownloadUrl w
    let e2 := e1 ++ [ToolEvent.download downloadUrl]
    match w.DownloadFileWithCache (hist ++ e1) downloadUrl with
    | (_, some err) => ⟨e2, some err⟩
    | (localFile, none) =>
      ⟨e2 ++ [ToolEvent.exec ("chmod +x " ++ localFile) setupDir,
        ToolEvent.exec ("bash " ++ localFile ++ " -b -p " ++ anacondaDir) setupDir], none⟩

def AnacondaToolVersion : String := "4.7.10"

structure PythonBuildTool where
  version : String
  spec : BuildToolSpec
deriving DecidableEq, Repr

def NewPythonBuildTool (toolSpec : BuildToolSpec) : PythonBuildTool :=
  { version := toolSpec.Version, spec := toolSpec }

def PythonBuildTool.Version (bt : PythonBuildTool) : String := bt.version

def PythonBuildTool.AnacondaInstallDir (bt : PythonBuildTool) : String :=
  filepathJoin [bt.spec.SharedCacheDir, "miniconda3", "miniconda-" ++ AnacondaToolVersion]

def ANACONDA_URL_TEMPLATE : String :=
  "https://repo.continuum.io/miniconda/Miniconda\x7b\x7b.PyNum\x7d\x7d-\x7b\x7b.Version\x7d\x7d-\x7b\x7b.OS\x7d\x7d-\x7b\x7b.Arch\x7d\x7d.\x7b\x7b.Extension\x7d\x7d"

def PythonBuildTool.DownloadUrl (w : ToolWorld) (_bt : PythonBuildTool) : String :=
  let arch := if w.Arch = "amd64" then "x86_64" else w.Arch
  let opsys1 := if w.OS = "darwin" then "MacOSX" else w.OS
  let opsys2 := if opsys1 = "linux" then "Linux" else opsys1
  let opsys := if opsys2 = "windows" then "Windows" else opsys2
  let extension := if opsys2 = "windows" then "exe" else "sh"
  (w.TemplateToString ANACONDA_URL_TEMPLATE
    [("PyNum", "3"), ("OS", opsys), ("Arch", arch),
      ("Version", AnacondaToolVersion), ("Extension", extension)]).1

/-- The method `Install`.  The results of the two `ExecToStdout` calls are
not looked at. -/
def PythonBuildTool.Install (w : ToolWorld) (bt : PythonBuildTool)
    (hist : List ToolEvent) : ToolOutcome :=
  let anacondaDir := bt.AnacondaInstallDir
  let setupDir := bt.spec.PackageDir
  let e1 := [ToolEvent.stat anacondaDir]
  if w.Stat hist anacondaDir then ⟨e1, none⟩
  else
    let downloadUrl := bt.DownloadUrl w
    let e2 := e1 ++ [ToolEvent.download downloadUrl]
    match w.DownloadFileWithCache (hist ++ e1) downloadUrl with
    | (_, some err) => ⟨e2, some err⟩
    | (localFile, none) =>
      ⟨e2 ++ [ToolEvent.exec ("chmod +x " ++ localFile) setupDir,
        ToolEvent.exec ("bash " ++ localFile ++ " -b -p " ++ anacondaDir) setupDir], none⟩

/-! ### Sample machines -/

/-- A Linux machine on which a path exists once something was unpacked or
run, and every download succeeds. -/
def sampleMachine : ToolWorld where
  OS := "linux"
  Arch := "amd64"
  Stat := fun hist _ => hist.any ToolEvent.isInstallStep
  DirectoryExists := fun _ _ => false
  DownloadFileWithCache := fun _ _ => ("/tmp/download", none)
  Unarchive := fun _ _ _ => none
  TemplateToString := fun template _ => (template, none)

/-- A Linux machine without network: nothing is installed, no download succeeds. -/
def offlineMachine : ToolWorld :=
  { sampleMachine with
    Stat := fun _ _ => false
    DownloadFileWithCache := fun _ _ => ("", some (.new "no network")) }

def sampleToolSpec : BuildToolSpec := ⟨"java", "8.202.08", "/cache", "/pkg/cache", "/src/app"⟩

/-- Follows the spec's words: the install path
`<shared-cache>/<tool>/<tool>-<version>`. -/
def specInstallDir (sharedCache tool version : String) : String :=
  filepathJoin [sharedCache, tool, tool ++ "-" ++ version]

/-! ## Theorems: `run` and `doTarget` -/

theorem GoError.wraps_refl (e : GoError) : GoError.Wraps e e := by
  cases e with
  | new msg => rfl
  | wrap msg cause => exact Or.inl rfl

theorem GoError.wraps_cause (msg : String) (cause : GoError) :
    GoError.Wraps (.wrap msg cause) cause :=
  Or.inr (GoError.wraps_refl cause)

/-- Once `run` has obtained a build order, its result is `nil`, whatever
`doTargetList` returned: the final `return err` reads the `err` of the
`BuildOrder` statement. -/
theorem run_err_none_of_buildOrder_ok (w : World) (b : buildCmd) (name : String)
    (hr : reachesBuildOrder w b) (ho : (w.BuildOrder w.GetTargetPackage.1 name).2 = none) :
    (run w b name).err = none := by
  obtain ⟨h1, h2, h3, h4, h5⟩ := hr
  unfold run
  rw [h1, h2]
  simp only
  split
  · rename_i x y heq; rw [heq] at h3; simp at h3
  · split
    · rename_i x y heq; rw [heq] at h4; simp at h4
    · split
      · rename_i x y heq; rw [heq] at h5; simp at h5
      · rename_i x y z u v tp heq
        rw [heq] at ho
        simp only at ho
        rw [ho]
        simp only
        split_ifs <;> rfl

theorem doTarget_of_newBiome_error (w : World) (pkg : Package) (target : BuildTarget)
    (opts : doOptions) (hist : List Event) (err : GoError)
    (h1 : w.newBiome hist opts.dockerClient pkg.Path target.Name = some err) :
    doTarget w pkg target opts hist =
      ⟨[Event.newBiome pkg.Path target.Name], some (errorfTarget target.Name err)⟩ := by
  unfold doTarget
  rw [h1]

theorem doTarget_of_phaseDeps_error (w : World) (pkg : Package) (target : BuildTarget)
    (opts : doOptions) (hist : List Event) (err : GoError)
    (h1 : w.newBiome hist opts.dockerClient pkg.Path target.Name = none)
    (h2 : w.targetToPhaseDeps target = some err) :
    doTarget w pkg target opts hist =
      ⟨[Event.newBiome pkg.Path target.Name, Event.targetToPhaseDeps target.Name,
        Event.close target.Name .bio], some err⟩ := by
  unfold doTarget
  rw [h1, h2]
  rfl

theorem doTarget_of_setup_error (w : World) (pkg : Package) (target : BuildTarget)
    (opts : doOptions) (hist : List Event) (err : GoError)
    (h1 : w.newBiome hist opts.dockerClient pkg.Path target.Name = none)
    (h2 : w.targetToPhaseDeps target = none)
    (h3 : w.Setup (hist ++ [Event.newBiome pkg.Path target.Name,
      Event.targetToPhaseDeps target.Name]) target opts.dockerNetworkID = some err) :
    doTarget w pkg target opts hist =
      ⟨[Event.newBiome pkg.Path target.Name, Event.targetToPhaseDeps target.Name,
        Event.setup target.Name opts.dockerNetworkID, Event.close target.Name .bio],
        some err⟩ := by
  unfold doTarget
  simp only [List.cons_append, List.nil_append] at h3 ⊢
  rw [h1, h2, h3]

theorem doTarget_of_setupOnly (w : World) (pkg : Package) (target : BuildTarget)
    (opts : doOptions) (hist : List Event)
    (hs : setupSucceeds w pkg target opts hist) (ho : opts.setupOnly = true) :
    doTarget w pkg target opts hist =
      ⟨[Event.newBiome pkg.Path target.Name, Event.targetToPhaseDeps target.Name,
        Event.setup target.Name opts.dockerNetworkID, Event.close target.Name .execBiome,
        Event.close target.Name .bio], none⟩ := by
  obtain ⟨h1, h2, h3⟩ := hs
  unfold doTarget
  simp only [List.cons_append, List.nil_append] at h3 ⊢
  rw [h1, h2, h3, ho]
  rfl

theorem doTarget_of_execute (w : World) (pkg : Package) (target : BuildTarget)
    (opts : doOptions) (hist : List Event)
    (hs : setupSucceeds w pkg target opts hist) (ho : opts.setupOnly = false) :
    doTarget w pkg target opts hist =
      ⟨[Event.newBiome pkg.Path target.Name, Event.targetToPhaseDeps target.Name,
        Event.setup target.Name opts.dockerNetworkID,
        Event.subSection ("Build target: " ++ target.Name),
        Event.execute target.Name opts.dockerNetworkID opts.execPrefix,
        Event.close target.Name .execBiome, Event.close target.Name .bio],
        w.Execute
          (hist ++ [Event.newBiome pkg.Path target.Name, Event.targetToPhaseDeps target.Name,
            Event.setup target.Name opts.dockerNetworkID,
            Event.subSection ("Build target: " ++ target.Name)])
          target opts.dockerNetworkID opts.execPrefix⟩ := by
  obtain ⟨h1, h2, h3⟩ := hs
  unfold doTarget
  simp only [List.cons_append, List.nil_append] at h3 ⊢
  rw [h1, h2, h3, ho]
  simp only [Bool.false_eq_true, if_false, List.append_assoc, List.cons_append, List.nil_append]
  split <;> rename_i heq <;> rw [heq]

/-- The exit paths of `doTarget`: a failure of `newBiome`, of
`targetToPhaseDeps` or of `build.Setup`, or all three succeed. -/
theorem doTarget_paths (w : World) (pkg : Package) (target : BuildTarget)
    (opts : doOptions) (hist : List Event) :
    (∃ err, w.newBiome hist opts.dockerClient pkg.Path target.Name = some err) ∨
    (∃ err, w.newBiome hist opts.dockerClient pkg.Path target.Name = none ∧
      w.targetToPhaseDeps target = some err) ∨
    (∃ err, w.newBiome hist opts.dockerClient pkg.Path target.Name = none ∧
      w.targetToPhaseDeps target = none ∧
      w.Setup (hist ++ [Event.newBiome pkg.Path target.Name,
        Event.targetToPhaseDeps target.Name]) target opts.dockerNetworkID = some err) ∨
    setupSucceeds w pkg target opts hist := by
  unfold setupSucceeds
  cases h1 : w.newBiome hist opts.dockerClient pkg.Path target.Name with
  | some e => exact Or.inl ⟨e, rfl⟩
  | none =>
    cases h2 : w.targetToPhaseDeps target with
    | some e => exact Or.inr (Or.inl ⟨e, rfl, rfl⟩)
    | none =>
      cases h3 : w.Setup (hist ++ [Event.newBiome pkg.Path target.Name,
        Event.targetToPhaseDeps target.Name]) target opts.dockerNetworkID with
      | some e => exact Or.inr (Or.inr (Or.inl ⟨e, rfl, rfl, rfl⟩))
      | none => exact Or.inr (Or.inr (Or.inr ⟨rfl, rfl, rfl⟩))

/-- Claim C1, evaluated on the code: in a host build of target `C` whose
dependency `B` fails in `build.Execute`, `doTargetList` returns the error of
`B`, `run` announces `BUILD FAILED`, and yet `run` returns `nil`. -/
theorem run_returns_nil_when_target_fails :
    (doTargetList failingWorld samplePackage sampleTargets hostOptions
        [Event.spanStart, Event.startSection "BUILD HOST",
          Event.startSection "BUILD PACKAGE SETUP", Event.buildOrder "C",
          Event.startSection "BUILD"]).err = some (GoError.new "exit status 1") ∧
      Event.subSection "BUILD FAILED" ∈ (run failingWorld hostBuild "C").events ∧
      (run failingWorld hostBuild "C").err = none := by
  decide

/-- Claim C4: once `newBiome` has succeeded, every exit path of `doTarget`
calls `bio.Close()` exactly once, as the last step of the call, and calls
`Close()` on the biome returned by `build.Setup` at most once. -/
theorem doTarget_closes_bio_exactly_once (w : World) (pkg : Package) (target : BuildTarget)
    (opts : doOptions) (hist : List Event)
    (h : w.newBiome hist opts.dockerClient pkg.Path target.Name = none) :
    (doTarget w pkg target opts hist).events.countP (Event.isClose .bio) = 1 ∧
    (doTarget w pkg target opts hist).events.count (Event.close target.Name .bio) = 1 ∧
    (doTarget w pkg target opts hist).events.getLast? = some (Event.close target.Name .bio) ∧
    (doTarget w pkg target opts hist).events.countP (Event.isClose .execBiome) ≤ 1 := by
  rcases doTarget_paths w pkg target opts hist with ⟨e, h1⟩ | ⟨e, h1, h2⟩ | ⟨e, h1, h2, h3⟩ | hs
  · rw [h] at h1; cases h1
  · rw [doTarget_of_phaseDeps_error w pkg target opts hist e h1 h2]
    simp [Event.isClose]
  · rw [doTarget_of_setup_error w pkg target opts hist e h1 h2 h3]
    simp [Event.isClose]
  · cases ho : opts.setupOnly
    · rw [doTarget_of_execute w pkg target opts hist hs ho]
      simp [Event.isClose]
    · rw [doTarget_of_setupOnly w pkg target opts hist hs ho]
      simp [Event.isClose]

theorem doTarget_closes_bio_exactly_once_witness :
    (doTarget failingWorld samplePackage ⟨"B"⟩ hostOptions []).events.countP
        (Event.isClose .bio) = 1 ∧
    (doTarget failingWorld samplePackage ⟨"B"⟩ hostOptions []).events.count
        (Event.close "B" .bio) = 1 ∧
    (doTarget failingWorld samplePackage ⟨"B"⟩ hostOptions []).events.getLast? =
        some (Event.close "B" .bio) ∧
    (doTarget failingWorld samplePackage ⟨"B"⟩ hostOptions []).events.countP
        (Event.isClose .execBiome) ≤ 1 :=
  doTarget_closes_bio_exactly_once failingWorld samplePackage ⟨"B"⟩ hostOptions [] rfl

/-- Claim C5, as stated, fails: with `--deps-only` set and `build.Setup`
returning an error, `doTarget` does not return `nil`. -/
theorem doTarget_setupOnly_setup_error :
    depsOnlyOptions.setupOnly = true ∧
      (doTarget setupFailingWorld samplePackage ⟨"A"⟩ depsOnlyOptions []).err =
        some (GoError.new "install failed") := by
  decide

/-- Claim C5, amended: with `--deps-only` set, `doTarget` never calls
`build.Execute`, and when `newBiome`, `targetToPhaseDeps` and `build.Setup`
succeed it has called `build.Setup` once and returns `nil`; without the
option and with the same three calls succeeding, `build.Execute` is called
exactly once and its result is the result of `doTarget`. -/
theorem doTarget_setupOnly_skips_execute (w : World) (pkg : Package) (target : BuildTarget)
    (opts : doOptions) (hist : List Event) :
    (opts.setupOnly = true →
      (doTarget w pkg target opts hist).events.countP Event.isExecute = 0 ∧
      (setupSucceeds w pkg target opts hist →
        (doTarget w pkg target opts hist).events.countP Event.isSetup = 1 ∧
        (doTarget w pkg target opts hist).err = none)) ∧
    (opts.setupOnly = false → setupSucceeds w pkg target opts hist →
      (doTarget w pkg target opts hist).events.countP Event.isExecute = 1 ∧
      (doTarget w pkg target opts hist).err =
        w.Execute
          (hist ++ [Event.newBiome pkg.Path target.Name, Event.targetToPhaseDeps target.Name,
            Event.setup target.Name opts.dockerNetworkID,
            Event.subSection ("Build target: " ++ target.Name)])
          target opts.dockerNetworkID opts.execPrefix) := by
  refine ⟨fun ho => ⟨?_, fun hs => ?_⟩, fun ho hs => ?_⟩
  · rcases doTarget_paths w pkg target opts hist with ⟨e, h1⟩ | ⟨e, h1, h2⟩ | ⟨e, h1, h2, h3⟩ | hs
    · rw [doTarget_of_newBiome_error w pkg target opts hist e h1]
      simp [Event.isExecute]
    · rw [doTarget_of_phaseDeps_error w pkg target opts hist e h1 h2]
      simp [Event.isExecute]
    · rw [doTarget_of_setup_error w pkg target opts hist e h1 h2 h3]
      simp [Event.isExecute]
    · rw [doTarget_of_setupOnly w pkg target opts hist hs ho]
      simp [Event.isExecute]
  · rw [doTarget_of_setupOnly w pkg target opts hist hs ho]
    simp [Event.isSetup]
  · rw [doTarget_of_execute w pkg target opts hist hs ho]
    simp [Event.isExecute]

theorem doTarget_setupOnly_skips_execute_witness :
    ((doTarget sampleWorld samplePackage ⟨"A"⟩ depsOnlyOptions []).events.countP
        Event.isExecute = 0 ∧
      (doTarget sampleWorld samplePackage ⟨"A"⟩ depsOnlyOptions []).events.countP
        Event.isSetup = 1 ∧
      (doTarget sampleWorld samplePackage ⟨"A"⟩ depsOnlyOptions []).err = none) ∧
    ((doTarget failingWorld samplePackage ⟨"B"⟩ hostOptions []).events.countP
        Event.isExecute = 1 ∧
      (doTarget failingWorld samplePackage ⟨"B"⟩ hostOptions []).err =
        some (GoError.new "exit status 1")) :=
  ⟨⟨((doTarget_setupOnly_skips_execute sampleWorld samplePackage ⟨"A"⟩ depsOnlyOptions []).1
        rfl).1,
      ((doTarget_setupOnly_skips_execute sampleWorld samplePackage ⟨"A"⟩ depsOnlyOptions []).1
        rfl).2 ⟨rfl, rfl, rfl⟩⟩,
    (doTarget_setupOnly_skips_execute failingWorld samplePackage ⟨"B"⟩ hostOptions []).2
      rfl ⟨rfl, rfl, rfl⟩⟩

/-- Claim C6: whenever the events of `doTarget` contain a `build.Execute`
call, `newBiome`, `targetToPhaseDeps` and `build.Setup` have returned `nil`
and the call comes after the `build.Setup` call; when one of the three
returns an error, `doTarget` returns a non-nil error and `build.Execute` is
not called. -/
theorem doTarget_execute_only_after_setup (w : World) (pkg : Package) (target : BuildTarget)
    (opts : doOptions) (hist : List Event) :
    ((∃ e ∈ (doTarget w pkg target opts hist).events, e.isExecute = true) →
      setupSucceeds w pkg target opts hist ∧
      (doTarget w pkg target opts hist).events =
        [Event.newBiome pkg.Path target.Name, Event.targetToPhaseDeps target.Name,
          Event.setup target.Name opts.dockerNetworkID,
          Event.subSection ("Build target: " ++ target.Name),
          Event.execute target.Name opts.dockerNetworkID opts.execPrefix,
          Event.close target.Name .execBiome, Event.close target.Name .bio]) ∧
    (¬ setupSucceeds w pkg target opts hist →
      (doTarget w pkg target opts hist).err ≠ none ∧
      (doTarget w pkg target opts hist).events.countP Event.isExecute = 0) := by
  have hno : ∀ err, ¬ (some err = (none : Option GoError)) := fun _ h => by cases h
  rcases doTarget_paths w pkg target opts hist with ⟨e, h1⟩ | ⟨e, h1, h2⟩ | ⟨e, h1, h2, h3⟩ | hs
  · rw [doTarget_of_newBiome_error w pkg target opts hist e h1]
    refine ⟨fun h => ?_, fun _ => ⟨hno _, by simp [Event.isExecute]⟩⟩
    simp [Event.isExecute] at h
  · rw [doTarget_of_phaseDeps_error w pkg target opts hist e h1 h2]
    refine ⟨fun h => ?_, fun _ => ⟨hno _, by simp [Event.isExecute]⟩⟩
    simp [Event.isExecute] at h
  · rw [doTarget_of_setup_error w pkg target opts hist e h1 h2 h3]
    refine ⟨fun h => ?_, fun _ => ⟨hno _, by simp [Event.isExecute]⟩⟩
    simp [Event.isExecute] at h
  · refine ⟨fun h => ⟨hs, ?_⟩, fun hn => absurd hs hn⟩
    cases ho : opts.setupOnly
    · rw [doTarget_of_execute w pkg target opts hist hs ho]
    · rw [doTarget_of_setupOnly w pkg target opts hist hs ho] at h
      simp [Event.isExecute] at h

theorem doTarget_execute_only_after_setup_witness :
    (setupSucceeds failingWorld samplePackage ⟨"B"⟩ hostOptions [] ∧
      (doTarget failingWorld samplePackage ⟨"B"⟩ hostOptions []).events =
        [Event.newBiome "/src/pkg" "B", Event.targetToPhaseDeps "B", Event.setup "B" "",
          Event.subSection "Build target: B", Event.execute "B" "" [],
          Event.close "B" .execBiome, Event.close "B" .bio]) ∧
    ((doTarget setupFailingWorld samplePackage ⟨"A"⟩ hostOptions []).err ≠ none ∧
      (doTarget setupFailingWorld samplePackage ⟨"A"⟩ hostOptions []).events.countP
        Event.isExecute = 0) :=
  ⟨(doTarget_execute_only_after_setup failingWorld samplePackage ⟨"B"⟩ hostOptions []).1
      ⟨Event.execute "B" "" [], by decide, rfl⟩,
    (doTarget_execute_only_after_setup setupFailingWorld samplePackage ⟨"A"⟩ hostOptions []).2
      (fun h => by have h3 := h.2.2; revert h3; decide)⟩


/-- Claim C7: when `Manifest.BuildOrder` returns an error for the requested
name, `run` returns a non-nil error, enters `doTarget` for no target and
creates no Docker network; when the steps before `BuildOrder` succeed, the
error returned wraps the error of `BuildOrder` and `run` ends right after the
`BuildOrder` call, before `doTargetList`. -/
theorem run_buildOrder_error (w : World) (b : buildCmd) (name : String) (e : GoError)
    (he : (w.BuildOrder w.GetTargetPackage.1 name).2 = some e) :
    (run w b name).err ≠ none ∧
    startedTargets (run w b name).events = [] ∧
    (run w b name).events.countP Event.isNewDockerNetwork = 0 ∧
    (reachesBuildOrder w b →
      (run w b name).err = some (errorfBuildOrder e (w.BuildTargetList w.GetTargetPackage.1)) ∧
      GoError.Wraps (errorfBuildOrder e (w.BuildTargetList w.GetTargetPackage.1)) e ∧
      (run w b name).events =
        [Event.spanStart,
          Event.startSection (if w.InsideTheMatrix then "BUILD CONTAINER" else "BUILD HOST"),
          Event.startSection "BUILD PACKAGE SETUP", Event.buildOrder name, Event.spanEnd]) := by
  unfold reachesBuildOrder
  cases h1 : w.NewProvider with
  | some err => simp [run, h1, startedTargets]
  | none =>
  cases h2 : w.DirsFromEnv with
  | some err => simp [run, h1, h2, startedTargets]
  | none =>
  rcases h3 : w.shlexSplit b.execPrefix with ⟨ep, _ | err⟩
  swap
  · simp [run, h1, h2, h3, startedTargets]
  rcases h4 : w.connectDockerClient (!b.noContainer) with ⟨dc, _ | err⟩
  swap
  · simp [run, h1, h2, h3, h4, startedTargets]
  rcases h5 : w.GetTargetPackage with ⟨tp, _ | err⟩
  swap
  · simp [run, h1, h2, h3, h4, h5, startedTargets, Event.isNewDockerNetwork]
  rw [h5] at he
  simp only at he
  have hrun : run w b name =
      ⟨[Event.spanStart,
          Event.startSection (if w.InsideTheMatrix then "BUILD CONTAINER" else "BUILD HOST"),
          Event.startSection "BUILD PACKAGE SETUP", Event.buildOrder name, Event.spanEnd],
        some (errorfBuildOrder e (w.BuildTargetList tp))⟩ := by
    simp [run, h1, h2, h3, h4, h5, he]
  rw [hrun]
  refine ⟨by simp, by simp [startedTargets], by simp [Event.isNewDockerNetwork],
    fun _ => ⟨rfl, GoError.wraps_cause _ _, rfl⟩⟩

theorem run_buildOrder_error_witness :
    (run sampleWorld hostBuild "nope").err ≠ none ∧
    startedTargets (run sampleWorld hostBuild "nope").events = [] ∧
    (run sampleWorld hostBuild "nope").events.countP Event.isNewDockerNetwork = 0 ∧
    (run sampleWorld hostBuild "nope").err =
      some (errorfBuildOrder (GoError.new "unknown target nope") ["A", "B", "C"]) ∧
    GoError.Wraps (errorfBuildOrder (GoError.new "unknown target nope") ["A", "B", "C"])
      (GoError.new "unknown target nope") ∧
    (run sampleWorld hostBuild "nope").events =
      [Event.spanStart, Event.startSection "BUILD HOST",
        Event.startSection "BUILD PACKAGE SETUP", Event.buildOrder "nope", Event.spanEnd] :=
  have h := run_buildOrder_error sampleWorld hostBuild "nope"
    (GoError.new "unknown target nope") rfl
  ⟨h.1, h.2.1, h.2.2.1, h.2.2.2 ⟨rfl, rfl, rfl, rfl, rfl⟩⟩

/-! ## Theorems: `doTargetList` -/

theorem startedTargets_append (a b : List Event) :
    startedTargets (a ++ b) = startedTargets a ++ startedTargets b := by
  simp [startedTargets, List.filterMap_append]

theorem startedTargets_doTarget (w : World) (pkg : Package) (target : BuildTarget)
    (opts : doOptions) (hist : List Event) :
    startedTargets (doTarget w pkg target opts hist).events = [target.Name] := by
  rcases doTarget_paths w pkg target opts hist with ⟨e, h1⟩ | ⟨e, h1, h2⟩ | ⟨e, h1, h2, h3⟩ | hs
  · rw [doTarget_of_newBiome_error w pkg target opts hist e h1]; rfl
  · rw [doTarget_of_phaseDeps_error w pkg target opts hist e h1 h2]; rfl
  · rw [doTarget_of_setup_error w pkg target opts hist e h1 h2 h3]; rfl
  · cases ho : opts.setupOnly
    · rw [doTarget_of_execute w pkg target opts hist hs ho]; rfl
    · rw [doTarget_of_setupOnly w pkg target opts hist hs ho]; rfl

theorem historyAfter_cons (w : World) (pkg : Package) (opts : doOptions) (x : BuildTarget)
    (rest : List BuildTarget) (hist : List Event) :
    historyAfter w pkg opts (x :: rest) hist =
      historyAfter w pkg opts rest (hist ++ (doTarget w pkg x opts hist).events) := rfl

theorem allSucceed_cons (w : World) (pkg : Package) (opts : doOptions) (x : BuildTarget)
    (rest : List BuildTarget) (hist : List Event)
    (h : allSucceed w pkg opts (x :: rest) hist) :
    (doTarget w pkg x opts hist).err = none ∧
      allSucceed w pkg opts rest (hist ++ (doTarget w pkg x opts hist).events) := by
  refine ⟨h [] x rest rfl, fun a y b hab => ?_⟩
  have := h (x :: a) y b (by rw [hab]; rfl)
  rwa [historyAfter_cons] at this

theorem allSucceed_nil (w : World) (pkg : Package) (opts : doOptions) (hist : List Event) :
    allSucceed w pkg opts [] hist := by
  intro a x b hab
  simp at hab

theorem allSucceed_cons_of (w : World) (pkg : Package) (opts : doOptions) (x : BuildTarget)
    (rest : List BuildTarget) (hist : List Event)
    (hx : (doTarget w pkg x opts hist).err = none)
    (hrest : allSucceed w pkg opts rest (hist ++ (doTarget w pkg x opts hist).events)) :
    allSucceed w pkg opts (x :: rest) hist := by
  intro a y b hab
  cases a with
  | nil =>
    simp only [List.nil_append, List.cons.injEq] at hab
    rw [← hab.1]
    exact hx
  | cons a0 a1 =>
    simp only [List.cons_append, List.cons.injEq] at hab
    rw [← hab.1, historyAfter_cons]
    exact hrest a1 y b hab.2

/-- When every target succeeds in its turn, the loop runs them all, in order,
and returns `nil`. -/
theorem doTargetLoop_of_allSucceed (w : World) (pkg : Package) (opts : doOptions)
    (targets : List BuildTarget) (hist : List Event)
    (h : allSucceed w pkg opts targets hist) :
    (doTargetLoop w pkg opts targets hist).err = none ∧
    hist ++ (doTargetLoop w pkg opts targets hist).events =
      historyAfter w pkg opts targets hist ∧
    startedTargets (doTargetLoop w pkg opts targets hist).events =
      targets.map (fun t => t.Name) := by
  induction targets generalizing hist with
  | nil => simp [doTargetLoop, historyAfter, startedTargets]
  | cons x rest ih =>
    obtain ⟨hx, hrest⟩ := allSucceed_cons w pkg opts x rest hist h
    obtain ⟨i1, i2, i3⟩ := ih _ hrest
    simp only [doTargetLoop, hx]
    refine ⟨i1, ?_, ?_⟩
    · rw [historyAfter_cons, ← i2, List.append_assoc]
    · rw [startedTargets_append, startedTargets_doTarget, i3]; rfl

/-- When the targets of `pre` succeed in their turn and `target` then fails,
the loop ends with the events of `target`: nothing of `post` is run. -/
theorem doTargetLoop_of_first_error (w : World) (pkg : Package) (opts : doOptions)
    (pre : List BuildTarget) (target : BuildTarget) (post : List BuildTarget)
    (hist : List Event) (e : GoError)
    (h : allSucceed w pkg opts pre hist)
    (ht : (doTarget w pkg target opts (historyAfter w pkg opts pre hist)).err = some e) :
    doTargetLoop w pkg opts (pre ++ target :: post) hist =
      ⟨(doTargetLoop w pkg opts pre hist).events ++
        (doTarget w pkg target opts (historyAfter w pkg opts pre hist)).events, some e⟩ := by
  induction pre generalizing hist with
  | nil =>
    simp only [historyAfter, List.foldl_nil] at ht
    simp [doTargetLoop, historyAfter, ht]
  | cons x rest ih =>
    obtain ⟨hx, hrest⟩ := allSucceed_cons w pkg opts x rest hist h
    rw [historyAfter_cons] at ht ⊢
    have := ih _ hrest ht
    rw [List.cons_append]
    simp only [doTargetLoop, hx]
    rw [this, List.append_assoc]


/-- With the shared network ready, `doTargetList` returns what its loop
returns and enters `doTarget` for the targets its loop enters it for. -/
theorem doTargetList_of_networkReady (w : World) (pkg : Package) (targets : List BuildTarget)
    (opts : doOptions) (hist : List Event) (hnet : networkReady w opts hist) :
    (doTargetList w pkg targets opts hist).err =
      (doTargetLoop w pkg (loopOptions w opts hist) targets (loopHistory opts hist)).err ∧
    startedTargets (doTargetList w pkg targets opts hist).events =
      startedTargets
        (doTargetLoop w pkg (loopOptions w opts hist) targets (loopHistory opts hist)).events := by
  cases targets with
  | nil => simp [doTargetList, doTargetLoop]
  | cons x rest =>
    unfold doTargetList loopOptions loopHistory
    by_cases hc : opts.dockerClient = true ∧ opts.dockerNetworkID = ""
    · rcases hnet with hn | hn
      · exact absurd hc hn
      · rcases hw : w.newDockerNetwork hist with ⟨id, _ | err⟩
        · simp [hc, hw, startedTargets_append, startedTargets]
        · rw [hw] at hn; cases hn
    · simp [hc]

/-- Claim C2, as stated, fails: with a Docker client and a daemon that
refuses to create the shared network, no target fails (every `doTarget` call
in that world returns `nil`), yet `doTargetList` returns a non-nil error and
enters `doTarget` for no target. -/
theorem doTargetList_network_error_runs_nothing :
    (∀ target opts hist,
      (doTarget noNetworkWorld samplePackage target opts hist).err = none) ∧
    (doTargetList noNetworkWorld samplePackage sampleTargets dockerOptions []).err =
      some (GoError.new "create network: denied") ∧
    startedTargets
      (doTargetList noNetworkWorld samplePackage sampleTargets dockerOptions []).events = [] := by
  refine ⟨fun target opts hist => ?_, by decide, by decide⟩
  cases ho : opts.setupOnly
  · rw [doTarget_of_execute noNetworkWorld samplePackage target opts hist ⟨rfl, rfl, rfl⟩ ho]
    rfl
  · rw [doTarget_of_setupOnly noNetworkWorld samplePackage target opts hist ⟨rfl, rfl, rfl⟩ ho]

/-- Claim C2, amended: provided that no shared network has to be created or
its creation succeeds, `doTargetList` runs `doTarget` on the targets in list
order and stops at the first one that returns an error.  If the targets of
`pre` return `nil` in their turn and `target` then returns `e`, the call on
`pre ++ target :: post` returns `e` and has entered `doTarget` exactly for
`pre` and `target`, in this order; if all targets return `nil`, the call
returns `nil` and has entered `doTarget` for each of them, in list order. -/
theorem doTargetList_fail_fast (w : World) (pkg : Package) (opts : doOptions)
    (hist : List Event) (hnet : networkReady w opts hist) :
    (∀ pre target post e,
      allSucceed w pkg (loopOptions w opts hist) pre (loopHistory opts hist) →
      (doTarget w pkg target (loopOptions w opts hist)
        (historyAfter w pkg (loopOptions w opts hist) pre (loopHistory opts hist))).err =
          some e →
      (doTargetList w pkg (pre ++ target :: post) opts hist).err = some e ∧
      startedTargets (doTargetList w pkg (pre ++ target :: post) opts hist).events =
        (pre ++ [target]).map (fun t => t.Name)) ∧
    (∀ targets,
      allSucceed w pkg (loopOptions w opts hist) targets (loopHistory opts hist) →
      (doTargetList w pkg targets opts hist).err = none ∧
      startedTargets (doTargetList w pkg targets opts hist).events =
        targets.map (fun t => t.Name)) := by
  refine ⟨fun pre target post e hpre ht => ?_, fun targets hall => ?_⟩
  · obtain ⟨h1, h2⟩ := doTargetList_of_networkReady w pkg (pre ++ target :: post) opts hist hnet
    rw [h1, h2, doTargetLoop_of_first_error w pkg _ pre target post _ e hpre ht]
    refine ⟨rfl, ?_⟩
    simp only
    rw [startedTargets_append, startedTargets_doTarget,
      (doTargetLoop_of_allSucceed w pkg _ pre _ hpre).2.2]
    simp
  · obtain ⟨h1, h2⟩ := doTargetList_of_networkReady w pkg targets opts hist hnet
    rw [h1, h2]
    exact ⟨(doTargetLoop_of_allSucceed w pkg _ targets _ hall).1,
      (doTargetLoop_of_allSucceed w pkg _ targets _ hall).2.2⟩

theorem doTargetList_fail_fast_witness :
    ((doTargetList failingWorld samplePackage ([⟨"A"⟩] ++ ⟨"B"⟩ :: [⟨"C"⟩]) dockerOptions
        []).err = some (GoError.new "exit status 1") ∧
      startedTargets (doTargetList failingWorld samplePackage ([⟨"A"⟩] ++ ⟨"B"⟩ :: [⟨"C"⟩])
        dockerOptions []).events = ["A", "B"]) ∧
    ((doTargetList sampleWorld samplePackage sampleTargets hostOptions []).err = none ∧
      startedTargets (doTargetList sampleWorld samplePackage sampleTargets hostOptions
        []).events = ["A", "B", "C"]) :=
  ⟨(doTargetList_fail_fast failingWorld samplePackage dockerOptions [] (Or.inr rfl)).1
      [⟨"A"⟩] ⟨"B"⟩ [⟨"C"⟩] (GoError.new "exit status 1")
      (allSucceed_cons_of _ _ _ _ _ _ (by decide) (allSucceed_nil _ _ _ _)) (by decide),
    (doTargetList_fail_fast sampleWorld samplePackage hostOptions [] (Or.inl (by decide))).2
      sampleTargets
      (allSucceed_cons_of _ _ _ _ _ _ (by decide)
        (allSucceed_cons_of _ _ _ _ _ _ (by decide)
          (allSucceed_cons_of _ _ _ _ _ _ (by decide) (allSucceed_nil _ _ _ _))))⟩

theorem doTarget_events_networkID (w : World) (pkg : Package) (target : BuildTarget)
    (opts : doOptions) (hist : List Event) :
    (doTarget w pkg target opts hist).events.countP Event.isNewDockerNetwork = 0 ∧
    (doTarget w pkg target opts hist).events.countP Event.isNetworkCleanup = 0 ∧
    ∀ ev ∈ (doTarget w pkg target opts hist).events, ∀ id,
      ev.networkID? = some id → id = opts.dockerNetworkID := by
  have key : ∀ l : List Event,
      (∀ ev ∈ l, ev = Event.setup target.Name opts.dockerNetworkID ∨
        ev = Event.execute target.Name opts.dockerNetworkID opts.execPrefix ∨
        ev = Event.newBiome pkg.Path target.Name ∨ ev = Event.targetToPhaseDeps target.Name ∨
        ev = Event.subSection ("Build target: " ++ target.Name) ∨
        ev = Event.close target.Name .execBiome ∨ ev = Event.close target.Name .bio) →
      l.countP Event.isNewDockerNetwork = 0 ∧ l.countP Event.isNetworkCleanup = 0 ∧
      ∀ ev ∈ l, ∀ id, ev.networkID? = some id → id = opts.dockerNetworkID := by
    intro l hl
    refine ⟨?_, ?_, ?_⟩
    · rw [List.countP_eq_zero]
      intro ev hev
      rcases hl ev hev with h | h | h | h | h | h | h <;> subst h <;>
        simp [Event.isNewDockerNetwork]
    · rw [List.countP_eq_zero]
      intro ev hev
      rcases hl ev hev with h | h | h | h | h | h | h <;> subst h <;>
        simp [Event.isNetworkCleanup]
    · intro ev hev id hid
      rcases hl ev hev with h | h | h | h | h | h | h <;> subst h <;>
        simp [Event.networkID?] at hid <;> exact hid.symm
  apply key
  rcases doTarget_paths w pkg target opts hist with ⟨e, h1⟩ | ⟨e, h1, h2⟩ | ⟨e, h1, h2, h3⟩ | hs
  · rw [doTarget_of_newBiome_error w pkg target opts hist e h1]
    simp
  · rw [doTarget_of_phaseDeps_error w pkg target opts hist e h1 h2]
    simp
  · rw [doTarget_of_setup_error w pkg target opts hist e h1 h2 h3]
    simp
  · cases ho : opts.setupOnly
    · rw [doTarget_of_execute w pkg target opts hist hs ho]
      simp
    · rw [doTarget_of_setupOnly w pkg target opts hist hs ho]
      simp

theorem doTargetLoop_events_networkID (w : World) (pkg : Package) (opts : doOptions)
    (targets : List BuildTarget) (hist : List Event) :
    (doTargetLoop w pkg opts targets hist).events.countP Event.isNewDockerNetwork = 0 ∧
    (doTargetLoop w pkg opts targets hist).events.countP Event.isNetworkCleanup = 0 ∧
    ∀ ev ∈ (doTargetLoop w pkg opts targets hist).events, ∀ id,
      ev.networkID? = some id → id = opts.dockerNetworkID := by
  induction targets generalizing hist with
  | nil => simp [doTargetLoop]
  | cons x rest ih =>
    obtain ⟨d1, d2, d3⟩ := doTarget_events_networkID w pkg x opts hist
    simp only [doTargetLoop]
    cases hx : (doTarget w pkg x opts hist).err with
    | some err => exact ⟨d1, d2, d3⟩
    | none =>
      obtain ⟨i1, i2, i3⟩ := ih (hist ++ (doTarget w pkg x opts hist).events)
      refine ⟨by rw [List.countP_append, d1, i1], by rw [List.countP_append, d2, i2],
        fun ev hev => ?_⟩
      rcases List.mem_append.mp hev with hev | hev
      · exact d3 ev hev
      · exact i3 ev hev

/-- Claim C3, as stated, fails: for a non-empty target list, a Docker client
and no network id, when `newDockerNetwork` returns an error no network
`cleanup` is called and `doTarget` is entered for no target. -/
theorem doTargetList_network_error_no_cleanup :
    sampleTargets ≠ [] ∧ dockerOptions.dockerClient = true ∧
    dockerOptions.dockerNetworkID = "" ∧
    (doTargetList noNetworkWorld samplePackage sampleTargets dockerOptions []).events =
      [Event.newDockerNetwork] ∧
    (doTargetList noNetworkWorld samplePackage sampleTargets dockerOptions []).events.countP
      Event.isNetworkCleanup = 0 := by
  decide

/-- Claim C3, amended: for a non-empty target list, a Docker client and no
network id, `newDockerNetwork` is called once, first of all.  When it
succeeds with `id`, the events of `doTargetList` are that call, then those of
the loop run with `dockerNetworkID = id`, then the `cleanup` of `id`: the
cleanup is called once, last of all, whether the loop returned an error or
not, and every `build.Setup` and `build.Execute` call is given the network
id `id`.  When it fails, its error is returned and nothing else happens. -/
theorem doTargetList_network_lifecycle (w : World) (pkg : Package)
    (targets : List BuildTarget) (opts : doOptions) (hist : List Event)
    (hne : targets ≠ []) (hc : opts.dockerClient = true) (hid : opts.dockerNetworkID = "") :
    (doTargetList w pkg targets opts hist).events.countP Event.isNewDockerNetwork = 1 ∧
    (doTargetList w pkg targets opts hist).events.head? = some Event.newDockerNetwork ∧
    (∀ id, w.newDockerNetwork hist = (id, none) →
      (doTargetList w pkg targets opts hist).events =
        Event.newDockerNetwork ::
          ((doTargetLoop w pkg { opts with dockerNetworkID := id } targets
            (hist ++ [Event.newDockerNetwork])).events ++ [Event.networkCleanup id]) ∧
      (doTargetList w pkg targets opts hist).err =
        (doTargetLoop w pkg { opts with dockerNetworkID := id } targets
          (hist ++ [Event.newDockerNetwork])).err ∧
      (doTargetList w pkg targets opts hist).events.countP Event.isNetworkCleanup = 1 ∧
      (doTargetList w pkg targets opts hist).events.getLast? =
        some (Event.networkCleanup id) ∧
      ∀ ev ∈ (doTargetList w pkg targets opts hist).events, ∀ n,
        ev.networkID? = some n → n = id) ∧
    (∀ id e, w.newDockerNetwork hist = (id, some e) →
      doTargetList w pkg targets opts hist = ⟨[Event.newDockerNetwork], some e⟩) := by
  have hlen : ¬ targets.length = 0 := fun h => hne (List.length_eq_zero.mp h)
  have hfail : ∀ id e, w.newDockerNetwork hist = (id, some e) →
      doTargetList w pkg targets opts hist = ⟨[Event.newDockerNetwork], some e⟩ := by
    intro id e hnew
    unfold doTargetList
    simp [hlen, hc, hid, hnew]
  have hok : ∀ id, w.newDockerNetwork hist = (id, none) →
      doTargetList w pkg targets opts hist =
        ⟨Event.newDockerNetwork ::
          ((doTargetLoop w pkg { opts with dockerNetworkID := id } targets
            (hist ++ [Event.newDockerNetwork])).events ++ [Event.networkCleanup id]),
          (doTargetLoop w pkg { opts with dockerNetworkID := id } targets
            (hist ++ [Event.newDockerNetwork])).err⟩ := by
    intro id hnew
    unfold doTargetList
    simp [hlen, hc, hid, hnew]
  have hcount : ∀ id, (Event.newDockerNetwork ::
      ((doTargetLoop w pkg { opts with dockerNetworkID := id } targets
        (hist ++ [Event.newDockerNetwork])).events ++
        [Event.networkCleanup id])).countP Event.isNewDockerNetwork = 1 := by
    intro id
    simp [List.countP_cons, List.countP_append, Event.isNewDockerNetwork,
      (doTargetLoop_events_networkID w pkg { opts with dockerNetworkID := id } targets
        (hist ++ [Event.newDockerNetwork])).1]
  refine ⟨?_, ?_, fun id hnew => ?_, hfail⟩
  · rcases hw : w.newDockerNetwork hist with ⟨id, _ | e⟩
    · rw [hok id hw]; exact hcount id
    · rw [hfail id e hw]; rfl
  · rcases hw : w.newDockerNetwork hist with ⟨id, _ | e⟩
    · rw [hok id hw]; rfl
    · rw [hfail id e hw]; rfl
  · obtain ⟨_, l2, l3⟩ := doTargetLoop_events_networkID w pkg
      { opts with dockerNetworkID := id } targets (hist ++ [Event.newDockerNetwork])
    rw [hok id hnew]
    refine ⟨rfl, rfl, ?_, ?_, ?_⟩
    · simp [List.countP_cons, List.countP_append, l2, Event.isNetworkCleanup]
    · simp only
      rw [← List.cons_append, List.getLast?_concat]
    · intro ev hmem n hn
      simp only [List.mem_cons, List.mem_append, List.mem_singleton, List.not_mem_nil,
        or_false] at hmem
      rcases hmem with h | h | h
      · subst h; simp [Event.networkID?] at hn
      · exact l3 ev h n hn
      · subst h; simp [Event.networkID?] at hn

theorem doTargetList_network_lifecycle_witness :
    ((doTargetList failingWorld samplePackage sampleTargets dockerOptions []).events.countP
      Event.isNewDockerNetwork = 1 ∧
    (doTargetList failingWorld samplePackage sampleTargets dockerOptions []).events.head? =
      some Event.newDockerNetwork) ∧
    ((doTargetList failingWorld samplePackage sampleTargets dockerOptions []).events =
      Event.newDockerNetwork ::
        ((doTargetLoop failingWorld samplePackage
          { dockerOptions with dockerNetworkID := "net-1" }
          sampleTargets ([] ++ [Event.newDockerNetwork])).events ++
          [Event.networkCleanup "net-1"]) ∧
    (doTargetList failingWorld samplePackage sampleTargets dockerOptions []).err =
      (doTargetLoop failingWorld samplePackage { dockerOptions with dockerNetworkID := "net-1" }
        sampleTargets ([] ++ [Event.newDockerNetwork])).err ∧
    (doTargetList failingWorld samplePackage sampleTargets dockerOptions []).events.countP
      Event.isNetworkCleanup = 1 ∧
    (doTargetList failingWorld samplePackage sampleTargets dockerOptions []).events.getLast? =
      some (Event.networkCleanup "net-1") ∧
    ∀ ev ∈ (doTargetList failingWorld samplePackage sampleTargets dockerOptions []).events,
      ∀ n, ev.networkID? = some n → n = "net-1") ∧
    doTargetList noNetworkWorld samplePackage sampleTargets dockerOptions [] =
      ⟨[Event.newDockerNetwork], some (GoError.new "create network: denied")⟩ :=
  have h := doTargetList_network_lifecycle failingWorld samplePackage sampleTargets
    dockerOptions [] (by decide) rfl rfl
  ⟨⟨h.1, h.2.1⟩, h.2.2.1 "net-1" rfl,
    (doTargetList_network_lifecycle noNetworkWorld samplePackage sampleTargets
      dockerOptions [] (by decide) rfl rfl).2.2.2 "" (GoError.new "create network: denied") rfl⟩

/-! ## Theorems: the trace sink -/

theorem concatStrings_append (a b : List String) :
    concatStrings (a ++ b) = concatStrings a ++ concatStrings b := by
  induction a with
  | nil => simp [concatStrings]
  | cons x rest ih => simp [concatStrings, ih, String.append_assoc]

theorem renderLines_append (f : Formatter) (a b : List Line) :
    renderLines f (a ++ b) = renderLines f a ++ renderLines f b := by
  simp [renderLines, concatStrings_append]

theorem renderLines_cons (f : Formatter) (a : Line) (b : List Line) :
    renderLines f (a :: b) = a.render f ++ renderLines f b := rfl

/-- Appending to a string builder in a loop writes the pieces in order. -/
theorem foldl_append_eq_concat {α : Type} (g : α → String) (l : List α) (init : String) :
    l.foldl (fun sb x => sb ++ g x) init = init ++ concatStrings (l.map g) := by
  induction l generalizing init with
  | nil => simp [concatStrings]
  | cons x rest ih => simp [ih, concatStrings, String.append_assoc]

theorem renderLines_flatMap {α : Type} (f : Formatter) (l : List α) (g : α → List Line) :
    renderLines f (l.flatMap g) = concatStrings (l.map fun x => renderLines f (g x)) := by
  induction l with
  | nil => rfl
  | cons x rest ih => simp [List.flatMap_cons, renderLines_append, ih, concatStrings]

/-- The text `dumpLocked` writes is the text of the lines of `linesFrom`. -/
theorem dumpLocked_eq_linesFrom (f : Formatter) (sink : traceSink) (levels : Nat) :
    ∀ (parent : SpanID) (depth : Nat), 3 - depth = levels →
      sink.dumpLocked f parent depth = renderLines f (sink.linesFrom levels parent depth) := by
  induction levels with
  | zero =>
    intro parent depth hd
    have h3 : depth ≥ 3 := by omega
    rw [traceSink.dumpLocked]
    simp only [h3, dite_true, traceSink.linesFrom]
    split <;> simp [renderLines, concatStrings, Line.render]
  | succ n ih =>
    intro parent depth hd
    have h3 : ¬ depth ≥ 3 := by omega
    rw [traceSink.dumpLocked]
    simp only [h3, dite_false, traceSink.linesFrom]
    rw [renderLines_flatMap]
    have hg : (fun sb span => sb ++ spanRow f span depth ++
        sink.dumpLocked f span.SpanID (depth + 1)) =
        (fun sb span => sb ++ (spanRow f span depth ++
          renderLines f (sink.linesFrom n span.SpanID (depth + 1)))) := by
      funext sb span
      rw [ih span.SpanID (depth + 1) (by omega), String.append_assoc]
    rw [hg, foldl_append_eq_concat, String.empty_append]
    rfl

theorem dumpLocked_eq_dumpLines (f : Formatter) (sink : traceSink) (parent : SpanID)
    (depth : Nat) :
    sink.dumpLocked f parent depth = renderLines f (sink.dumpLines parent depth) :=
  dumpLocked_eq_linesFrom f sink (3 - depth) parent depth rfl

theorem SpanID.isValid_eq_false_iff (id : SpanID) : id.IsValid = false ↔ id = ⟨0⟩ := by
  cases id with
  | mk v => simp [SpanID.IsValid]

theorem exportAll_cons (sink : traceSink) (x : SpanData) (rest : List SpanData) :
    sink.exportAll (x :: rest) = (sink.ExportSpan x).exportAll rest := rfl

/-- The root spans after a sequence of `ExportSpan` calls. -/
theorem exportAll_rootSpans (sink : traceSink) (spans : List SpanData) :
    (sink.exportAll spans).rootSpans = sink.rootSpans ++ rootsOf spans := by
  induction spans generalizing sink with
  | nil => simp [traceSink.exportAll, rootsOf]
  | cons x rest ih =>
    rw [exportAll_cons, ih]
    unfold traceSink.ExportSpan rootsOf
    cases hv : x.ParentSpanID.IsValid <;> simp [hv, List.filter_cons]

/-- The children map after a sequence of `ExportSpan` calls. -/
theorem exportAll_children (sink : traceSink) (spans : List SpanData) (id : SpanID) :
    (sink.exportAll spans).children id =
      if id.IsValid then sink.children id ++ childrenOf spans id else sink.children id := by
  induction spans generalizing sink with
  | nil => simp [traceSink.exportAll, childrenOf]
  | cons x rest ih =>
    rw [exportAll_cons, ih]
    unfold traceSink.ExportSpan childrenOf
    cases hv : x.ParentSpanID.IsValid
    · have hne : id.IsValid = true → ¬ x.ParentSpanID = id := by
        intro h1 h2; rw [h2, h1] at hv; cases hv
      cases hid : id.IsValid
      · simp
      · simp [List.filter_cons, hne hid]
    · cases hid : id.IsValid
      · have hne : ¬ id = x.ParentSpanID := by
          intro h2; rw [h2, hv] at hid; cases hid
        simp [hne]
      · by_cases he : id = x.ParentSpanID
        · subst he; simp [List.filter_cons]
        · have he2 : ¬ x.ParentSpanID = id := fun h => he h.symm
          simp [List.filter_cons, he, he2]

/-- In a sink filled from the empty sink, the list `dumpLocked` reads for an
id holds the exported spans whose parent id is that id, in export order. -/
theorem list_exportAll_empty (spans : List SpanData) (id : SpanID) :
    (traceSink.empty.exportAll spans).list id = childrenOf spans id := by
  unfold traceSink.list
  rw [exportAll_children, exportAll_rootSpans]
  cases hid : id.IsValid
  · have h0 := (SpanID.isValid_eq_false_iff id).mp hid
    subst h0
    simp only [traceSink.empty, List.nil_append, rootsOf, childrenOf]
    apply List.filter_congr
    intro s _
    cases hs : s.ParentSpanID.IsValid
    · simp [(SpanID.isValid_eq_false_iff _).mp hs]
    · have : ¬ s.ParentSpanID = ⟨0⟩ := by
        intro h; rw [h] at hs; simp [SpanID.IsValid] at hs
      simp [this]
  · simp [traceSink.empty]

/-- The lines of a whole dump, level by level. -/
theorem dumpLines_root (sink : traceSink) :
    sink.dumpLines ⟨0⟩ 0 =
      sink.rootSpans.flatMap fun s0 => Line.span 0 s0 ::
        (sink.list s0.SpanID).flatMap fun s1 => Line.span 1 s1 ::
          (sink.list s1.SpanID).flatMap fun s2 => Line.span 2 s2 ::
            (if (sink.list s2.SpanID).length > 0 then [Line.elided 3] else []) := rfl

theorem dump_eq_dumpLines (f : Formatter) (sink : traceSink) :
    sink.dump f = dumpHeader ++ renderLines f (sink.dumpLines ⟨0⟩ 0) := by
  rw [traceSink.dump, dumpLocked_eq_dumpLines]

/-- Claim C9: the body of a dump consists of the rows of the root spans at
depth 0, each followed by the rows of its children at depth 1, each followed
by the rows of its children at depth 2; a depth-2 row is followed by one
elided line when the span has a recorded child and by nothing otherwise; no
other line is written.  The elided line ends in three dots. -/
theorem dump_rows_up_to_depth_two (f : Formatter) (sink : traceSink) :
    sink.dump f = dumpHeader ++ renderLines f
      (sink.rootSpans.flatMap fun s0 => Line.span 0 s0 ::
        (sink.list s0.SpanID).flatMap fun s1 => Line.span 1 s1 ::
          (sink.list s1.SpanID).flatMap fun s2 => Line.span 2 s2 ::
            (if (sink.list s2.SpanID).length > 0 then [Line.elided 3] else [])) ∧
    (Line.elided 3).render f =
      "                                                   ...\n" := by
  refine ⟨?_, ?_⟩
  · rw [dump_eq_dumpLines, dumpLines_root]
  · show elidedRow 3 = _
    decide

/-- The lines of the dump of a sink filled from the empty sink, in terms of
the exported spans. -/
theorem dumpLines_exportAll_empty (spans : List SpanData) :
    (traceSink.empty.exportAll spans).dumpLines ⟨0⟩ 0 =
      (rootsOf spans).flatMap fun s0 => Line.span 0 s0 ::
        (childrenOf spans s0.SpanID).flatMap fun s1 => Line.span 1 s1 ::
          (childrenOf spans s1.SpanID).flatMap fun s2 => Line.span 2 s2 ::
            (if (childrenOf spans s2.SpanID).length > 0 then [Line.elided 3] else []) := by
  rw [dumpLines_root, exportAll_rootSpans]
  simp only [list_exportAll_empty]
  rfl

theorem filterMap_spanAt_zero (roots : List SpanData) (g : SpanData → List Line)
    (hg : ∀ s, ∀ line ∈ g s, Line.spanAt 0 line = none) :
    (roots.flatMap fun s0 => Line.span 0 s0 :: g s0).filterMap (Line.spanAt 0) = roots := by
  induction roots with
  | nil => rfl
  | cons x rest ih =>
    rw [List.flatMap_cons, List.filterMap_append, ih]
    have : (g x).filterMap (Line.spanAt 0) = [] := List.filterMap_eq_nil_iff.mpr (hg x)
    simp [List.filterMap_cons, Line.spanAt, this]

/-- Claim C10, as stated, fails: after exporting a chain of four spans the
span `grand` has a row at depth 2, and its child has no row below it: an
elided line stands there instead. -/
theorem dump_elides_children_at_depth_two :
    childrenOf [sampleRoot, sampleChild, sampleGrand, sampleGreatGrand] sampleGrand.SpanID =
      [sampleGreatGrand] ∧
    (traceSink.empty.exportAll
        [sampleRoot, sampleChild, sampleGrand, sampleGreatGrand]).dumpLines ⟨0⟩ 0 =
      [Line.span 0 sampleRoot, Line.span 1 sampleChild, Line.span 2 sampleGrand,
        Line.elided 3] ∧
    (traceSink.empty.exportAll
        [sampleRoot, sampleChild, sampleGrand, sampleGreatGrand]).dump sampleFormatter =
      dumpHeader ++ renderLines sampleFormatter
        [Line.span 0 sampleRoot, Line.span 1 sampleChild, Line.span 2 sampleGrand,
          Line.elided 3] := by
  refine ⟨by decide, by decide, ?_⟩
  rw [dump_eq_dumpLines]
  exact congrArg (fun l => dumpHeader ++ renderLines sampleFormatter l) (by decide)

/-- Claim C10, amended: after any sequence of `ExportSpan` calls on an empty
sink, the rows at depth 0 are exactly the exported spans without a valid
parent id, in export order, and no span with a valid parent id has a row at
depth 0; below the row of a span at depth 0 or 1 come the rows of the spans
exported with its id as parent id, in export order, each with its own rows
below; the children of a span at depth 2 have no rows. -/
theorem dump_exported_forest (f : Formatter) (spans : List SpanData) :
    (traceSink.empty.exportAll spans).dump f =
      dumpHeader ++ renderLines f ((traceSink.empty.exportAll spans).dumpLines ⟨0⟩ 0) ∧
    (traceSink.empty.exportAll spans).dumpLines ⟨0⟩ 0 =
      ((rootsOf spans).flatMap fun s0 => Line.span 0 s0 ::
        (childrenOf spans s0.SpanID).flatMap fun s1 => Line.span 1 s1 ::
          (childrenOf spans s1.SpanID).flatMap fun s2 => Line.span 2 s2 ::
            (if (childrenOf spans s2.SpanID).length > 0 then [Line.elided 3] else [])) ∧
    ((traceSink.empty.exportAll spans).dumpLines ⟨0⟩ 0).filterMap (Line.spanAt 0) =
      rootsOf spans ∧
    ∀ s, Line.span 0 s ∈ (traceSink.empty.exportAll spans).dumpLines ⟨0⟩ 0 →
      s.ParentSpanID.IsValid = false := by
  have h3 : ((traceSink.empty.exportAll spans).dumpLines ⟨0⟩ 0).filterMap (Line.spanAt 0) =
      rootsOf spans := by
    rw [dumpLines_exportAll_empty]
    apply filterMap_spanAt_zero
    intro s line hl
    simp only [List.mem_flatMap, List.mem_cons] at hl
    obtain ⟨s1, _, h | ⟨s2, _, h | h⟩⟩ := hl
    · subst h; rfl
    · subst h; rfl
    · split at h
      · simp only [List.mem_singleton] at h
        subst h; rfl
      · simp at h
  refine ⟨dump_eq_dumpLines f _, dumpLines_exportAll_empty spans, h3, fun s hs => ?_⟩
  have hm : s ∈ ((traceSink.empty.exportAll spans).dumpLines ⟨0⟩ 0).filterMap
      (Line.spanAt 0) :=
    List.mem_filterMap.mpr ⟨Line.span 0 s, hs, rfl⟩
  rw [h3] at hm
  have := (List.mem_filter.mp hm).2
  simpa using this

theorem traceSink.eq_of_fields (a b : traceSink) (h1 : a.rootSpans = b.rootSpans)
    (h2 : ∀ id, a.children id = b.children id) : a = b := by
  cases a with
  | mk r1 c1 =>
    cases b with
    | mk r2 c2 =>
      simp only at h1 h2
      rw [h1, funext h2]

theorem rootsOf_eq_childrenOf (spans : List SpanData) : rootsOf spans = childrenOf spans ⟨0⟩ := by
  unfold rootsOf childrenOf
  apply List.filter_congr
  intro s _
  cases hs : s.ParentSpanID.IsValid
  · simp [(SpanID.isValid_eq_false_iff _).mp hs]
  · have : ¬ s.ParentSpanID = ⟨0⟩ := by
      intro h; rw [h] at hs; simp [SpanID.IsValid] at hs
    simp [this]

/-- Two export sequences with the same spans under every parent id, in the
same order, leave the same sink behind. -/
theorem exportAll_eq_of_childrenOf_eq (sink : traceSink) (spans1 spans2 : List SpanData)
    (h : ∀ id, childrenOf spans1 id = childrenOf spans2 id) :
    sink.exportAll spans1 = sink.exportAll spans2 := by
  apply traceSink.eq_of_fields
  · rw [exportAll_rootSpans, exportAll_rootSpans, rootsOf_eq_childrenOf, rootsOf_eq_childrenOf,
      h]
  · intro id
    rw [exportAll_children, exportAll_children, h]

theorem eq_of_perm_of_length_le_one {α : Type} (a b : List α) (hp : a.Perm b)
    (hb : b.length ≤ 1) : a = b := by
  cases b with
  | nil => exact List.perm_nil.mp hp
  | cons x rest =>
    cases rest with
    | nil => exact List.perm_singleton.mp hp
    | cons y r => simp at hb

theorem childrenOf_chain_length (root child grand : SpanData) (hc : IsChain root child grand)
    (id : SpanID) : (childrenOf [root, child, grand] id).length ≤ 1 := by
  obtain ⟨h1, h2, h3, h4, h5, h6, h7, h8, h9⟩ := hc
  have hr0 := (SpanID.isValid_eq_false_iff _).mp h1
  have hrne : root.SpanID ≠ ⟨0⟩ := by
    intro h; rw [h] at h2; simp [SpanID.IsValid] at h2
  have hcne : child.SpanID ≠ ⟨0⟩ := by
    intro h; rw [h] at h3; simp [SpanID.IsValid] at h3
  unfold childrenOf
  simp only [List.filter_cons, List.filter_nil, h5, h6, hr0, decide_eq_true_eq]
  by_cases e1 : (⟨0⟩ : SpanID) = id
  · subst e1
    simp [hrne, hcne]
  · by_cases e2 : root.SpanID = id
    · subst e2
      simp [e1, Ne.symm h7]
    · by_cases e3 : child.SpanID = id
      · simp [e1, e2, e3]
      · simp [e1, e2, e3]

/-- The dump of a chain exported in the order root, child, grandchild. -/
theorem dump_chain (f : Formatter) (root child grand : SpanData)
    (hc : IsChain root child grand) :
    (traceSink.empty.exportAll [root, child, grand]).dump f =
      dumpHeader ++ spanRow f root 0 ++ spanRow f child 1 ++ spanRow f grand 2 := by
  obtain ⟨h1, h2, h3, h4, h5, h6, h7, h8, h9⟩ := hc
  have hr0 := (SpanID.isValid_eq_false_iff _).mp h1
  have hrne : ¬ root.SpanID = ⟨0⟩ := by
    intro h; rw [h] at h2; simp [SpanID.IsValid] at h2
  have hcne : ¬ child.SpanID = ⟨0⟩ := by
    intro h; rw [h] at h3; simp [SpanID.IsValid] at h3
  have hgne : ¬ grand.SpanID = ⟨0⟩ := by
    intro h; rw [h] at h4; simp [SpanID.IsValid] at h4
  have hroots : rootsOf [root, child, grand] = [root] := by
    rw [rootsOf_eq_childrenOf]
    simp [childrenOf, List.filter_cons, h5, h6, hr0, hrne, hcne]
  have hkr : childrenOf [root, child, grand] root.SpanID = [child] := by
    simp [childrenOf, List.filter_cons, h5, h6, hr0, Ne.symm hrne, Ne.symm h7]
  have hkc : childrenOf [root, child, grand] child.SpanID = [grand] := by
    simp [childrenOf, List.filter_cons, h5, h6, hr0, Ne.symm hcne, h7]
  have hkg : childrenOf [root, child, grand] grand.SpanID = [] := by
    simp [childrenOf, List.filter_cons, h5, h6, hr0, Ne.symm hgne, h8, h9]
  rw [dump_eq_dumpLines, dumpLines_exportAll_empty, hroots]
  simp only [List.flatMap_cons, List.flatMap_nil, hkr, hkc, hkg, List.append_nil,
    List.length_nil, gt_iff_lt, lt_self_iff_false, if_false, renderLines, List.map_cons,
    List.map_nil, concatStrings, Line.render, String.append_empty, String.append_assoc]

/-- The header line of a dump, written out. -/
theorem dumpHeader_eq : dumpHeader = "Start          End            Elapsed       \n" := by
  decide

/-- The row of a span, written out with the column widths of `dumpLocked`. -/
theorem spanRow_eq (f : Formatter) (span : SpanData) (depth : Nat) :
    spanRow f span depth =
      f.Format span.StartTime ++
        String.mk (List.replicate (14 - (f.Format span.StartTime).length) ' ') ++ " " ++
        f.Format span.EndTime ++
        String.mk (List.replicate (14 - (f.Format span.EndTime).length) ' ') ++ " " ++
        String.mk (List.replicate
          (13 - (f.Seconds span.StartTime span.EndTime).length) ' ') ++
        f.Seconds span.StartTime span.EndTime ++ "s " ++
        (stringsRepeat indent depth ++ span.Name) ++ "\n" := by
  simp only [spanRow, padRight, padLeft, writeSpaces, traceDumpStartWidth, traceDumpEndWidth,
    traceDumpElapsedWidth, String.append_assoc]

theorem stringsRepeat_indent_zero : stringsRepeat indent 0 = "" := by decide

theorem stringsRepeat_indent_one : stringsRepeat indent 1 = "  " := by decide

theorem stringsRepeat_indent_two : stringsRepeat indent 2 = "    " := by decide

/-- Claim C8: for a chain `root -> child -> grand` with valid, pairwise
distinct span ids, every order of the three `ExportSpan` calls on an empty
sink gives the same dump: the header line, then one row per span, each with
the start time and the end time padded to 14 characters, the elapsed seconds
right-aligned in 13 characters and followed by `s`, and the span name; the
name of `root` is not indented, the name of `child` is indented by two
spaces and the name of `grand` by four.  More generally,
two sequences of `ExportSpan` calls, one a reordering of the other, that list
the spans of every parent id in the same relative order give the same dump
from any starting sink. -/
theorem dump_independent_of_export_order (f : Formatter) :
    (∀ root child grand, IsChain root child grand →
      ∀ spans : List SpanData, spans.Perm [root, child, grand] →
        (traceSink.empty.exportAll spans).dump f =
          "Start          End            Elapsed       \n" ++
          (f.Format root.StartTime ++
            String.mk (List.replicate (14 - (f.Format root.StartTime).length) ' ') ++ " " ++
            f.Format root.EndTime ++
            String.mk (List.replicate (14 - (f.Format root.EndTime).length) ' ') ++ " " ++
            String.mk (List.replicate
              (13 - (f.Seconds root.StartTime root.EndTime).length) ' ') ++
            f.Seconds root.StartTime root.EndTime ++ "s " ++ root.Name ++ "\n") ++
          (f.Format child.StartTime ++
            String.mk (List.replicate (14 - (f.Format child.StartTime).length) ' ') ++ " " ++
            f.Format child.EndTime ++
            String.mk (List.replicate (14 - (f.Format child.EndTime).length) ' ') ++ " " ++
            String.mk (List.replicate
              (13 - (f.Seconds child.StartTime child.EndTime).length) ' ') ++
            f.Seconds child.StartTime child.EndTime ++ "s " ++ "  " ++ child.Name ++ "\n") ++
          (f.Format grand.StartTime ++
            String.mk (List.replicate (14 - (f.Format grand.StartTime).length) ' ') ++ " " ++
            f.Format grand.EndTime ++
            String.mk (List.replicate (14 - (f.Format grand.EndTime).length) ' ') ++ " " ++
            String.mk (List.replicate
              (13 - (f.Seconds grand.StartTime grand.EndTime).length) ' ') ++
            f.Seconds grand.StartTime grand.EndTime ++ "s " ++ "    " ++ grand.Name ++ "\n")) ∧
    (∀ (sink : traceSink) (spans1 spans2 : List SpanData), spans1.Perm spans2 →
      (∀ id, childrenOf spans1 id = childrenOf spans2 id) →
        (sink.exportAll spans1).dump f = (sink.exportAll spans2).dump f) := by
  refine ⟨fun root child grand hc spans hp => ?_, fun sink spans1 spans2 _ h => ?_⟩
  · rw [exportAll_eq_of_childrenOf_eq traceSink.empty spans [root, child, grand]
      (fun id => eq_of_perm_of_length_le_one _ _ (hp.filter _)
        (childrenOf_chain_length root child grand hc id))]
    rw [dump_chain f root child grand hc, dumpHeader_eq, spanRow_eq, spanRow_eq, spanRow_eq,
      stringsRepeat_indent_zero, stringsRepeat_indent_one, stringsRepeat_indent_two,
      String.empty_append]
    simp only [String.append_assoc]
  · rw [exportAll_eq_of_childrenOf_eq sink spans1 spans2 h]

theorem dump_independent_of_export_order_witness :
    (traceSink.empty.exportAll [sampleGrand, sampleRoot, sampleChild]).dump sampleFormatter =
      "Start          End            Elapsed       \n" ++
        "12:00:00 UTC   12:00:00 UTC           1.000s Build\n" ++
        "12:00:00 UTC   12:00:00 UTC           1.000s   target A\n" ++
        "12:00:00 UTC   12:00:00 UTC           1.000s     setup\n" ∧
    (traceSink.empty.exportAll [sampleGreatGrand, sampleRoot, sampleChild,
        sampleGrand]).dump sampleFormatter =
      (traceSink.empty.exportAll [sampleRoot, sampleChild, sampleGrand,
        sampleGreatGrand]).dump sampleFormatter :=
  ⟨((dump_independent_of_export_order sampleFormatter).1 sampleRoot sampleChild sampleGrand
      (by unfold IsChain; decide) [sampleGrand, sampleRoot, sampleChild] (by decide)).trans
      rfl,
    (dump_independent_of_export_order sampleFormatter).2 traceSink.empty
      [sampleGreatGrand, sampleRoot, sampleChild, sampleGrand]
      [sampleRoot, sampleChild, sampleGrand, sampleGreatGrand] (by decide)
      (fun id => by
        by_cases h0 : id = ⟨0⟩
        · subst h0; decide
        · by_cases h1 : id = ⟨1⟩
          · subst h1; decide
          · by_cases h2 : id = ⟨2⟩
            · subst h2; decide
            · by_cases h3 : id = ⟨3⟩
              · subst h3; decide
              · have e0 : ¬ (⟨0⟩ : SpanID) = id := fun h => h0 h.symm
                have e1 : ¬ (⟨1⟩ : SpanID) = id := fun h => h1 h.symm
                have e2 : ¬ (⟨2⟩ : SpanID) = id := fun h => h2 h.symm
                have e3 : ¬ (⟨3⟩ : SpanID) = id := fun h => h3 h.symm
                simp [childrenOf, List.filter_cons, sampleRoot, sampleChild, sampleGrand,
                  sampleGreatGrand, e0, e1, e2, e3])⟩

/-! ## Theorems: error wrapping in `doTarget` -/

/-- Claim C17, as stated, fails: when `build.Setup` fails for target `A`,
`doTarget` returns the error of `build.Setup` itself, which is not wrapped
and does not carry the prefix `target A: `. -/
theorem doTarget_setup_error_not_wrapped :
    (doTarget setupFailingWorld samplePackage ⟨"A"⟩ hostOptions []).err =
      some (GoError.new "install failed") ∧
    (GoError.new "install failed").Unwrap = none ∧
    GoError.new "install failed" ≠ errorfTarget "A" (GoError.new "install failed") ∧
    (GoError.new "install failed").Error ≠
      "target A: " ++ (GoError.new "install failed").Error := by
  decide

/-- Claim C17, amended: a non-nil error returned by `doTarget` is either the
error of `newBiome` wrapped by `fmt.Errorf("target %s: %w", ...)`, with the
text `target <name>: ` put before the text of the cause, or it is, unchanged,
the error returned by `targetToPhaseDeps`, `build.Setup` or `build.Execute`. -/
theorem doTarget_error_cases (w : World) (pkg : Package) (target : BuildTarget)
    (opts : doOptions) (hist : List Event) (e : GoError)
    (he : (doTarget w pkg target opts hist).err = some e) :
    (∃ cause, w.newBiome hist opts.dockerClient pkg.Path target.Name = some cause ∧
      e = errorfTarget target.Name cause ∧ e.Unwrap = some cause ∧
      e.Error = "target " ++ target.Name ++ ": " ++ cause.Error) ∨
    (w.newBiome hist opts.dockerClient pkg.Path target.Name = none ∧
      (w.targetToPhaseDeps target = some e ∨
        w.Setup (hist ++ [Event.newBiome pkg.Path target.Name,
          Event.targetToPhaseDeps target.Name]) target opts.dockerNetworkID = some e ∨
        w.Execute
          (hist ++ [Event.newBiome pkg.Path target.Name, Event.targetToPhaseDeps target.Name,
            Event.setup target.Name opts.dockerNetworkID,
            Event.subSection ("Build target: " ++ target.Name)])
          target opts.dockerNetworkID opts.execPrefix = some e)) := by
  rcases doTarget_paths w pkg target opts hist with ⟨c, h1⟩ | ⟨c, h1, h2⟩ | ⟨c, h1, h2, h3⟩ | hs
  · rw [doTarget_of_newBiome_error w pkg target opts hist c h1] at he
    simp only [Option.some.injEq] at he
    exact Or.inl ⟨c, h1, he.symm, by rw [← he]; rfl, by rw [← he]; rfl⟩
  · rw [doTarget_of_phaseDeps_error w pkg target opts hist c h1 h2] at he
    simp only [Option.some.injEq] at he
    exact Or.inr ⟨h1, Or.inl (by rw [h2, he])⟩
  · rw [doTarget_of_setup_error w pkg target opts hist c h1 h2 h3] at he
    simp only [Option.some.injEq] at he
    exact Or.inr ⟨h1, Or.inr (Or.inl (by rw [h3, he]))⟩
  · cases ho : opts.setupOnly
    · rw [doTarget_of_execute w pkg target opts hist hs ho] at he
      exact Or.inr ⟨hs.1, Or.inr (Or.inr he)⟩
    · rw [doTarget_of_setupOnly w pkg target opts hist hs ho] at he
      cases he

theorem doTarget_error_cases_witness :
    (∃ cause, failingWorld.newBiome [] hostOptions.dockerClient samplePackage.Path "B" =
        some cause ∧
      GoError.new "exit status 1" = errorfTarget "B" cause ∧
      (GoError.new "exit status 1").Unwrap = some cause ∧
      (GoError.new "exit status 1").Error = "target " ++ "B" ++ ": " ++ cause.Error) ∨
    (failingWorld.newBiome [] hostOptions.dockerClient samplePackage.Path "B" = none ∧
      (failingWorld.targetToPhaseDeps ⟨"B"⟩ = some (GoError.new "exit status 1") ∨
        failingWorld.Setup ([] ++ [Event.newBiome samplePackage.Path "B",
          Event.targetToPhaseDeps "B"]) ⟨"B"⟩ hostOptions.dockerNetworkID =
            some (GoError.new "exit status 1") ∨
        failingWorld.Execute
          ([] ++ [Event.newBiome samplePackage.Path "B", Event.targetToPhaseDeps "B",
            Event.setup "B" hostOptions.dockerNetworkID,
            Event.subSection ("Build target: " ++ "B")])
          ⟨"B"⟩ hostOptions.dockerNetworkID hostOptions.execPrefix =
            some (GoError.new "exit status 1"))) :=
  doTarget_error_cases failingWorld samplePackage ⟨"B"⟩ hostOptions []
    (GoError.new "exit status 1") (by decide)

/-! ## Theorems: termination of `dumpLocked` -/

theorem foldl_option_eq_some {α : Type} (g : α → Option String) (h r : α → String)
    (hg : ∀ x, g x = some (h x)) (l : List α) (init : String) :
    l.foldl
      (fun acc x =>
        match acc with
        | none => none
        | some sb =>
          match g x with
          | none => none
          | some text => some (sb ++ r x ++ text))
      (some init) = some (l.foldl (fun sb x => sb ++ r x ++ h x) init) := by
  induction l generalizing init with
  | nil => rfl
  | cons x rest ih =>
    simp only [List.foldl_cons, hg x]
    exact ih _

theorem dumpLockedFuel_eq_some (f : Formatter) (sink : traceSink) (fuel : Nat) :
    ∀ (parent : SpanID) (depth : Nat), 3 - depth < fuel →
      sink.dumpLockedFuel f fuel parent depth = some (sink.dumpLocked f parent depth) := by
  induction fuel with
  | zero => intro parent depth h; omega
  | succ n ih =>
    intro parent depth hd
    rw [traceSink.dumpLocked]
    by_cases h3 : depth ≥ 3
    · simp only [traceSink.dumpLockedFuel, h3, if_true, dite_true]
    · simp only [traceSink.dumpLockedFuel, h3, if_false, dite_false]
      exact foldl_option_eq_some
        (fun span => sink.dumpLockedFuel f n span.SpanID (depth + 1))
        (fun span => sink.dumpLocked f span.SpanID (depth + 1))
        (fun span => spanRow f span depth)
        (fun span => ih span.SpanID (depth + 1) (by omega)) _ _

/-- Claim C18: for every sink, also one whose parent ids form a cycle, a call
of `dumpLocked` at depth `depth` returns within `3 - depth + 1` nested calls,
with the text of `dumpLocked`; the call made by `dump` at depth 0 returns
within four nested calls, and no line of a dump is deeper than depth 3. -/
theorem dumpLocked_terminates (f : Formatter) (sink : traceSink) :
    (∀ (fuel : Nat) (parent : SpanID) (depth : Nat), 3 - depth < fuel →
      sink.dumpLockedFuel f fuel parent depth = some (sink.dumpLocked f parent depth)) ∧
    sink.dumpLockedFuel f 4 ⟨0⟩ 0 = some (sink.dumpLocked f ⟨0⟩ 0) ∧
    ∀ line ∈ sink.dumpLines ⟨0⟩ 0, line.depth ≤ 3 := by
  refine ⟨fun fuel => dumpLockedFuel_eq_some f sink fuel,
    dumpLockedFuel_eq_some f sink 4 ⟨0⟩ 0 (by decide), fun line hl => ?_⟩
  rw [dumpLines_root] at hl
  simp only [List.mem_flatMap, List.mem_cons] at hl
  obtain ⟨s0, _, h | ⟨s1, _, h | ⟨s2, _, h | h⟩⟩⟩ := hl
  · subst h; simp [Line.depth]
  · subst h; simp [Line.depth]
  · subst h; simp [Line.depth]
  · split at h
    · simp only [List.mem_singleton] at h
      subst h; simp [Line.depth]
    · simp at h

theorem dumpLocked_terminates_witness :
    (traceSink.empty.exportAll selfParentSpans).dumpLockedFuel sampleFormatter 4 ⟨0⟩ 0 =
      some ((traceSink.empty.exportAll selfParentSpans).dumpLocked sampleFormatter ⟨0⟩ 0) ∧
    (traceSink.empty.exportAll selfParentSpans).dumpLines ⟨0⟩ 0 =
      [Line.span 0 ⟨⟨1⟩, ⟨0⟩, "Build", 0, 10⟩, Line.span 1 ⟨⟨1⟩, ⟨1⟩, "loop", 1, 2⟩,
        Line.span 2 ⟨⟨1⟩, ⟨1⟩, "loop", 1, 2⟩, Line.elided 3] ∧
    (traceSink.empty.exportAll mutualParentSpans).dumpLines ⟨0⟩ 0 =
      [Line.span 0 ⟨⟨2⟩, ⟨0⟩, "Build", 0, 10⟩, Line.span 1 ⟨⟨3⟩, ⟨2⟩, "pong", 3, 4⟩,
        Line.span 2 ⟨⟨2⟩, ⟨3⟩, "ping", 1, 2⟩, Line.elided 3] :=
  ⟨(dumpLocked_terminates sampleFormatter (traceSink.empty.exportAll selfParentSpans)).1
      4 ⟨0⟩ 0 (by decide), by decide, by decide⟩

/-! ## Theorems: `strings.Split` -/

theorem splitChars_ne_nil (sep : Char) (l : List Char) : splitChars sep l ≠ [] := by
  induction l with
  | nil => simp [splitChars]
  | cons c cs ih =>
    unfold splitChars
    split
    · simp
    · split <;> simp

theorem splitChars_head (sep : Char) (l : List Char) :
    (splitChars sep l)[0]? = some (l.takeWhile fun c => c != sep) := by
  induction l with
  | nil => simp [splitChars]
  | cons c cs ih =>
    unfold splitChars
    by_cases h : c = sep
    · simp [h]
    · simp only [h, if_false]
      cases hs : splitChars sep cs with
      | nil => exact absurd hs (splitChars_ne_nil sep cs)
      | cons first rest =>
        rw [hs] at ih
        simp at ih
        simp [List.takeWhile_cons, h, ih]

theorem splitChars_of_not_mem (sep : Char) (x : List Char) (hx : sep ∉ x) :
    splitChars sep x = [x] := by
  induction x with
  | nil => rfl
  | cons c cs ih =>
    have hc : ¬ c = sep := fun h => hx (by simp [h])
    have hcs : sep ∉ cs := fun h => hx (List.mem_cons_of_mem _ h)
    simp [splitChars, hc, ih hcs]

theorem splitChars_append_sep (sep : Char) (x rest : List Char) (hx : sep ∉ x) :
    splitChars sep (x ++ sep :: rest) = x :: splitChars sep rest := by
  induction x with
  | nil => simp [splitChars]
  | cons c cs ih =>
    have hc : ¬ c = sep := fun h => hx (by simp [h])
    have hcs : sep ∉ cs := fun h => hx (List.mem_cons_of_mem _ h)
    simp [splitChars, hc, ih hcs]

theorem stringsSplit_head (s : String) (sep : Char) :
    (stringsSplit s sep)[0]? = some (String.mk (s.data.takeWhile fun c => c != sep)) := by
  unfold stringsSplit
  rw [List.getElem?_map, splitChars_head]
  rfl

theorem stringsSplit_pair (a b : String) (sep : Char) (ha : sep ∉ a.data) (hb : sep ∉ b.data) :
    stringsSplit (a ++ String.singleton sep ++ b) sep = [a, b] := by
  unfold stringsSplit
  have : (a ++ String.singleton sep ++ b).data = a.data ++ sep :: b.data := by
    simp [String.data_append, String.singleton]
  rw [this, splitChars_append_sep sep _ _ ha, splitChars_of_not_mem sep _ hb]
  rfl

theorem stringsSplit_colon_pair (a b : String) (ha : ':' ∉ a.data) (hb : ':' ∉ b.data) :
    stringsSplit (a ++ ":" ++ b) ':' = [a, b] :=
  stringsSplit_pair a b ':' ha hb

/-! ## Theorems: containers -/

/-- The function `PullImage` never indexes out of range. -/
theorem PullImage_value_ne_none (w : DockerWorld) (imageLabel : String)
    (hist : List DockerEvent) : (PullImage w imageLabel hist).value ≠ none := by
  unfold PullImage
  simp only [stringsSplit_head]
  by_cases h2 : (stringsSplit imageLabel ':').length = 2
  · have h1 : 1 < (stringsSplit imageLabel ':').length := by omega
    simp only [h2, if_true, List.getElem?_eq_getElem h1]
    split
    · simp
    · split
      · split <;> simp
      · simp
  · simp only [h2, if_false]
    split
    · simp
    · split
      · split <;> simp
      · simp

/-- The events and the result of `NewContainer` once the loop over the mount
specs has collected `mounts0`: whatever `PullImage` returned, the container is
created under the name `specContainerName`, with the collected mounts followed
by the workspace mount, and the idle command. -/
theorem NewContainer_of_mountLoop (w : DockerWorld) (opts : BuildContainerOpts)
    (hist : List DockerEvent) (mounts0 : List HostMount)
    (hm : (mountLoop (filepathJoin [w.BuildRoot opts.Workspace, opts.PackageName])
      opts.ContainerOpts.Mounts).value = some mounts0) :
    ∃ co : CreateContainerOptions,
      co = { Name := specContainerName opts.PackageName opts.ContainerOpts.Image,
             AttachStdout := true, AttachStdin := true,
             Image := opts.ContainerOpts.Image,
             Cmd := ["tail", "-f", "/dev/null"],
             PortSpecs := opts.ContainerOpts.Ports,
             Mounts := mounts0 ++
               [HostMount.mk (w.PackagePath opts.Workspace opts.PackageName) "/build" "bind"] } ∧
      (NewContainer w opts hist).events =
        (PullImage w opts.ContainerOpts.Image hist).events ++
          (mountLoop (filepathJoin [w.BuildRoot opts.Workspace, opts.PackageName])
            opts.ContainerOpts.Mounts).events ++ [DockerEvent.createContainer co] ∧
      (NewContainer w opts hist).value =
        some (match (w.CreateContainer
            (hist ++ (PullImage w opts.ContainerOpts.Image hist).events ++
              (mountLoop (filepathJoin [w.BuildRoot opts.Workspace, opts.PackageName])
                opts.ContainerOpts.Mounts).events) co) with
          | (_, some err) => (BuildContainer.zero, some err)
          | (cID, none) => (⟨cID, co.Name, opts⟩, none)) := by
  refine ⟨_, rfl, ?_⟩
  have hcmd : stringsSplit "tail -f /dev/null" ' ' = ["tail", "-f", "/dev/null"] := by decide
  unfold NewContainer
  simp only [stringsSplit_head, hcmd]
  cases hp : (PullImage w opts.ContainerOpts.Image hist).value with
  | none => exact absurd hp (PullImage_value_ne_none w _ hist)
  | some pv =>
    simp only [hm, specContainerName, List.append_assoc]
    split <;> rename_i heq <;> simp [heq]

/-- When `NewContainer` returns, the loop over the mount specs has returned. -/
theorem mountLoop_of_NewContainer (w : DockerWorld) (opts : BuildContainerOpts)
    (hist : List DockerEvent) (r : BuildContainer × Option GoError)
    (hv : (NewContainer w opts hist).value = some r) :
    ∃ mounts0, (mountLoop (filepathJoin [w.BuildRoot opts.Workspace, opts.PackageName])
      opts.ContainerOpts.Mounts).value = some mounts0 := by
  cases hm : (mountLoop (filepathJoin [w.BuildRoot opts.Workspace, opts.PackageName])
      opts.ContainerOpts.Mounts).value with
  | some mounts0 => exact ⟨mounts0, rfl⟩
  | none =>
    exfalso
    unfold NewContainer at hv
    simp only [stringsSplit_head] at hv
    cases hp : (PullImage w opts.ContainerOpts.Image hist).value with
    | none => exact absurd hp (PullImage_value_ne_none w _ hist)
    | some pv =>
      rw [hp] at hv
      simp only [hm] at hv
      cases hv

theorem FindContainer_head (w : DockerWorld) (opts : BuildContainerOpts)
    (hist : List DockerEvent) :
    (FindContainer w opts hist).events.head? =
      some (DockerEvent.listContainers
        (specContainerName opts.PackageName opts.ContainerOpts.Image) true) := by
  unfold FindContainer
  simp only [stringsSplit_head, specContainerName]
  split
  · split
    · rfl
    · split <;> rfl
  · rfl

theorem NewContainer_last (w : DockerWorld) (opts : BuildContainerOpts)
    (hist : List DockerEvent) (r : BuildContainer × Option GoError)
    (hv : (NewContainer w opts hist).value = some r) :
    ∃ co, (NewContainer w opts hist).events.getLast? = some (DockerEvent.createContainer co) ∧
      co.Name = specContainerName opts.PackageName opts.ContainerOpts.Image ∧
      (r.2 = none → r.1.Name = specContainerName opts.PackageName opts.ContainerOpts.Image) := by
  obtain ⟨mounts0, hm⟩ := mountLoop_of_NewContainer w opts hist r hv
  obtain ⟨co, hco, hev, hval⟩ := NewContainer_of_mountLoop w opts hist mounts0 hm
  refine ⟨co, ?_, by rw [hco], ?_⟩
  · rw [hev, List.getLast?_concat]
  · intro hr
    rw [hval] at hv
    simp only [Option.some.injEq] at hv
    split at hv
    · rw [← hv] at hr; cases hr
    · rw [← hv, hco]

/-- Claim C11: the name `FindContainer` filters by and the name under which
`NewContainer` creates the container (and which it returns) are both the
package name, a dash, and the image reference up to its first `:`; two
option values with the same package name and the same image base name give
the same name in both functions, whatever else differs. -/
theorem container_name_of_package_and_image (w : DockerWorld) (opts : BuildContainerOpts)
    (hist : List DockerEvent) :
    (FindContainer w opts hist).events.head? =
      some (DockerEvent.listContainers
        (specContainerName opts.PackageName opts.ContainerOpts.Image) true) ∧
    (∀ r, (NewContainer w opts hist).value = some r →
      ∃ co, (NewContainer w opts hist).events.getLast? =
          some (DockerEvent.createContainer co) ∧
        co.Name = specContainerName opts.PackageName opts.ContainerOpts.Image ∧
        (r.2 = none →
          r.1.Name = specContainerName opts.PackageName opts.ContainerOpts.Image)) ∧
    (∀ (w2 : DockerWorld) (opts2 : BuildContainerOpts) (hist2 : List DockerEvent),
      opts2.PackageName = opts.PackageName →
      (opts2.ContainerOpts.Image.data.takeWhile fun c => c != ':') =
        (opts.ContainerOpts.Image.data.takeWhile fun c => c != ':') →
      (FindContainer w2 opts2 hist2).events.head? = (FindContainer w opts hist).events.head? ∧
      ∀ r r2, (NewContainer w opts hist).value = some r →
        (NewContainer w2 opts2 hist2).value = some r2 →
        ∃ co co2,
          (NewContainer w opts hist).events.getLast? = some (DockerEvent.createContainer co) ∧
          (NewContainer w2 opts2 hist2).events.getLast? =
            some (DockerEvent.createContainer co2) ∧
          co2.Name = co.Name) := by
  refine ⟨FindContainer_head w opts hist, NewContainer_last w opts hist, ?_⟩
  intro w2 opts2 hist2 hp hb
  have hn : specContainerName opts2.PackageName opts2.ContainerOpts.Image =
      specContainerName opts.PackageName opts.ContainerOpts.Image := by
    unfold specContainerName
    rw [hp, hb]
  refine ⟨by rw [FindContainer_head, FindContainer_head, hn], fun r r2 hr hr2 => ?_⟩
  obtain ⟨co, h1, h2, _⟩ := NewContainer_last w opts hist r hr
  obtain ⟨co2, h3, h4, _⟩ := NewContainer_last w2 opts2 hist2 r2 hr2
  exact ⟨co, co2, h1, h3, by rw [h4, h2, hn]⟩

theorem container_name_of_package_and_image_witness :
    (∃ co, (NewContainer sampleDocker redisOpts []).events.getLast? =
        some (DockerEvent.createContainer co) ∧
      co.Name = specContainerName "app" "redis:5" ∧
      ((none : Option GoError) = none → "app-redis" = specContainerName "app" "redis:5")) ∧
    ((FindContainer existingDocker ⟨⟨"redis:6-alpine", [], ["1"], ["A=b"]⟩, "app", ⟨"/x"⟩⟩
        []).events.head? = (FindContainer sampleDocker redisOpts []).events.head? ∧
      ∀ r r2, (NewContainer sampleDocker redisOpts []).value = some r →
        (NewContainer existingDocker ⟨⟨"redis:6-alpine", [], ["1"], ["A=b"]⟩, "app", ⟨"/x"⟩⟩
          []).value = some r2 →
        ∃ co co2,
          (NewContainer sampleDocker redisOpts []).events.getLast? =
            some (DockerEvent.createContainer co) ∧
          (NewContainer existingDocker
            ⟨⟨"redis:6-alpine", [], ["1"], ["A=b"]⟩, "app", ⟨"/x"⟩⟩ []).events.getLast? =
            some (DockerEvent.createContainer co2) ∧
          co2.Name = co.Name) :=
  ⟨(container_name_of_package_and_image sampleDocker redisOpts []).2.1
      (⟨"id-app-redis", "app-redis", redisOpts⟩, none) (by decide),
    (container_name_of_package_and_image sampleDocker redisOpts []).2.2 existingDocker
      ⟨⟨"redis:6-alpine", [], ["1"], ["A=b"]⟩, "app", ⟨"/x"⟩⟩ [] rfl (by decide)⟩

theorem PullImage_events_no_create (w : DockerWorld) (imageLabel : String)
    (hist : List DockerEvent) :
    (PullImage w imageLabel hist).events.countP DockerEvent.isCreateContainer = 0 := by
  unfold PullImage
  simp only [stringsSplit_head]
  split
  · rfl
  · split
    · rfl
    · split
      · split <;> rfl
      · rfl

theorem mountLoop_events_no_create (pkgWorkdir : String) (specs : List String) :
    (mountLoop pkgWorkdir specs).events.countP DockerEvent.isCreateContainer = 0 := by
  induction specs with
  | nil => rfl
  | cons spec rest ih =>
    unfold mountLoop
    simp only [stringsSplit_head]
    split
    · rfl
    · simp only [List.countP_append, ih]
      rfl

theorem mountLoop_of_pairs (pkgWorkdir : String) (pairs : List (String × String))
    (hp : ∀ p ∈ pairs, ':' ∉ p.1.data ∧ ':' ∉ p.2.data) :
    (mountLoop pkgWorkdir (pairs.map fun p => p.1 ++ ":" ++ p.2)).value =
      some (pairs.map fun p => HostMount.mk (filepathJoin [pkgWorkdir, p.1]) p.2 "bind") := by
  induction pairs with
  | nil => rfl
  | cons p rest ih =>
    have hp1 := hp p (List.mem_cons_self _ _)
    have ih2 := ih (fun q hq => hp q (List.mem_cons_of_mem _ hq))
    simp only [List.map_cons, mountLoop, stringsSplit_colon_pair p.1 p.2 hp1.1 hp1.2]
    simp [ih2]

/-- When every mount spec is `host:container`, with no further `:` in either
part, `NewContainer` reaches `client.CreateContainer` and passes it one bind
mount per spec, in declared order, from
`filepath.Join(filepath.Join(buildRoot, packageName), host)` to `container`,
followed by the bind mount of the package path on `/build`; the command of
the container is `tail -f /dev/null`. -/
theorem NewContainer_mounts (w : DockerWorld) (opts : BuildContainerOpts)
    (hist : List DockerEvent) (pairs : List (String × String))
    (hm : opts.ContainerOpts.Mounts = pairs.map fun p => p.1 ++ ":" ++ p.2)
    (hp : ∀ p ∈ pairs, ':' ∉ p.1.data ∧ ':' ∉ p.2.data) :
    ∃ co, (NewContainer w opts hist).events.getLast? = some (DockerEvent.createContainer co) ∧
      (NewContainer w opts hist).events.countP DockerEvent.isCreateContainer = 1 ∧
      co.Mounts =
        (pairs.map fun p => HostMount.mk
          (filepathJoin [filepathJoin [w.BuildRoot opts.Workspace, opts.PackageName], p.1])
          p.2 "bind") ++
        [HostMount.mk (w.PackagePath opts.Workspace opts.PackageName) "/build" "bind"] ∧
      co.Mounts.length = opts.ContainerOpts.Mounts.length + 1 ∧
      co.Cmd = ["tail", "-f", "/dev/null"] := by
  have hloop := mountLoop_of_pairs
    (filepathJoin [w.BuildRoot opts.Workspace, opts.PackageName]) pairs hp
  rw [← hm] at hloop
  obtain ⟨co, hco, hev, _⟩ := NewContainer_of_mountLoop w opts hist _ hloop
  refine ⟨co, ?_, ?_, by rw [hco], by rw [hco, hm]; simp, by rw [hco]⟩
  · rw [hev, List.getLast?_concat]
  · rw [hev, List.countP_append, List.countP_append, PullImage_events_no_create,
      mountLoop_events_no_create]
    rfl

theorem NewContainer_mounts_witness :
    ∃ co, (NewContainer sampleDocker ⟨⟨"redis:5", ["data:/data", "conf:/etc/redis"], [], []⟩,
        "app", ⟨"/ws"⟩⟩ []).events.getLast? = some (DockerEvent.createContainer co) ∧
      (NewContainer sampleDocker ⟨⟨"redis:5", ["data:/data", "conf:/etc/redis"], [], []⟩,
        "app", ⟨"/ws"⟩⟩ []).events.countP DockerEvent.isCreateContainer = 1 ∧
      co.Mounts =
        ([("data", "/data"), ("conf", "/etc/redis")].map fun p => HostMount.mk
          (filepathJoin [filepathJoin [sampleDocker.BuildRoot ⟨"/ws"⟩, "app"], p.1])
          p.2 "bind") ++
        [HostMount.mk (sampleDocker.PackagePath ⟨"/ws"⟩ "app") "/build" "bind"] ∧
      co.Mounts.length = 2 + 1 ∧
      co.Cmd = ["tail", "-f", "/dev/null"] :=
  NewContainer_mounts sampleDocker
    ⟨⟨"redis:5", ["data:/data", "conf:/etc/redis"], [], []⟩, "app", ⟨"/ws"⟩⟩ []
    [("data", "/data"), ("conf", "/etc/redis")] (by decide) (by decide)

/-- Claim C16, evaluated on the code: with a daemon that cannot list images,
`PullImage` returns an error, and `NewContainer` still calls
`client.CreateContainer` and returns the new container with a nil error. -/
theorem NewContainer_ignores_PullImage_error :
    (PullImage pullFailingDocker "redis:5" []).value =
      some (some (GoError.new "cannot list images")) ∧
    (NewContainer pullFailingDocker redisOpts []).events.countP
      DockerEvent.isCreateContainer = 1 ∧
    (NewContainer pullFailingDocker redisOpts []).value =
      some (⟨"id-app-redis", "app-redis", redisOpts⟩, none) := by
  decide

theorem FindContainer_events_counts (w : DockerWorld) (opts : BuildContainerOpts)
    (hist : List DockerEvent) :
    (FindContainer w opts hist).events.countP DockerEvent.isCreateContainer = 0 ∧
    (FindContainer w opts hist).events.countP DockerEvent.isListImages = 0 := by
  unfold FindContainer
  simp only [stringsSplit_head]
  split
  · split
    · exact ⟨rfl, rfl⟩
    · split <;> exact ⟨rfl, rfl⟩
  · exact ⟨rfl, rfl⟩

theorem PullImage_events_listImages (w : DockerWorld) (imageLabel : String)
    (hist : List DockerEvent) :
    (PullImage w imageLabel hist).events.countP DockerEvent.isListImages = 1 := by
  unfold PullImage
  simp only [stringsSplit_head]
  by_cases h2 : (stringsSplit imageLabel ':').length = 2
  · have h1 : 1 < (stringsSplit imageLabel ':').length := by omega
    simp only [h2, if_true, List.getElem?_eq_getElem h1]
    split
    · rfl
    · split
      · split <;> rfl
      · rfl
  · simp only [h2, if_false]
    split
    · rfl
    · split
      · split <;> rfl
      · rfl

theorem mountLoop_events_no_listImages (pkgWorkdir : String) (specs : List String) :
    (mountLoop pkgWorkdir specs).events.countP DockerEvent.isListImages = 0 := by
  induction specs with
  | nil => rfl
  | cons spec rest ih =>
    unfold mountLoop
    simp only [stringsSplit_head]
    split
    · rfl
    · simp only [List.countP_append, ih]
      rfl

/-- Every call of `NewContainer` calls `client.ListImages` exactly once. -/
theorem NewContainer_events_listImages (w : DockerWorld) (opts : BuildContainerOpts)
    (hist : List DockerEvent) :
    (NewContainer w opts hist).events.countP DockerEvent.isListImages = 1 := by
  cases hm : (mountLoop (filepathJoin [w.BuildRoot opts.Workspace, opts.PackageName])
      opts.ContainerOpts.Mounts).value with
  | some mounts0 =>
    obtain ⟨co, _, hev, _⟩ := NewContainer_of_mountLoop w opts hist mounts0 hm
    rw [hev, List.countP_append, List.countP_append, PullImage_events_listImages,
      mountLoop_events_no_listImages]
    rfl
  | none =>
    unfold NewContainer
    simp only [stringsSplit_head]
    cases hp : (PullImage w opts.ContainerOpts.Image hist).value with
    | none => exact absurd hp (PullImage_value_ne_none w _ hist)
    | some pv =>
      simp only [hm]
      rw [List.countP_append, PullImage_events_listImages, mountLoop_events_no_listImages]

theorem standUpHistory_cons (w : DockerWorld) (sc : ServiceContext) (x : ContainerDefinition)
    (rest : List ContainerDefinition) (hist : List DockerEvent) :
    standUpHistory w sc (x :: rest) hist =
      standUpHistory w sc rest (hist ++ standUpRound w sc x hist) := rfl

theorem standUpHistory_append_singleton (w : DockerWorld) (sc : ServiceContext)
    (pre : List ContainerDefinition) (c : ContainerDefinition) (hist : List DockerEvent) :
    standUpHistory w sc (pre ++ [c]) hist =
      standUpHistory w sc pre hist ++ standUpRound w sc c (standUpHistory w sc pre hist) := by
  simp [standUpHistory, List.foldl_append]

theorem allRoundsPass_cons (w : DockerWorld) (sc : ServiceContext) (x : ContainerDefinition)
    (rest : List ContainerDefinition) (hist : List DockerEvent)
    (h : allRoundsPass w sc (x :: rest) hist) :
    roundPasses w sc x hist ∧ allRoundsPass w sc rest (hist ++ standUpRound w sc x hist) := by
  refine ⟨h [] x rest rfl, fun a y b hab => ?_⟩
  have := h (x :: a) y b (by rw [hab]; rfl)
  rwa [standUpHistory_cons] at this

theorem allRoundsPass_nil (w : DockerWorld) (sc : ServiceContext) (hist : List DockerEvent) :
    allRoundsPass w sc [] hist := by
  intro a x b hab
  simp at hab

theorem allRoundsPass_cons_of (w : DockerWorld) (sc : ServiceContext) (x : ContainerDefinition)
    (rest : List ContainerDefinition) (hist : List DockerEvent)
    (hx : roundPasses w sc x hist)
    (hrest : allRoundsPass w sc rest (hist ++ standUpRound w sc x hist)) :
    allRoundsPass w sc (x :: rest) hist := by
  intro a y b hab
  cases a with
  | nil =>
    simp only [List.nil_append, List.cons.injEq] at hab
    rw [← hab.1]
    exact hx
  | cons a0 a1 =>
    simp only [List.cons_append, List.cons.injEq] at hab
    rw [← hab.1, standUpHistory_cons]
    exact hrest a1 y b hab.2

/-- One round that passes: the loop goes on with the events of the round. -/
theorem standUpLoop_cons_of_passes (w : DockerWorld) (sc : ServiceContext)
    (x : ContainerDefinition) (rest : List ContainerDefinition) (hist : List DockerEvent)
    (hx : roundPasses w sc x hist) :
    standUpLoop w sc (x :: rest) hist =
      ⟨standUpRound w sc x hist ++
          (standUpLoop w sc rest (hist ++ standUpRound w sc x hist)).events,
        (standUpLoop w sc rest (hist ++ standUpRound w sc x hist)).value⟩ := by
  rcases hx with ⟨ctr, hf⟩ | ⟨hf, bc, hn⟩
  · simp only [standUpLoop, standUpRound, hf]
  · simp only [standUpLoop, standUpRound, hf, hn, List.append_assoc]

/-- One round in which `NewContainer` is called and fails: the loop ends. -/
theorem standUpLoop_cons_of_error (w : DockerWorld) (sc : ServiceContext)
    (x : ContainerDefinition) (rest : List ContainerDefinition) (hist : List DockerEvent)
    (bc : BuildContainer) (e : GoError)
    (hf : (sc.FindContainer w x hist).value = some none)
    (hn : (sc.NewContainer w x (hist ++ (sc.FindContainer w x hist).events)).value =
      some (bc, some e)) :
    standUpLoop w sc (x :: rest) hist = ⟨standUpRound w sc x hist, some (some e)⟩ := by
  simp only [standUpLoop, standUpRound, hf, hn]

theorem standUpLoop_of_allRoundsPass (w : DockerWorld) (sc : ServiceContext)
    (defs : List ContainerDefinition) (hist : List DockerEvent)
    (h : allRoundsPass w sc defs hist) :
    (standUpLoop w sc defs hist).value = some none ∧
    hist ++ (standUpLoop w sc defs hist).events = standUpHistory w sc defs hist := by
  induction defs generalizing hist with
  | nil => simp [standUpLoop, standUpHistory]
  | cons x rest ih =>
    obtain ⟨hx, hrest⟩ := allRoundsPass_cons w sc x rest hist h
    obtain ⟨i1, i2⟩ := ih _ hrest
    rw [standUpLoop_cons_of_passes w sc x rest hist hx]
    exact ⟨i1, by rw [standUpHistory_cons, ← i2, List.append_assoc]⟩

theorem standUpLoop_of_first_error (w : DockerWorld) (sc : ServiceContext)
    (pre : List ContainerDefinition) (c : ContainerDefinition)
    (post : List ContainerDefinition) (hist : List DockerEvent)
    (bc : BuildContainer) (e : GoError)
    (h : allRoundsPass w sc pre hist)
    (hf : (sc.FindContainer w c (standUpHistory w sc pre hist)).value = some none)
    (hn : (sc.NewContainer w c (standUpHistory w sc pre hist ++
      (sc.FindContainer w c (standUpHistory w sc pre hist)).events)).value =
        some (bc, some e)) :
    (standUpLoop w sc (pre ++ c :: post) hist).value = some (some e) ∧
    hist ++ (standUpLoop w sc (pre ++ c :: post) hist).events =
      standUpHistory w sc (pre ++ [c]) hist := by
  induction pre generalizing hist with
  | nil =>
    simp only [standUpHistory, List.foldl_nil] at hf hn
    rw [List.nil_append, standUpLoop_cons_of_error w sc c post hist bc e hf hn]
    exact ⟨rfl, by simp [standUpHistory]⟩
  | cons x rest ih =>
    obtain ⟨hx, hrest⟩ := allRoundsPass_cons w sc x rest hist h
    rw [standUpHistory_cons] at hf hn
    obtain ⟨i1, i2⟩ := ih _ hrest hf hn
    rw [List.cons_append, standUpLoop_cons_of_passes w sc x _ hist hx]
    refine ⟨i1, ?_⟩
    rw [List.cons_append, standUpHistory_cons, ← i2, List.append_assoc]

theorem standUpRound_of_found (w : DockerWorld) (sc : ServiceContext) (c : ContainerDefinition)
    (hist : List DockerEvent) (hf : (sc.FindContainer w c hist).value ≠ some none) :
    standUpRound w sc c hist = (sc.FindContainer w c hist).events := by
  unfold standUpRound
  split
  · rename_i heq; exact absurd heq hf
  · rfl

theorem standUpLoop_all_found (w : DockerWorld) (sc : ServiceContext)
    (defs : List ContainerDefinition) (hist : List DockerEvent)
    (hall : ∀ a x b, defs = a ++ x :: b →
      ∃ ctr, (sc.FindContainer w x (standUpHistory w sc a hist)).value = some (some ctr)) :
    (standUpLoop w sc defs hist).events.countP DockerEvent.isCreateContainer = 0 ∧
    (standUpLoop w sc defs hist).events.countP DockerEvent.isListImages = 0 := by
  induction defs generalizing hist with
  | nil => exact ⟨rfl, rfl⟩
  | cons x rest ih =>
    obtain ⟨ctr, hf⟩ := hall [] x rest rfl
    have hf2 : (sc.FindContainer w x hist).value = some (some ctr) := hf
    have hne : (sc.FindContainer w x hist).value ≠ some none := by rw [hf2]; simp
    have hrest := ih (hist ++ standUpRound w sc x hist) (fun a y b hab => by
      have := hall (x :: a) y b (by rw [hab]; rfl)
      rwa [standUpHistory_cons] at this)
    have f1 : (sc.FindContainer w x hist).events.countP DockerEvent.isCreateContainer = 0 :=
      (FindContainer_events_counts w _ hist).1
    have f2 : (sc.FindContainer w x hist).events.countP DockerEvent.isListImages = 0 :=
      (FindContainer_events_counts w _ hist).2
    rw [standUpLoop_cons_of_passes w sc x rest hist (Or.inl ⟨ctr, hf2⟩)]
    rw [standUpRound_of_found w sc x hist hne] at hrest ⊢
    exact ⟨by rw [List.countP_append, f1, hrest.1], by rw [List.countP_append, f2, hrest.2]⟩

theorem StandUp_eq_loop (w : DockerWorld) (sc : ServiceContext) (hist : List DockerEvent) :
    (StandUp w sc hist).value =
      (standUpLoop w sc sc.Containers (standUpStart w sc hist)).value ∧
    hist ++ (StandUp w sc hist).events =
      standUpStart w sc hist ++
        (standUpLoop w sc sc.Containers (standUpStart w sc hist)).events ∧
    (StandUp w sc hist).events.countP DockerEvent.isCreateContainer =
      (standUpLoop w sc sc.Containers
        (standUpStart w sc hist)).events.countP DockerEvent.isCreateContainer ∧
    (StandUp w sc hist).events.countP DockerEvent.isListImages =
      (standUpLoop w sc sc.Containers
        (standUpStart w sc hist)).events.countP DockerEvent.isListImages := by
  unfold StandUp standUpStart
  refine ⟨rfl, by simp, ?_, ?_⟩
  · simp [List.countP_cons, DockerEvent.isCreateContainer]
  · simp [List.countP_cons, DockerEvent.isListImages]

/-- Claim C13: `StandUp` runs one round per container definition, in the
order of iteration.  A round starts with `FindContainer`; `NewContainer` is
called in the round if and only if `FindContainer` returned no container.
When every round passes, `StandUp` has run the rounds of all definitions and
returns nil; the first error of `NewContainer` ends the loop and is returned.
When `FindContainer` returns a container for every definition, nothing is
created. -/
theorem StandUp_creates_only_missing (w : DockerWorld) (sc : ServiceContext)
    (hist : List DockerEvent) :
    (∀ c h, (sc.FindContainer w c h).events <+: standUpRound w sc c h ∧
      (standUpRound w sc c h).countP DockerEvent.isListImages =
        (if (sc.FindContainer w c h).value = some none then 1 else 0) ∧
      ((sc.FindContainer w c h).value ≠ some none →
        (standUpRound w sc c h).countP DockerEvent.isCreateContainer = 0)) ∧
    (allRoundsPass w sc sc.Containers (standUpStart w sc hist) →
      (StandUp w sc hist).value = some none ∧
      hist ++ (StandUp w sc hist).events =
        standUpHistory w sc sc.Containers (standUpStart w sc hist)) ∧
    (∀ pre c post bc e, sc.Containers = pre ++ c :: post →
      allRoundsPass w sc pre (standUpStart w sc hist) →
      (sc.FindContainer w c
        (standUpHistory w sc pre (standUpStart w sc hist))).value = some none →
      (sc.NewContainer w c (standUpHistory w sc pre (standUpStart w sc hist) ++
        (sc.FindContainer w c
          (standUpHistory w sc pre (standUpStart w sc hist))).events)).value =
        some (bc, some e) →
      (StandUp w sc hist).value = some (some e) ∧
      hist ++ (StandUp w sc hist).events =
        standUpHistory w sc (pre ++ [c]) (standUpStart w sc hist)) ∧
    ((∀ a x b, sc.Containers = a ++ x :: b →
        ∃ ctr, (sc.FindContainer w x
          (standUpHistory w sc a (standUpStart w sc hist))).value = some (some ctr)) →
      (StandUp w sc hist).value = some none ∧
      (StandUp w sc hist).events.countP DockerEvent.isCreateContainer = 0 ∧
      (StandUp w sc hist).events.countP DockerEvent.isListImages = 0) := by
  obtain ⟨s1, s2, s3, s4⟩ := StandUp_eq_loop w sc hist
  refine ⟨fun c h => ?_, fun hall => ?_, fun pre c post bc e hsplit hpre hf hn => ?_,
    fun hall => ?_⟩
  · by_cases hf : (sc.FindContainer w c h).value = some none
    · refine ⟨?_, ?_, fun hne => absurd hf hne⟩
      · unfold standUpRound
        rw [hf]
        exact List.prefix_append _ _
      · simp only [hf, if_true]
        unfold standUpRound
        rw [hf]
        simp only [List.countP_append]
        rw [ServiceContext.NewContainer, NewContainer_events_listImages,
          ServiceContext.FindContainer, (FindContainer_events_counts w _ h).2]
    · rw [standUpRound_of_found w sc c h hf]
      refine ⟨List.prefix_refl _, ?_, fun _ => ?_⟩
      · simp only [hf, if_false]
        exact (FindContainer_events_counts w _ h).2
      · exact (FindContainer_events_counts w _ h).1
  · obtain ⟨l1, l2⟩ := standUpLoop_of_allRoundsPass w sc _ _ hall
    exact ⟨by rw [s1, l1], by rw [s2, l2]⟩
  · rw [hsplit] at s1 s2
    obtain ⟨l1, l2⟩ := standUpLoop_of_first_error w sc pre c post _ bc e hpre hf hn
    exact ⟨by rw [s1, l1], by rw [s2, l2]⟩
  · have hpass : allRoundsPass w sc sc.Containers (standUpStart w sc hist) :=
      fun a x b hab => Or.inl (hall a x b hab)
    obtain ⟨l1, _⟩ := standUpLoop_of_allRoundsPass w sc _ _ hpass
    obtain ⟨c1, c2⟩ := standUpLoop_all_found w sc _ _ hall
    exact ⟨by rw [s1, l1], by rw [s3, c1], by rw [s4, c2]⟩

theorem StandUp_creates_only_missing_witness :
    ((StandUp sampleDocker sampleContext []).value = some none ∧
      [] ++ (StandUp sampleDocker sampleContext []).events =
        standUpHistory sampleDocker sampleContext sampleContext.Containers
          (standUpStart sampleDocker sampleContext [])) ∧
    ((StandUp createFailingDocker sampleContext []).value =
        some (some (GoError.new "cannot create")) ∧
      [] ++ (StandUp createFailingDocker sampleContext []).events =
        standUpHistory createFailingDocker sampleContext ([] ++ [redisDef])
          (standUpStart createFailingDocker sampleContext [])) ∧
    ((StandUp existingDocker sampleContext []).value = some none ∧
      (StandUp existingDocker sampleContext []).events.countP
        DockerEvent.isCreateContainer = 0 ∧
      (StandUp existingDocker sampleContext []).events.countP
        DockerEvent.isListImages = 0) :=
  ⟨(StandUp_creates_only_missing sampleDocker sampleContext []).2.1
      (allRoundsPass_cons_of _ _ _ _ _
        (Or.inr ⟨by decide, ⟨"id-app-redis", "app-redis", ⟨redisDef, "app", ⟨"/ws"⟩⟩⟩,
          by decide⟩)
        (allRoundsPass_cons_of _ _ _ _ _
          (Or.inr ⟨by decide,
            ⟨"id-app-postgres", "app-postgres", ⟨postgresDef, "app", ⟨"/ws"⟩⟩⟩, by decide⟩)
          (allRoundsPass_nil _ _ _))),
    (StandUp_creates_only_missing createFailingDocker sampleContext []).2.2.1
      [] redisDef [postgresDef] BuildContainer.zero (GoError.new "cannot create") rfl
      (allRoundsPass_nil _ _ _) (by decide) (by decide),
    (StandUp_creates_only_missing existingDocker sampleContext []).2.2.2
      (fun a x b _ => ⟨⟨"id-" ++ specContainerName "app" x.Image⟩, by
        simp [ServiceContext.FindContainer, FindContainer, stringsSplit_head, existingDocker,
          sampleDocker, sampleContext, specContainerName]⟩)⟩
/-! ## Theorems: `filepath.Join` -/

theorem stringsJoin_cons_cons (a b : String) (rest : List String) (sep : String) :
    stringsJoin (a :: b :: rest) sep = a ++ sep ++ stringsJoin (b :: rest) sep := rfl

theorem stringsJoin_append (l0 names : List String) (sep : String) (h0 : l0 ≠ []) :
    stringsJoin (stringsJoin l0 sep :: names) sep = stringsJoin (l0 ++ names) sep := by
  induction l0 with
  | nil => exact absurd rfl h0
  | cons a rest ih =>
    cases rest with
    | nil => rfl
    | cons b rest2 =>
      have ih2 := ih (by simp)
      cases names with
      | nil => simp [stringsJoin]
      | cons n ns =>
        rw [List.cons_append, List.cons_append, stringsJoin_cons_cons a b (rest2 ++ n :: ns),
          ← List.cons_append, ← ih2, stringsJoin_cons_cons a b rest2,
          stringsJoin_cons_cons, stringsJoin_cons_cons]
        simp only [String.append_assoc]

/-- Splitting a joined list at the separator gives the list back, when the
list is not empty and no element holds the separator. -/
theorem stringsSplit_stringsJoin (l : List String) (sep : Char) (hl : l ≠ [])
    (hs : ∀ s ∈ l, sep ∉ s.data) :
    stringsSplit (stringsJoin l (String.singleton sep)) sep = l := by
  induction l with
  | nil => exact absurd rfl hl
  | cons a rest ih =>
    cases rest with
    | nil =>
      unfold stringsSplit
      simp only [stringsJoin]
      rw [splitChars_of_not_mem sep _ (hs a (List.mem_cons_self _ _))]
      rfl
    | cons b rest2 =>
      have ih2 := ih (by simp) (fun s h => hs s (List.mem_cons_of_mem _ h))
      rw [stringsJoin_cons_cons]
      unfold stringsSplit at ih2 ⊢
      have hd : (a ++ String.singleton sep ++ stringsJoin (b :: rest2) (String.singleton sep)).data
          = a.data ++ sep :: (stringsJoin (b :: rest2) (String.singleton sep)).data := by
        simp [String.data_append, String.singleton]
      rw [hd, splitChars_append_sep sep _ _ (hs a (List.mem_cons_self _ _)), List.map_cons, ih2]

theorem foldl_cleanStep (rooted : Bool) (l : List String) (stack : List String)
    (hl : ∀ s ∈ l, s = "" ∨ IsPathElem s) :
    l.foldl (cleanStep rooted) stack = (l.filter fun s => decide (s ≠ "")).reverse ++ stack := by
  induction l generalizing stack with
  | nil => rfl
  | cons a rest ih =>
    rw [List.foldl_cons, ih _ (fun s h => hl s (List.mem_cons_of_mem _ h))]
    rcases hl a (List.mem_cons_self _ _) with h | h
    · subst h
      simp [cleanStep]
    · obtain ⟨h1, h2, h3, _⟩ := h
      simp [cleanStep, h1, h2, h3, List.filter_cons]

theorem filter_ne_empty_of_pathElems (l : List String) (hl : ∀ s ∈ l, IsPathElem s) :
    (l.filter fun s => decide (s ≠ "")) = l := by
  rw [List.filter_eq_self]
  intro s hs
  simpa using (hl s hs).1

theorem filter_ne_empty_cons (l : List String) :
    (("" :: l).filter fun s => decide (s ≠ "")) = l.filter fun s => decide (s ≠ "") := by
  rw [List.filter_cons]
  simp

theorem filepathClean_of_split (path : String) (tail : List Char) (l : List String)
    (hd : path.data = '/' :: tail) (hs : stringsSplit path '/' = l)
    (hl : ∀ s ∈ l, s = "" ∨ IsPathElem s) :
    filepathClean path = "/" ++ stringsJoin (l.filter fun s => decide (s ≠ "")) "/" := by
  have hne : path ≠ "" := by
    intro h
    rw [h] at hd
    cases hd
  unfold filepathClean
  simp only [hne, if_false, hd, hs, foldl_cleanStep true l [] hl, List.append_nil,
    List.reverse_reverse, if_true]

/-- Joining an absolute path of plain elements with further plain elements
appends them. -/
theorem filepathJoin_absPath (elems names : List String)
    (he : ∀ s ∈ elems, IsPathElem s) (hn : ∀ s ∈ names, IsPathElem s) :
    filepathJoin (absPath elems :: names) = absPath (elems ++ names) := by
  have hslash : ("/" : String) = String.singleton '/' := rfl
  have hpe : ∀ s, IsPathElem s → '/' ∉ s.data := fun s h => h.2.2.2
  have habs : (absPath elems).data = '/' :: (stringsJoin elems "/").data := by
    simp [absPath, String.data_append]
  have hne : absPath elems ≠ "" := by
    intro h
    rw [h] at habs
    cases habs
  have hjoin : filepathJoin (absPath elems :: names) =
      filepathClean (stringsJoin (absPath elems :: names) "/") := by
    simp [filepathJoin, List.dropWhile_cons, hne]
  rw [hjoin]
  cases elems with
  | nil =>
    have h0 : absPath [] = stringsJoin ["", ""] "/" := by decide
    rw [h0, stringsJoin_append ["", ""] names "/" (by simp)]
    have hd : (stringsJoin (["", ""] ++ names) "/").data =
        '/' :: (stringsJoin ("" :: names) "/").data := by
      simp [stringsJoin_cons_cons, String.data_append]
    have hs : stringsSplit (stringsJoin (["", ""] ++ names) "/") '/' = ["", ""] ++ names := by
      rw [hslash]
      apply stringsSplit_stringsJoin _ _ (by simp)
      intro s hs
      simp only [List.cons_append, List.nil_append, List.mem_cons] at hs
      rcases hs with h | h | h
      · subst h; simp
      · subst h; simp
      · exact hpe s (hn s h)
    rw [filepathClean_of_split _ _ _ hd hs (by
      intro s hs
      simp only [List.cons_append, List.nil_append, List.mem_cons] at hs
      rcases hs with h | h | h
      · exact Or.inl h
      · exact Or.inl h
      · exact Or.inr (hn s h))]
    rw [List.cons_append, List.cons_append, List.nil_append, filter_ne_empty_cons,
      filter_ne_empty_cons, filter_ne_empty_of_pathElems names hn]
    rfl
  | cons e es =>
    have h0 : absPath (e :: es) = stringsJoin ("" :: e :: es) "/" := by
      simp [absPath, stringsJoin_cons_cons]
    rw [h0, stringsJoin_append ("" :: e :: es) names "/" (by simp)]
    have hd : (stringsJoin (("" :: e :: es) ++ names) "/").data =
        '/' :: (stringsJoin ((e :: es) ++ names) "/").data := by
      simp [stringsJoin_cons_cons, String.data_append]
    have hall : ∀ s ∈ (e :: es) ++ names, IsPathElem s := by
      intro s hs
      rcases List.mem_append.mp hs with h | h
      · exact he s h
      · exact hn s h
    have hs : stringsSplit (stringsJoin (("" :: e :: es) ++ names) "/") '/' =
        ("" :: e :: es) ++ names := by
      rw [hslash]
      apply stringsSplit_stringsJoin _ _ (by simp)
      intro s hs
      simp only [List.cons_append, List.mem_cons] at hs
      rcases hs with h | h
      · subst h; simp
      · exact hpe s (hall s (by simpa using h))
    rw [filepathClean_of_split _ _ _ hd hs (by
      intro s hs
      simp only [List.cons_append, List.mem_cons] at hs
      rcases hs with h | h
      · exact Or.inl h
      · exact Or.inr (hall s (by simpa using h)))]
    have hf := filter_ne_empty_of_pathElems ((e :: es) ++ names) hall
    rw [List.cons_append, filter_ne_empty_cons, hf]
    rfl

theorem isPathElem_append (p v : String) (c : Char) (t : List Char) (hp : p.data = c :: t)
    (hc : c ≠ '.') (hps : '/' ∉ p.data) (hv : '/' ∉ v.data) : IsPathElem (p ++ v) := by
  have hd : (p ++ v).data = c :: (t ++ v.data) := by
    rw [String.data_append, hp]; rfl
  refine ⟨?_, ?_, ?_, ?_⟩
  · intro h; rw [h] at hd; cases hd
  · intro h
    rw [h] at hd
    have : '.' = c := by injection hd
    exact hc this.symm
  · intro h
    rw [h] at hd
    have : '.' = c := by injection hd
    exact hc this.symm
  · rw [String.data_append]
    intro h
    rcases List.mem_append.mp h with h | h
    · exact hps h
    · exact hv h

theorem string_append_left_cancel (a b c : String) (h : a ++ b = a ++ c) : b = c := by
  have hd : (a ++ b).data = (a ++ c).data := by rw [h]
  rw [String.data_append, String.data_append] at hd
  exact String.ext (List.append_cancel_left hd)

/-- Absolute paths of plain elements are equal only when the elements are. -/
theorem absPath_injective (l1 l2 : List String) (h1 : ∀ s ∈ l1, IsPathElem s)
    (h2 : ∀ s ∈ l2, IsPathElem s) (hn1 : l1 ≠ []) (hn2 : l2 ≠ [])
    (h : absPath l1 = absPath l2) : l1 = l2 := by
  have hj : stringsJoin l1 "/" = stringsJoin l2 "/" := string_append_left_cancel "/" _ _ h
  have hslash : ("/" : String) = String.singleton '/' := rfl
  rw [hslash] at hj
  have s1 := stringsSplit_stringsJoin l1 '/' hn1 (fun s hs => (h1 s hs).2.2.2)
  have s2 := stringsSplit_stringsJoin l2 '/' hn2 (fun s hs => (h2 s hs).2.2.2)
  rw [← s1, ← s2, hj]

/-! ## Theorems: the mount sources of `NewContainer` -/

theorem stringsJoin_data_not_mem (l : List String) (sep : String) (c : Char)
    (hsep : c ∉ sep.data) (hl : ∀ s ∈ l, c ∉ s.data) : c ∉ (stringsJoin l sep).data := by
  induction l with
  | nil => simp [stringsJoin]
  | cons a rest ih =>
    cases rest with
    | nil => exact hl a (List.mem_cons_self _ _)
    | cons b rest2 =>
      have ih2 := ih (fun s h => hl s (List.mem_cons_of_mem _ h))
      rw [stringsJoin_cons_cons, String.data_append, String.data_append]
      intro h
      rcases List.mem_append.mp h with h | h
      · rcases List.mem_append.mp h with h | h
        · exact hl a (List.mem_cons_self _ _) h
        · exact hsep h
      · exact ih2 h

theorem stringsJoin_append_of_ne_nil (l1 l2 : List String) (sep : String) (h1 : l1 ≠ [])
    (h2 : l2 ≠ []) :
    stringsJoin (l1 ++ l2) sep = stringsJoin l1 sep ++ sep ++ stringsJoin l2 sep := by
  rw [← stringsJoin_append l1 l2 sep h1]
  cases l2 with
  | nil => exact absurd rfl h2
  | cons b rest => rw [stringsJoin_cons_cons]

/-- Joining an absolute path of plain elements with a relative path of plain
elements appends the relative path. -/
theorem filepathJoin_absPath_relative (elems names : List String)
    (he : ∀ s ∈ elems, IsPathElem s) (hn : ∀ s ∈ names, IsPathElem s) (hne : names ≠ []) :
    filepathJoin [absPath elems, stringsJoin names "/"] = absPath (elems ++ names) := by
  rw [← filepathJoin_absPath elems names he hn]
  have habs : (absPath elems).data = '/' :: (stringsJoin elems "/").data := by
    simp [absPath, String.data_append]
  have hne2 : absPath elems ≠ "" := by
    intro h
    rw [h] at habs
    cases habs
  have hj : stringsJoin [absPath elems, stringsJoin names "/"] "/" =
      stringsJoin (absPath elems :: names) "/" := by
    cases names with
    | nil => exact absurd rfl hne
    | cons b rest => rw [stringsJoin_cons_cons, stringsJoin_cons_cons]; rfl
  simp [filepathJoin, List.dropWhile_cons, hne2, hj]

/-- The source `NewContainer` computes for a mount, for a build root
`/r1/.../rn`, a package name that is one path element and a host path
`h1/.../hk` of plain elements: the three joined with `/`. -/
theorem mount_source_of_clean (root names : List String) (pkg : String) (hrne : root ≠ [])
    (hre : ∀ s ∈ root, IsPathElem s) (hpkg : IsPathElem pkg)
    (hn : ∀ s ∈ names, IsPathElem s) (hne : names ≠ []) :
    filepathJoin [filepathJoin [absPath root, pkg], stringsJoin names "/"] =
      absPath root ++ "/" ++ pkg ++ "/" ++ stringsJoin names "/" := by
  have hrp : ∀ s ∈ root ++ [pkg], IsPathElem s := by
    intro s hs
    rcases List.mem_append.mp hs with h | h
    · exact hre s h
    · rw [List.mem_singleton.mp h]; exact hpkg
  rw [filepathJoin_absPath root [pkg] hre (by simpa using hpkg),
    filepathJoin_absPath_relative (root ++ [pkg]) names hrp hn hne]
  unfold absPath
  rw [stringsJoin_append_of_ne_nil (root ++ [pkg]) names "/" (by simp) hne,
    stringsJoin_append_of_ne_nil root [pkg] "/" hrne (by simp)]
  simp only [stringsJoin, String.append_assoc]

/-- Claim C12, as stated, fails: for the mount spec `../../../etc:/x`, build
root `/ws/build` and package `app`, the source of the bind mount passed to
`client.CreateContainer` is `/etc`, not `/ws/build/app/../../../etc`: the
path is cleaned by `filepath.Join` and leaves the package directory. -/
theorem NewContainer_mount_source_escapes :
    (NewContainer sampleDocker ⟨⟨"redis:5", ["../../../etc:/x"], [], []⟩, "app", ⟨"/ws"⟩⟩
        []).events.getLast? =
      some (DockerEvent.createContainer
        ⟨"app-redis", true, true, "redis:5", ["tail", "-f", "/dev/null"], [],
          [⟨"/etc", "/x", "bind"⟩, ⟨"/ws/app", "/build", "bind"⟩]⟩) ∧
    sampleDocker.BuildRoot ⟨"/ws"⟩ = "/ws/build" ∧
    "/etc" ≠ sampleDocker.BuildRoot ⟨"/ws"⟩ ++ "/" ++ "app" ++ "/" ++ "../../../etc" := by
  decide

/-- Claim C12, amended: for a build root `/r1/.../rn` with at least one
element, a package name that is one path element, and mount specs
`host:container` in which `host` is a relative path `h1/.../hk` of plain
elements (none empty, `.` or `..`) and neither part holds a further `:`,
`NewContainer` reaches `client.CreateContainer` once and passes it
`len(Mounts)+1` bind mounts: one per spec, in declared order, with source
`<build root>/<package name>/<host>` and target `container`, then the bind
mount of the package path on `/build`; the command of the container is
`tail -f /dev/null`. -/
theorem NewContainer_mount_sources (w : DockerWorld) (opts : BuildContainerOpts)
    (hist : List DockerEvent) (root : List String) (pairs : List (List String × String))
    (hroot : w.BuildRoot opts.Workspace = absPath root) (hrne : root ≠ [])
    (hre : ∀ s ∈ root, IsPathElem s) (hpkg : IsPathElem opts.PackageName)
    (hm : opts.ContainerOpts.Mounts = pairs.map fun p => stringsJoin p.1 "/" ++ ":" ++ p.2)
    (hp : ∀ p ∈ pairs, p.1 ≠ [] ∧ (∀ s ∈ p.1, IsPathElem s ∧ ':' ∉ s.data) ∧
      ':' ∉ p.2.data) :
    ∃ co, (NewContainer w opts hist).events.getLast? = some (DockerEvent.createContainer co) ∧
      (NewContainer w opts hist).events.countP DockerEvent.isCreateContainer = 1 ∧
      co.Mounts =
        (pairs.map fun p => HostMount.mk
          (w.BuildRoot opts.Workspace ++ "/" ++ opts.PackageName ++ "/" ++ stringsJoin p.1 "/")
          p.2 "bind") ++
        [HostMount.mk (w.PackagePath opts.Workspace opts.PackageName) "/build" "bind"] ∧
      co.Mounts.length = opts.ContainerOpts.Mounts.length + 1 ∧
      co.Cmd = ["tail", "-f", "/dev/null"] := by
  obtain ⟨co, h1, h2, h3, h4, h5⟩ := NewContainer_mounts w opts hist
    (pairs.map fun p => (stringsJoin p.1 "/", p.2))
    (by rw [hm, List.map_map]; rfl)
    (by
      intro q hq
      obtain ⟨p, hpm, rfl⟩ := List.mem_map.mp hq
      obtain ⟨_, hel, hc⟩ := hp p hpm
      exact ⟨stringsJoin_data_not_mem p.1 "/" ':' (by decide) (fun s hs => (hel s hs).2), hc⟩)
  refine ⟨co, h1, h2, ?_, h4, h5⟩
  rw [h3, List.map_map]
  congr 1
  apply List.map_congr_left
  intro p hpm
  obtain ⟨hne, hel, _⟩ := hp p hpm
  simp only [Function.comp]
  rw [hroot, mount_source_of_clean root p.1 opts.PackageName hrne hre hpkg
    (fun s hs => (hel s hs).1) hne]

theorem NewContainer_mount_sources_witness :
    ∃ co, (NewContainer sampleDocker
        ⟨⟨"redis:5", ["data:/data", "conf/redis:/etc/redis"], [], []⟩, "app", ⟨"/ws"⟩⟩
        []).events.getLast? = some (DockerEvent.createContainer co) ∧
      (NewContainer sampleDocker
        ⟨⟨"redis:5", ["data:/data", "conf/redis:/etc/redis"], [], []⟩, "app", ⟨"/ws"⟩⟩
        []).events.countP DockerEvent.isCreateContainer = 1 ∧
      co.Mounts =
        [⟨"/ws/build/app/data", "/data", "bind"⟩,
          ⟨"/ws/build/app/conf/redis", "/etc/redis", "bind"⟩,
          ⟨"/ws/app", "/build", "bind"⟩] ∧
      co.Mounts.length = 2 + 1 ∧
      co.Cmd = ["tail", "-f", "/dev/null"] :=
  NewContainer_mount_sources sampleDocker
    ⟨⟨"redis:5", ["data:/data", "conf/redis:/etc/redis"], [], []⟩, "app", ⟨"/ws"⟩⟩ []
    ["ws", "build"] [(["data"], "/data"), (["conf", "redis"], "/etc/redis")]
    (by decide) (by decide) (by decide) (by decide) (by decide) (by decide)

/-! ## Theorems: buildpacks -/

theorem stringsSplit_version (parts : List String) (hp : parts ≠ [])
    (hd : ∀ s ∈ parts, '.' ∉ s.data) : stringsSplit (stringsJoin parts ".") '.' = parts :=
  stringsSplit_stringsJoin parts '.' hp hd

theorem JavaBuildTool_Install_ne_none (w : ToolWorld) (bt : JavaBuildTool)
    (hist : List ToolEvent) (javaPath url : String) (hjp : bt.JavaDir w = some javaPath)
    (hu : bt.DownloadUrl w = some url) : bt.Install w hist ≠ none := by
  unfold JavaBuildTool.Install
  rw [hjp, hu]
  simp only
  cases hst : w.Stat (hist ++ [ToolEvent.mkdirAsNeeded bt.InstallDir]) javaPath
  · simp only [Bool.false_eq_true, if_false]
    split
    · simp
    · split <;> simp
  · simp

/-- Claim C19: for a version `M.m.p` or longer, `MajorVersion`,
`MinorVersion` and `PatchVersion` return `M`, `m` and `p`, `JavaDir` is
`filepath.Join(filepath.Join(sharedCache, "java"), "jdk<M>u<m>-b<p>")`, with
`Contents/Home` joined to it on darwin, and none of `JavaDir`, `DownloadUrl`
and `Install` panics; for a version with fewer than three components
`MinorVersion` or `PatchVersion` indexes out of range, and `JavaDir`,
`DownloadUrl` and `Install` panic. -/
theorem JavaBuildTool_version_components (w : ToolWorld) (spec : BuildToolSpec) :
    (∀ M m p rest, (∀ s ∈ M :: m :: p :: rest, '.' ∉ s.data) →
      spec.Version = stringsJoin (M :: m :: p :: rest) "." →
      (NewJavaBuildTool spec).MajorVersion = some M ∧
      (NewJavaBuildTool spec).MinorVersion = some m ∧
      (NewJavaBuildTool spec).PatchVersion = some p ∧
      (NewJavaBuildTool spec).JavaDir w =
        some (if w.OS = "darwin" then
          filepathJoin [filepathJoin [filepathJoin [spec.SharedCacheDir, "java"],
            "jdk" ++ M ++ "u" ++ m ++ "-b" ++ p], "Contents", "Home"]
        else
          filepathJoin [filepathJoin [spec.SharedCacheDir, "java"],
            "jdk" ++ M ++ "u" ++ m ++ "-b" ++ p]) ∧
      (NewJavaBuildTool spec).DownloadUrl w ≠ none ∧
      ∀ hist, (NewJavaBuildTool spec).Install w hist ≠ none) ∧
    ((stringsSplit spec.Version '.').length < 3 →
      ((NewJavaBuildTool spec).MinorVersion = none ∨
        (NewJavaBuildTool spec).PatchVersion = none) ∧
      (NewJavaBuildTool spec).JavaDir w = none ∧
      (NewJavaBuildTool spec).DownloadUrl w = none ∧
      ∀ hist, (NewJavaBuildTool spec).Install w hist = none) := by
  refine ⟨fun M m p rest hd hv => ?_, fun hlen => ?_⟩
  · have hs : stringsSplit spec.Version '.' = M :: m :: p :: rest := by
      rw [hv]; exact stringsSplit_version _ (by simp) hd
    have h0 : (NewJavaBuildTool spec).MajorVersion = some M := by
      simp [JavaBuildTool.MajorVersion, NewJavaBuildTool, hs]
    have h1 : (NewJavaBuildTool spec).MinorVersion = some m := by
      simp [JavaBuildTool.MinorVersion, NewJavaBuildTool, hs]
    have h2 : (NewJavaBuildTool spec).PatchVersion = some p := by
      simp [JavaBuildTool.PatchVersion, NewJavaBuildTool, hs]
    have hdir : (NewJavaBuildTool spec).JavaDir w =
        some (if w.OS = "darwin" then
          filepathJoin [filepathJoin [filepathJoin [spec.SharedCacheDir, "java"],
            "jdk" ++ M ++ "u" ++ m ++ "-b" ++ p], "Contents", "Home"]
        else
          filepathJoin [filepathJoin [spec.SharedCacheDir, "java"],
            "jdk" ++ M ++ "u" ++ m ++ "-b" ++ p]) := by
      unfold JavaBuildTool.JavaDir
      rw [h0, h1, h2]
      simp only [JavaBuildTool.InstallDir, NewJavaBuildTool]
      split <;> rfl
    have hurl : (NewJavaBuildTool spec).DownloadUrl w ≠ none := by
      unfold JavaBuildTool.DownloadUrl
      rw [h0, h1, h2]
      simp
    refine ⟨h0, h1, h2, hdir, hurl, fun hist => ?_⟩
    cases hu : (NewJavaBuildTool spec).DownloadUrl w with
    | none => exact absurd hu hurl
    | some url => exact JavaBuildTool_Install_ne_none w _ hist _ url hdir hu
  · have h2 : (NewJavaBuildTool spec).PatchVersion = none := by
      simp only [JavaBuildTool.PatchVersion, NewJavaBuildTool]
      exact List.getElem?_eq_none (by omega)
    have hdir : (NewJavaBuildTool spec).JavaDir w = none := by
      unfold JavaBuildTool.JavaDir
      rw [h2]
      split
      · rename_i heq; cases heq
      · rfl
    have hurl : (NewJavaBuildTool spec).DownloadUrl w = none := by
      unfold JavaBuildTool.DownloadUrl
      rw [h2]
      simp only
      split
      · rename_i heq; cases heq
      · rfl
    refine ⟨Or.inr h2, hdir, hurl, fun hist => ?_⟩
    unfold JavaBuildTool.Install
    rw [hdir]

theorem JavaBuildTool_version_components_witness :
    ((NewJavaBuildTool sampleToolSpec).MajorVersion = some "8" ∧
      (NewJavaBuildTool sampleToolSpec).MinorVersion = some "202" ∧
      (NewJavaBuildTool sampleToolSpec).PatchVersion = some "08" ∧
      (NewJavaBuildTool sampleToolSpec).JavaDir sampleMachine =
        some (if sampleMachine.OS = "darwin" then
          filepathJoin [filepathJoin [filepathJoin [sampleToolSpec.SharedCacheDir, "java"],
            "jdk" ++ "8" ++ "u" ++ "202" ++ "-b" ++ "08"], "Contents", "Home"]
        else
          filepathJoin [filepathJoin [sampleToolSpec.SharedCacheDir, "java"],
            "jdk" ++ "8" ++ "u" ++ "202" ++ "-b" ++ "08"]) ∧
      (NewJavaBuildTool sampleToolSpec).DownloadUrl sampleMachine ≠ none ∧
      ∀ hist, (NewJavaBuildTool sampleToolSpec).Install sampleMachine hist ≠ none) ∧
    (((NewJavaBuildTool { sampleToolSpec with Version := "11.0" }).MinorVersion = none ∨
        (NewJavaBuildTool { sampleToolSpec with Version := "11.0" }).PatchVersion = none) ∧
      (NewJavaBuildTool { sampleToolSpec with Version := "11.0" }).JavaDir sampleMachine = none ∧
      (NewJavaBuildTool { sampleToolSpec with Version := "11.0" }).DownloadUrl sampleMachine =
        none ∧
      ∀ hist,
        (NewJavaBuildTool { sampleToolSpec with Version := "11.0" }).Install sampleMachine hist =
          none) :=
  ⟨(JavaBuildTool_version_components sampleMachine sampleToolSpec).1 "8" "202" "08" []
      (by decide) (by decide),
    (JavaBuildTool_version_components sampleMachine
      { sampleToolSpec with Version := "11.0" }).2 (by decide)⟩

/-! ### `Install` when the tool is installed -/

theorem NodeBuildTool_Install_of_exists (w : ToolWorld) (bt : NodeBuildTool)
    (hist : List ToolEvent) (h : w.Stat hist (bt.NodeDir w) = true) :
    bt.Install w hist = ⟨[ToolEvent.stat (bt.NodeDir w)], none⟩ := by
  unfold NodeBuildTool.Install
  simp [h]

theorem NodeBuildTool_Install_counts (w : ToolWorld) (bt : NodeBuildTool)
    (hist : List ToolEvent) :
    (bt.Install w hist).events.countP ToolEvent.isDownload ≤ 1 ∧
    (bt.Install w hist).events.countP ToolEvent.isUnarchive ≤ 1 := by
  unfold NodeBuildTool.Install
  simp only
  cases w.Stat hist (bt.NodeDir w)
  · simp only [Bool.false_eq_true, if_false]
    split
    · simp [ToolEvent.isDownload, ToolEvent.isUnarchive]
    · split <;> simp [ToolEvent.isDownload, ToolEvent.isUnarchive]
  · simp [ToolEvent.isDownload, ToolEvent.isUnarchive]

theorem JavaBuildTool_Install_of_exists (w : ToolWorld) (bt : JavaBuildTool)
    (hist : List ToolEvent) (javaPath : String) (hjp : bt.JavaDir w = some javaPath)
    (h : w.Stat (hist ++ [ToolEvent.mkdirAsNeeded bt.InstallDir]) javaPath = true) :
    bt.Install w hist =
      some ⟨[ToolEvent.mkdirAsNeeded bt.InstallDir, ToolEvent.stat javaPath], none⟩ := by
  unfold JavaBuildTool.Install
  rw [hjp]
  simp [h]

theorem JavaBuildTool_Install_counts (w : ToolWorld) (bt : JavaBuildTool)
    (hist : List ToolEvent) (r : ToolOutcome) (hr : bt.Install w hist = some r) :
    r.events.countP ToolEvent.isDownload ≤ 1 ∧ r.events.countP ToolEvent.isUnarchive ≤ 1 := by
  unfold JavaBuildTool.Install at hr
  cases hjp : bt.JavaDir w with
  | none => rw [hjp] at hr; cases hr
  | some javaPath =>
    rw [hjp] at hr
    simp only at hr
    cases hst : w.Stat (hist ++ [ToolEvent.mkdirAsNeeded bt.InstallDir]) javaPath
    · rw [hst] at hr
      simp only [Bool.false_eq_true, if_false] at hr
      cases hu : bt.DownloadUrl w with
      | none => rw [hu] at hr; cases hr
      | some url =>
        rw [hu] at hr
        simp only at hr
        split at hr
        · cases hr; simp [ToolEvent.isDownload, ToolEvent.isUnarchive]
        · split at hr <;> cases hr <;> simp [ToolEvent.isDownload, ToolEvent.isUnarchive]
    · rw [hst] at hr
      simp only [if_true] at hr
      cases hr
      simp [ToolEvent.isDownload, ToolEvent.isUnarchive]

theorem RLangBuildTool_Install_of_exists (w : ToolWorld) (bt : RLangBuildTool)
    (hist : List ToolEvent) (h : w.Stat hist bt.RLangDir = true) :
    bt.Install w hist = some ⟨[ToolEvent.stat bt.RLangDir], none⟩ := by
  unfold RLangBuildTool.Install
  simp [h]

theorem RLangBuildTool_Install_counts (w : ToolWorld) (bt : RLangBuildTool)
    (hist : List ToolEvent) (r : ToolOutcome) (hr : bt.Install w hist = some r) :
    r.events.countP ToolEvent.isDownload ≤ 1 ∧ r.events.countP ToolEvent.isUnarchive ≤ 1 := by
  unfold RLangBuildTool.Install at hr
  simp only at hr
  cases hst : w.Stat hist bt.RLangDir
  · rw [hst] at hr
    simp only [Bool.false_eq_true, if_false] at hr
    cases hu : bt.DownloadUrl with
    | none => rw [hu] at hr; cases hr
    | some url =>
      rw [hu] at hr
      simp only at hr
      split at hr
      · cases hr; simp [ToolEvent.isDownload, ToolEvent.isUnarchive]
      · split at hr
        · split at hr <;> cases hr <;> simp [ToolEvent.isDownload, ToolEvent.isUnarchive]
        · cases hr; simp [ToolEvent.isDownload, ToolEvent.isUnarchive]
  · rw [hst] at hr
    simp only [if_true] at hr
    cases hr
    simp [ToolEvent.isDownload, ToolEvent.isUnarchive]

theorem AnacondaBuildTool_Install_of_exists (w : ToolWorld) (bt : AnacondaBuildTool)
    (hist : List ToolEvent) (h : w.Stat hist bt.InstallDir = true) :
    bt.Install w hist = ⟨[ToolEvent.stat bt.InstallDir], none⟩ := by
  unfold AnacondaBuildTool.Install
  simp [h]

theorem AnacondaBuildTool_Install_counts (w : ToolWorld) (bt : AnacondaBuildTool)
    (hist : List ToolEvent) :
    (bt.Install w hist).events.countP ToolEvent.isDownload ≤ 1 ∧
    (bt.Install w hist).events.countP ToolEvent.isUnarchive ≤ 1 := by
  unfold AnacondaBuildTool.Install
  simp only
  cases w.Stat hist bt.InstallDir
  · simp only [Bool.false_eq_true, if_false]
    split <;> simp [ToolEvent.isDownload, ToolEvent.isUnarchive]
  · simp [ToolEvent.isDownload, ToolEvent.isUnarchive]

theorem JavaBuildTool_DownloadUrl_of_JavaDir (w : ToolWorld) (bt : JavaBuildTool)
    (javaPath : String) (hjp : bt.JavaDir w = some javaPath) :
    ∃ url, bt.DownloadUrl w = some url := by
  unfold JavaBuildTool.JavaDir at hjp
  unfold JavaBuildTool.DownloadUrl
  cases hM : bt.MajorVersion <;> cases hm : bt.MinorVersion <;>
    cases hp : bt.PatchVersion <;> simp [hM, hm, hp] at hjp ⊢

theorem RLangBuildTool_Install_ne_none (w : ToolWorld) (bt : RLangBuildTool)
    (hist : List ToolEvent) : bt.Install w hist ≠ none := by
  have hu : ∃ url, bt.DownloadUrl = some url := by
    unfold RLangBuildTool.DownloadUrl RLangBuildTool.MajorVersion
    rw [stringsSplit_head]
    exact ⟨_, rfl⟩
  obtain ⟨url, hu⟩ := hu
  unfold RLangBuildTool.Install
  rw [hu]
  simp only
  cases w.Stat hist bt.RLangDir
  · simp only [Bool.false_eq_true, if_false]
    split
    · simp
    · split
      · split <;> simp
      · simp
  · simp

/-- Claim C14, as stated, fails: on a machine without network, where
nothing is installed, two calls of the Node buildpack's `Install` with the
same `BuildToolSpec` each call `DownloadFileWithCache`, and the second call
returns the download error instead of being a successful no-op. -/
theorem Install_twice_fetches_twice :
    ((NewNodeBuildTool sampleToolSpec).Install offlineMachine
        ((NewNodeBuildTool sampleToolSpec).Install offlineMachine []).events).err =
      some (.new "no network") ∧
    (((NewNodeBuildTool sampleToolSpec).Install offlineMachine []).events ++
      ((NewNodeBuildTool sampleToolSpec).Install offlineMachine
        ((NewNodeBuildTool sampleToolSpec).Install offlineMachine []).events).events).countP
      ToolEvent.isDownload = 2 := by
  decide

/-- Claim C14, amended: for the Node, Java, R and Anaconda buildpacks (Java:
for a version on which `JavaDir` does not panic), if the tool's install
directory exists when `Install` looks for it, `Install` does nothing but
look (Java: after making sure the parent directory exists) and returns nil;
every call returns, having downloaded at most once and unpacked at most
once; so when the directory exists at the second of two calls, the second
call is a successful no-op and the two calls together download and unpack at
most once. -/
theorem Install_noop_when_installed (w : ToolWorld) (hist : List ToolEvent)
    (node : NodeBuildTool) (java : JavaBuildTool) (r : RLangBuildTool)
    (conda : AnacondaBuildTool) :
    ((w.Stat hist (node.NodeDir w) = true →
        node.Install w hist = ⟨[ToolEvent.stat (node.NodeDir w)], none⟩) ∧
      (node.Install w hist).events.countP ToolEvent.isDownload ≤ 1 ∧
      (node.Install w hist).events.countP ToolEvent.isUnarchive ≤ 1 ∧
      (w.Stat (hist ++ (node.Install w hist).events) (node.NodeDir w) = true →
        node.Install w (hist ++ (node.Install w hist).events) =
          ⟨[ToolEvent.stat (node.NodeDir w)], none⟩ ∧
        ((node.Install w hist).events ++
          (node.Install w (hist ++ (node.Install w hist).events)).events).countP
            ToolEvent.isDownload ≤ 1 ∧
        ((node.Install w hist).events ++
          (node.Install w (hist ++ (node.Install w hist).events)).events).countP
            ToolEvent.isUnarchive ≤ 1)) ∧
    (∀ javaPath, java.JavaDir w = some javaPath →
      (w.Stat (hist ++ [ToolEvent.mkdirAsNeeded java.InstallDir]) javaPath = true →
        java.Install w hist =
          some ⟨[ToolEvent.mkdirAsNeeded java.InstallDir, ToolEvent.stat javaPath], none⟩) ∧
      ∃ first, java.Install w hist = some first ∧
        first.events.countP ToolEvent.isDownload ≤ 1 ∧
        first.events.countP ToolEvent.isUnarchive ≤ 1 ∧
        (w.Stat (hist ++ first.events ++ [ToolEvent.mkdirAsNeeded java.InstallDir])
            javaPath = true →
          java.Install w (hist ++ first.events) =
            some ⟨[ToolEvent.mkdirAsNeeded java.InstallDir, ToolEvent.stat javaPath], none⟩ ∧
          (first.events ++
            [ToolEvent.mkdirAsNeeded java.InstallDir, ToolEvent.stat javaPath]).countP
              ToolEvent.isDownload ≤ 1 ∧
          (first.events ++
            [ToolEvent.mkdirAsNeeded java.InstallDir, ToolEvent.stat javaPath]).countP
              ToolEvent.isUnarchive ≤ 1)) ∧
    ((w.Stat hist r.RLangDir = true →
        r.Install w hist = some ⟨[ToolEvent.stat r.RLangDir], none⟩) ∧
      ∃ first, r.Install w hist = some first ∧
        first.events.countP ToolEvent.isDownload ≤ 1 ∧
        first.events.countP ToolEvent.isUnarchive ≤ 1 ∧
        (w.Stat (hist ++ first.events) r.RLangDir = true →
          r.Install w (hist ++ first.events) = some ⟨[ToolEvent.stat r.RLangDir], none⟩ ∧
          (first.events ++ [ToolEvent.stat r.RLangDir]).countP ToolEvent.isDownload ≤ 1 ∧
          (first.events ++ [ToolEvent.stat r.RLangDir]).countP ToolEvent.isUnarchive ≤ 1)) ∧
    ((w.Stat hist conda.InstallDir = true →
        conda.Install w hist = ⟨[ToolEvent.stat conda.InstallDir], none⟩) ∧
      (conda.Install w hist).events.countP ToolEvent.isDownload ≤ 1 ∧
      (conda.Install w hist).events.countP ToolEvent.isUnarchive ≤ 1 ∧
      (w.Stat (hist ++ (conda.Install w hist).events) conda.InstallDir = true →
        conda.Install w (hist ++ (conda.Install w hist).events) =
          ⟨[ToolEvent.stat conda.InstallDir], none⟩ ∧
        ((conda.Install w hist).events ++
          (conda.Install w (hist ++ (conda.Install w hist).events)).events).countP
            ToolEvent.isDownload ≤ 1 ∧
        ((conda.Install w hist).events ++
          (conda.Install w (hist ++ (conda.Install w hist).events)).events).countP
            ToolEvent.isUnarchive ≤ 1)) := by
  have hn := NodeBuildTool_Install_counts w node hist
  have hc := AnacondaBuildTool_Install_counts w conda hist
  refine ⟨⟨NodeBuildTool_Install_of_exists w node hist, hn.1, hn.2, ?_⟩, ?_,
    ⟨RLangBuildTool_Install_of_exists w r hist, ?_⟩,
    ⟨AnacondaBuildTool_Install_of_exists w conda hist, hc.1, hc.2, ?_⟩⟩
  · intro h
    have h2 := NodeBuildTool_Install_of_exists w node _ h
    rw [h2]
    refine ⟨rfl, ?_, ?_⟩
    · rw [List.countP_append]
      simpa [ToolEvent.isDownload] using hn.1
    · rw [List.countP_append]
      simpa [ToolEvent.isUnarchive] using hn.2
  · intro javaPath hjp
    refine ⟨JavaBuildTool_Install_of_exists w java hist javaPath hjp, ?_⟩
    obtain ⟨url, hu⟩ := JavaBuildTool_DownloadUrl_of_JavaDir w java javaPath hjp
    obtain ⟨first, hfirst⟩ := Option.ne_none_iff_exists'.mp
      (JavaBuildTool_Install_ne_none w java hist javaPath url hjp hu)
    have hj := JavaBuildTool_Install_counts w java hist first hfirst
    refine ⟨first, hfirst, hj.1, hj.2, ?_⟩
    intro h
    refine ⟨JavaBuildTool_Install_of_exists w java _ javaPath hjp h, ?_, ?_⟩
    · rw [List.countP_append]
      simpa [ToolEvent.isDownload] using hj.1
    · rw [List.countP_append]
      simpa [ToolEvent.isUnarchive] using hj.2
  · obtain ⟨first, hfirst⟩ := Option.ne_none_iff_exists'.mp
      (RLangBuildTool_Install_ne_none w r hist)
    have hr := RLangBuildTool_Install_counts w r hist first hfirst
    refine ⟨first, hfirst, hr.1, hr.2, ?_⟩
    intro h
    refine ⟨RLangBuildTool_Install_of_exists w r _ h, ?_, ?_⟩
    · rw [List.countP_append]
      simpa [ToolEvent.isDownload] using hr.1
    · rw [List.countP_append]
      simpa [ToolEvent.isUnarchive] using hr.2
  · intro h
    have h2 := AnacondaBuildTool_Install_of_exists w conda _ h
    rw [h2]
    refine ⟨rfl, ?_, ?_⟩
    · rw [List.countP_append]
      simpa [ToolEvent.isDownload] using hc.1
    · rw [List.countP_append]
      simpa [ToolEvent.isUnarchive] using hc.2

theorem Install_noop_when_installed_witness :
    (NewNodeBuildTool sampleToolSpec).Install sampleMachine
        ([] ++ ((NewNodeBuildTool sampleToolSpec).Install sampleMachine []).events) =
      ⟨[ToolEvent.stat ((NewNodeBuildTool sampleToolSpec).NodeDir sampleMachine)], none⟩ ∧
    (((NewNodeBuildTool sampleToolSpec).Install sampleMachine []).events ++
      ((NewNodeBuildTool sampleToolSpec).Install sampleMachine
        ([] ++ ((NewNodeBuildTool sampleToolSpec).Install sampleMachine []).events)).events).countP
          ToolEvent.isDownload ≤ 1 ∧
    (((NewNodeBuildTool sampleToolSpec).Install sampleMachine []).events ++
      ((NewNodeBuildTool sampleToolSpec).Install sampleMachine
        ([] ++ ((NewNodeBuildTool sampleToolSpec).Install sampleMachine []).events)).events).countP
          ToolEvent.isUnarchive ≤ 1 :=
  (Install_noop_when_installed sampleMachine [] (NewNodeBuildTool sampleToolSpec)
    (NewJavaBuildTool sampleToolSpec) (NewRLangBuildTool sampleToolSpec)
    (NewAnaconda3BuildTool sampleToolSpec)).1.2.2.2 (by decide)

/-! ### Install directories -/

/-- Claim C15, as stated, fails: the Python buildpack's install directory
is not `<shared-cache>/<tool>/<tool>-<version>` and is the same for
versions 3.6 and 3.7, and the Anaconda buildpack's install directory lies
under the package cache directory, not under the shared cache root. -/
theorem install_dir_not_shared_tool_version :
    (NewPythonBuildTool ⟨"python", "3.6", "/cache", "/pkg/cache", "/src/app"⟩).AnacondaInstallDir =
      "/cache/miniconda3/miniconda-4.7.10" ∧
    (NewPythonBuildTool ⟨"python", "3.6", "/cache", "/pkg/cache", "/src/app"⟩).AnacondaInstallDir ≠
      specInstallDir "/cache" "python" "3.6" ∧
    (NewPythonBuildTool ⟨"python", "3.7", "/cache", "/pkg/cache", "/src/app"⟩).AnacondaInstallDir =
      (NewPythonBuildTool
        ⟨"python", "3.6", "/cache", "/pkg/cache", "/src/app"⟩).AnacondaInstallDir ∧
    (NewAnaconda3BuildTool ⟨"anaconda3", "4.5", "/cache", "/pkg/cache", "/src/app"⟩).InstallDir =
      "/pkg/cache/miniconda/miniconda-4.5" ∧
    (NewAnaconda3BuildTool ⟨"anaconda3", "4.5", "/cache", "/pkg/cache", "/src/app"⟩).InstallDir ≠
      specInstallDir "/cache" "anaconda3" "4.5" := by
  decide

/-- Claim C15, amended: for a shared cache root `/s1/.../sn`, a package
cache directory `/p1/.../pk` and a version without a slash, the R
buildpack's install directory is `<shared-cache>/R/R-<version>`, the
Anaconda buildpacks' is `<package-cache>/miniconda/miniconda-<version>`,
the Python buildpack's is `<shared-cache>/miniconda3/miniconda-4.7.10`
whatever the version, and the Node buildpack's is
`<shared-cache>/nodejs/node-v<version>-<os>-<arch>`; the R and Anaconda
directories differ for different versions. -/
theorem install_dir_forms (spec : BuildToolSpec) (shared pcache : List String)
    (hs : ∀ s ∈ shared, IsPathElem s) (hp : ∀ s ∈ pcache, IsPathElem s)
    (hshared : spec.SharedCacheDir = absPath shared)
    (hpcache : spec.PackageCacheDir = absPath pcache)
    (hv : '/' ∉ spec.Version.data) :
    (NewRLangBuildTool spec).RLangDir = absPath (shared ++ ["R", "R-" ++ spec.Version]) ∧
    (NewAnaconda2BuildTool spec).InstallDir =
      absPath (pcache ++ ["miniconda", "miniconda-" ++ spec.Version]) ∧
    (NewAnaconda3BuildTool spec).InstallDir =
      absPath (pcache ++ ["miniconda", "miniconda-" ++ spec.Version]) ∧
    (NewPythonBuildTool spec).AnacondaInstallDir =
      absPath (shared ++ ["miniconda3", "miniconda-4.7.10"]) ∧
    (∀ w : ToolWorld, '/' ∉ w.OS.data → '/' ∉ w.Arch.data →
      (NewNodeBuildTool spec).NodeDir w =
        absPath (shared ++ ["nodejs", (NewNodeBuildTool spec).PackageString w])) ∧
    (∀ other : BuildToolSpec, other.SharedCacheDir = spec.SharedCacheDir →
      other.PackageCacheDir = spec.PackageCacheDir → '/' ∉ other.Version.data →
      other.Version ≠ spec.Version →
      (NewRLangBuildTool other).RLangDir ≠ (NewRLangBuildTool spec).RLangDir ∧
      (NewAnaconda2BuildTool other).InstallDir ≠ (NewAnaconda2BuildTool spec).InstallDir ∧
      (NewAnaconda3BuildTool other).InstallDir ≠ (NewAnaconda3BuildTool spec).InstallDir) := by
  have hR : IsPathElem "R" := by decide
  have hmc : IsPathElem "miniconda" := by decide
  have hmc3 : IsPathElem "miniconda3" := by decide
  have hnj : IsPathElem "nodejs" := by decide
  have hfix : IsPathElem "miniconda-4.7.10" := by decide
  have hRv : ∀ v : String, '/' ∉ v.data → IsPathElem ("R-" ++ v) := fun v h =>
    isPathElem_append "R-" v 'R' ['-'] rfl (by decide) (by decide) h
  have hmv : ∀ v : String, '/' ∉ v.data → IsPathElem ("miniconda-" ++ v) := fun v h =>
    isPathElem_append "miniconda-" v 'm' "iniconda-".data rfl (by decide) (by decide) h
  have two : ∀ (root : List String) (a b : String), (∀ s ∈ root, IsPathElem s) →
      IsPathElem a → IsPathElem b →
      filepathJoin [filepathJoin [absPath root, a], b] = absPath (root ++ [a, b]) := by
    intro root a b hroot ha hb
    rw [filepathJoin_absPath root [a] hroot (by simpa using ha),
      filepathJoin_absPath (root ++ [a]) [b]
        (by intro s hs; rcases List.mem_append.mp hs with h | h
            · exact hroot s h
            · rw [List.mem_singleton.mp h]; exact ha)
        (by simpa using hb)]
    simp
  have three : ∀ (root : List String) (a b : String), (∀ s ∈ root, IsPathElem s) →
      IsPathElem a → IsPathElem b →
      filepathJoin [absPath root, a, b] = absPath (root ++ [a, b]) := by
    intro root a b hroot ha hb
    exact filepathJoin_absPath root [a, b] hroot
      (by intro s hs; simp at hs; rcases hs with h | h <;> rw [h] <;> assumption)
  have hRdir : ∀ sp : BuildToolSpec, sp.SharedCacheDir = absPath shared →
      '/' ∉ sp.Version.data →
      (NewRLangBuildTool sp).RLangDir = absPath (shared ++ ["R", "R-" ++ sp.Version]) := by
    intro sp h1 h2
    simp only [RLangBuildTool.RLangDir, RLangBuildTool.InstallDir, NewRLangBuildTool,
      RLangBuildTool.Version, h1]
    exact two shared "R" _ hs hR (hRv _ h2)
  have hA2 : ∀ sp : BuildToolSpec, sp.PackageCacheDir = absPath pcache →
      '/' ∉ sp.Version.data →
      (NewAnaconda2BuildTool sp).InstallDir =
        absPath (pcache ++ ["miniconda", "miniconda-" ++ sp.Version]) := by
    intro sp h1 h2
    simp only [AnacondaBuildTool.InstallDir, NewAnaconda2BuildTool,
      AnacondaBuildTool.Version, h1]
    exact three pcache "miniconda" _ hp hmc (hmv _ h2)
  have hA3 : ∀ sp : BuildToolSpec, sp.PackageCacheDir = absPath pcache →
      '/' ∉ sp.Version.data →
      (NewAnaconda3BuildTool sp).InstallDir =
        absPath (pcache ++ ["miniconda", "miniconda-" ++ sp.Version]) := by
    intro sp h1 h2
    simp only [AnacondaBuildTool.InstallDir, NewAnaconda3BuildTool,
      AnacondaBuildTool.Version, h1]
    exact three pcache "miniconda" _ hp hmc (hmv _ h2)
  have hdiff : ∀ (root : List String) (a pre v1 v2 : String), (∀ s ∈ root, IsPathElem s) →
      IsPathElem a → IsPathElem (pre ++ v1) → IsPathElem (pre ++ v2) → v1 ≠ v2 →
      absPath (root ++ [a, pre ++ v1]) ≠ absPath (root ++ [a, pre ++ v2]) := by
    intro root a pre v1 v2 hroot ha h1 h2 hne heq
    have hall : ∀ b, IsPathElem b → ∀ s ∈ root ++ [a, b], IsPathElem s := by
      intro b hb s hs
      rcases List.mem_append.mp hs with h | h
      · exact hroot s h
      · simp at h; rcases h with h | h <;> rw [h] <;> assumption
    have hl := absPath_injective _ _ (hall _ h1) (hall _ h2) (by simp) (by simp) heq
    have hl2 := List.append_cancel_left hl
    simp at hl2
    exact hne (string_append_left_cancel pre _ _ hl2)
  refine ⟨hRdir spec hshared hv, hA2 spec hpcache hv, hA3 spec hpcache hv, ?_, ?_, ?_⟩
  · simp only [PythonBuildTool.AnacondaInstallDir, NewPythonBuildTool, hshared,
      AnacondaToolVersion]
    exact three shared "miniconda3" _ hs hmc3 hfix
  · intro w hos harch
    simp only [NodeBuildTool.NodeDir, NodeBuildTool.InstallDir, NewNodeBuildTool, hshared]
    apply two shared "nodejs" _ hs hnj
    have harch2 : '/' ∉ (if w.Arch = "amd64" then "x64" else w.Arch).data := by
      split
      · decide
      · exact harch
    simp only [NodeBuildTool.PackageString, NodeBuildTool.Version, String.append_assoc]
    apply isPathElem_append "node-v" _ 'n' "ode-v".data rfl (by decide) (by decide)
    simp only [String.data_append, List.mem_append, not_or]
    exact ⟨hv, by decide, hos, by decide, harch2⟩
  · intro other ho1 ho2 hov hne
    rw [hRdir other (ho1.trans hshared) hov, hRdir spec hshared hv,
      hA2 other (ho2.trans hpcache) hov, hA2 spec hpcache hv,
      hA3 other (ho2.trans hpcache) hov, hA3 spec hpcache hv]
    exact ⟨hdiff shared "R" "R-" _ _ hs hR (hRv _ hov) (hRv _ hv) hne,
      hdiff pcache "miniconda" "miniconda-" _ _ hp hmc (hmv _ hov) (hmv _ hv) hne,
      hdiff pcache "miniconda" "miniconda-" _ _ hp hmc (hmv _ hov) (hmv _ hv) hne⟩

theorem install_dir_forms_witness :
    (NewRLangBuildTool ⟨"r", "3.5.1", "/cache", "/pkg/cache", "/src/app"⟩).RLangDir =
      absPath (["cache"] ++ ["R", "R-" ++ "3.5.1"]) ∧
    (NewAnaconda3BuildTool ⟨"r", "3.5.1", "/cache", "/pkg/cache", "/src/app"⟩).InstallDir =
      absPath (["pkg", "cache"] ++ ["miniconda", "miniconda-" ++ "3.5.1"]) ∧
    (NewPythonBuildTool ⟨"r", "3.5.1", "/cache", "/pkg/cache", "/src/app"⟩).AnacondaInstallDir =
      absPath (["cache"] ++ ["miniconda3", "miniconda-4.7.10"]) :=
  have h := install_dir_forms ⟨"r", "3.5.1", "/cache", "/pkg/cache", "/src/app"⟩
    ["cache"] ["pkg", "cache"] (by decide) (by decide) (by decide) (by decide) (by decide)
  ⟨h.1, h.2.2.1, h.2.2.2.1⟩

end Yb
